import Mathlib

/-!
WebSocket client of `model/websocket_client.go`

A shallow embedding of the Go type `WebSocketClient` and of its methods.

* The client struct is the record `WebSocketClient`; channels, timers and
  connections are objects of a heap kept in `World`, the struct fields hold
  references (indices) to them, `none` being Go's `nil`.
* Every method is a function `World → Res α` (`M α`): it returns normally
  (`Res.ok`), panics (`Res.panic`, for instance `close` of a closed channel) or
  parks its goroutine at a channel operation (`Res.blocked`).
* Goroutines started with `go` are recorded in the world: the number of writer
  goroutines and one record for each watchdog goroutine.
* Time is a natural number of seconds, `World.now`; timers fire when the clock
  is advanced to their deadline.
* Every observable action is appended to `World.trace`.
-/

namespace WebSocket

/-! ## Constants and plain data -/

/-- Go `int64` arithmetic wraps around: the value of an integer expression
    reduced to the range `-2^63 .. 2^63 - 1`. -/
def wrapInt64 (x : Int) : Int := (x + 2 ^ 63) % 2 ^ 64 - 2 ^ 63

/-- Largest `int64`. -/
def maxInt64 : Int := 2 ^ 63 - 1

/-- Smallest `int64`. -/
def minInt64 : Int := -(2 ^ 63)

/-- The constant `PING_TIMEOUT_BUFFER_SECONDS` (line 18). -/
def PING_TIMEOUT_BUFFER_SECONDS : Nat := 5

/-- The duration `time.Second * (60 + PING_TIMEOUT_BUFFER_SECONDS)` of lines
    276 and 285, in seconds. -/
def pingTimeoutSeconds : Nat := 60 + PING_TIMEOUT_BUFFER_SECONDS

/-- The type `msgType int` (line 21). -/
abbrev msgType := Nat

/-- The constant `msgTypeJSON = iota + 1` (line 24). -/
def msgTypeJSON : msgType := 1

/-- The constant `msgTypePong` (line 25). -/
def msgTypePong : msgType := 2

/-- The values stored in the `map[string]interface{}` of a request by this
    file: a string (`token`, `channel_id`, `parent_id`) or a slice of strings
    (`user_ids`). -/
inductive Value where
  | str (s : String)
  | strs (l : List String)
  deriving DecidableEq, Repr

/-- A `map[string]interface{}`: `none` is the nil map. -/
abbrev Data := Option (List (String × Value))

/-- The fields of `WebSocketRequest` that `SendMessage` assigns (lines 237-240).
    The struct is declared outside `src/`. -/
structure WebSocketRequest where
  Seq : Int
  Action : String
  Data : Data
  deriving DecidableEq, Repr

/-- The struct `writeMessage` (lines 28-31). `contents` is an `interface{}`
    that is either nil or a `*WebSocketRequest`. -/
structure writeMessage where
  msgType : msgType
  contents : Option WebSocketRequest
  deriving DecidableEq, Repr

/-- Modelled from the spec: the error shape "operation name, internal error
    key, human message, numeric category" of `AppError`, which is declared
    outside `src/`. -/
structure AppError where
  Where : String
  Id : String
  DetailedError : String
  StatusCode : Nat
  deriving DecidableEq, Repr

/-- Modelled from the spec: `NewAppError(where, id, params, details, status)`
    builds the uniform error shape from its arguments; it is declared outside
    `src/`. The `params` argument is always nil in this file. -/
def NewAppError (where_ id details : String) (status : Nat) : AppError :=
  { Where := where_, Id := id, DetailedError := details, StatusCode := status }

/-- The constant `http.StatusInternalServerError`. -/
def StatusInternalServerError : Nat := 500

/-- Modelled from the spec: an inbound event carries an "event type"
    discriminator; the rest of its body is not interpreted. The struct
    `WebSocketEvent` is declared outside `src/`. -/
structure WebSocketEvent where
  EventType : String
  Body : String
  deriving DecidableEq, Repr

/-- Modelled from the spec: an inbound response carries a status discriminator
    and a reply sequence number. The struct `WebSocketResponse` is declared
    outside `src/`. -/
structure WebSocketResponse where
  Status : String
  SeqReply : Int
  Body : String
  deriving DecidableEq, Repr

/-- Modelled from the spec: "an Event frame has a non-empty event type
    discriminator" (`WebSocketEvent.IsValid` is declared outside `src/`). -/
def WebSocketEvent.IsValid (e : WebSocketEvent) : Bool := e.EventType != ""

/-- Modelled from the spec: a response is "valid iff it carries a required
    status/result discriminator" (`WebSocketResponse.IsValid` is declared
    outside `src/`). -/
def WebSocketResponse.IsValid (r : WebSocketResponse) : Bool := r.Status != ""

/-- The bytes of one inbound frame (`json.RawMessage`). -/
abbrev RawMessage := String

/-- The two decoders used by `Listen`, both declared outside `src/` and taken
    as parameters: `WebSocketEventFromJson` (nil is `none`) and `json.Unmarshal`
    into a `WebSocketResponse` (`none` when it returns an error). -/
structure Codec where
  WebSocketEventFromJson : RawMessage → Option WebSocketEvent
  Unmarshal : RawMessage → Option WebSocketResponse

/-- The package constants used by the constructor that are declared outside
    `src/`. -/
structure Consts where
  API_URL_SUFFIX : String
  WEBSOCKET_AUTHENTICATION_CHALLENGE : String

/-- A dialer: for each URL either an error text or success. -/
abbrev Dialer := String → Except String Unit

/-- The error returned by a failed `Conn.ReadMessage`: the text of `Error()`
    and, for a `*websocket.CloseError`, its close code. -/
structure ReadError where
  closeCode : Option Nat
  text : String
  deriving DecidableEq, Repr

/-- The constant `websocket.CloseNormalClosure`. -/
def CloseNormalClosure : Nat := 1000

/-- The constant `websocket.CloseNoStatusReceived`. -/
def CloseNoStatusReceived : Nat := 1005

/-- The function `websocket.IsCloseError(err, codes...)`: the error is a
    `*CloseError` whose code is one of `codes`. -/
def IsCloseError (err : ReadError) (codes : List Nat) : Bool :=
  match err.closeCode with
  | some c => codes.contains c
  | none => false

/-- What one call of `Conn.ReadMessage` returns. -/
inductive ReadResult where
  | frame (rawMsg : RawMessage)
  | error (err : ReadError)
  deriving DecidableEq, Repr

/-! ## Heap objects -/

/-- The values carried by the buffered channels of the client. -/
inductive Item where
  | timeout (b : Bool)
  | event (e : WebSocketEvent)
  | response (r : WebSocketResponse)
  deriving DecidableEq, Repr

/-- A Go channel: capacity, buffered values (oldest first) and whether it has
    been closed. -/
structure Chan where
  cap : Nat
  buf : List Item
  closed : Bool
  deriving DecidableEq, Repr

/-- A `time.Timer`: `deadline` is the instant at which an armed timer fires,
    `C` the value held by its channel of capacity one (the firing time). -/
structure Timer where
  deadline : Option Nat
  C : Option Nat
  deriving DecidableEq, Repr

/-- A `websocket.Conn`: the address it was dialled with, whether it has been
    closed and whether `wsc.pingHandler` is registered on it. -/
structure Conn where
  url : String
  closed : Bool
  pingHandler : Bool
  deriving DecidableEq, Repr

/-- Where a `pingWatchdog` goroutine stands: parked in its `select`, parked in
    the send on `PingTimeoutChannel`, returned after that send, or returned
    through the cancellation case. -/
inductive WatchdogStatus where
  | waiting
  | sending
  | timedOut
  | cancelled
  deriving DecidableEq, Repr

/-- One `pingWatchdog` goroutine: the timer and the cancellation channel its
    `select` was entered with. -/
structure Watchdog where
  timer : Nat
  cancel : Option Nat
  status : WatchdogStatus
  deriving DecidableEq, Repr

/-- Run-time panics of the operations used by this file. -/
inductive Fault where
  | closeNilChan
  | closeClosedChan
  | sendClosedChan
  | nilDeref
  deriving DecidableEq, Repr

/-- The observable actions. -/
inductive Effect where
  | dial (url : String) (ok : Bool)
  | setPingHandler (conn : Nat)
  | newTimer (t : Nat) (deadline : Nat)
  | goWatchdog (wd : Nat)
  | goWriter
  | handoff (m : writeMessage)
  | closeChan (c : Nat)
  | connClose (conn : Nat)
  | timerStop (t : Nat) (wasActive : Bool)
  | timerDrain (t : Nat)
  | timerReset (t : Nat) (deadline : Nat)
  | timerFire (t : Nat) (time : Nat)
  | chanSend (c : Nat) (x : Item)
  | pingTimeout (wd : Nat) (time : Nat)
  | setListenError (e : AppError)
  | setClosed
  deriving DecidableEq, Repr

/-- The struct `WebSocketClient` (lines 35-55). `closeOnce` is the done flag of
    the `sync.Once`. -/
structure WebSocketClient where
  Url : String
  ApiUrl : String
  ConnectUrl : String
  Conn : Option Nat
  AuthToken : String
  Sequence : Int
  PingTimeoutChannel : Option Nat
  EventChannel : Option Nat
  ResponseChannel : Option Nat
  ListenError : Option AppError
  writeChan : Option Nat
  pingTimeoutTimer : Option Nat
  closePingWatchdog : Option Nat
  quitWriterChan : Option Nat
  quitReaderChan : Option Nat
  closeOnce : Bool
  closed : Bool
  deriving DecidableEq, Repr

/-- The zero value `WebSocketClient{}`. -/
def WebSocketClient.zero : WebSocketClient :=
  { Url := "", ApiUrl := "", ConnectUrl := "", Conn := none, AuthToken := "",
    Sequence := 0, PingTimeoutChannel := none, EventChannel := none,
    ResponseChannel := none, ListenError := none, writeChan := none,
    pingTimeoutTimer := none, closePingWatchdog := none, quitWriterChan := none,
    quitReaderChan := none, closeOnce := false, closed := false }

/-- The client object together with the heap, the goroutines, the clock and
    the trace.

    `writers` counts the goroutines running `writer()` that have not been
    signalled to stop; such a goroutine evaluates `wsc.writeChan` and
    `wsc.quitWriterChan` each time it enters its `select` (lines 184-193), so it
    waits on the client's current channels. `stoppedWriters` counts those whose
    stop signal has been closed.

    `sched` is the scheduler's choice for each writer goroutine that is
    started while `wsc.quitWriterChan` is a closed channel: `true` when the
    goroutine reaches its `select` before the statement that follows
    `go wsc.writer()` in the caller (it then returns at once through the stop
    case), `false` when the caller runs first. The choices are used in order;
    when none is left the caller runs first. -/
structure World where
  wsc : WebSocketClient
  chans : List Chan
  timers : List Timer
  conns : List Conn
  writers : Nat
  stoppedWriters : Nat
  watchdogs : List Watchdog
  now : Nat
  trace : List Effect
  sched : List Bool
  deriving DecidableEq, Repr

/-- A world with an empty heap at instant `now`; `wsc` is the zero value. -/
def World.boot (now : Nat) : World :=
  { wsc := WebSocketClient.zero, chans := [], timers := [], conns := [],
    writers := 0, stoppedWriters := 0, watchdogs := [], now := now, trace := [],
    sched := [] }

/-- The result of running a piece of code: normal return, panic, or the
    goroutine parked for good at a channel operation; each with the world
    reached. -/
inductive Res (α : Type) where
  | ok (a : α) (w : World)
  | panic (f : Fault) (w : World)
  | blocked (w : World)
  deriving DecidableEq, Repr

/-- Code acting on the world. -/
def M (α : Type) : Type := World → Res α

/-- Sequencing: the second part runs only when the first returns. -/
def M.bind {α β : Type} (m : M α) (f : α → M β) : M β := fun w =>
  match m w with
  | .ok a w' => f a w'
  | .panic e w' => .panic e w'
  | .blocked w' => .blocked w'

instance : Monad M where
  pure a := fun w => .ok a w
  bind := M.bind

/-- The current world. -/
def getW : M World := fun w => .ok w w

/-- Replace the client struct. -/
def setWsc (c : WebSocketClient) : M Unit := fun w => .ok () { w with wsc := c }

/-- Append an action to the trace. -/
def emit (e : Effect) : M Unit := fun w => .ok () { w with trace := w.trace ++ [e] }

/-- A run-time panic. -/
def raise {α : Type} (f : Fault) : M α := fun w => .panic f w

/-- The goroutine parks for good. -/
def park {α : Type} : M α := fun w => .blocked w

/-- The world a result carries. -/
def Res.world {α : Type} : Res α → World
  | .ok _ w => w
  | .panic _ w => w
  | .blocked w => w

/-- Whether the code returned normally. -/
def Res.isOk {α : Type} : Res α → Bool
  | .ok _ _ => true
  | _ => false

/-! ## Channels, timers, connections and goroutines -/

/-- The statement `make(chan T, cap)`: a fresh open channel. -/
def makeChan (cap : Nat) : M Nat := fun w =>
  .ok w.chans.length { w with chans := w.chans ++ [{ cap := cap, buf := [], closed := false }] }

/-- Whether a receive from the channel is ready because it is closed; a nil
    channel is never ready. -/
def chanClosed (r : Option Nat) (w : World) : Bool :=
  match r with
  | none => false
  | some c =>
    match w.chans[c]? with
    | some ch => ch.closed
    | none => false

/-- A watchdog parked in its `select` returns through the cancellation case
    (lines 296-297) when its cancellation channel is closed. -/
def wakeCancelled (c : Nat) (wd : Watchdog) : Watchdog :=
  if wd.status = .waiting ∧ wd.cancel = some c then { wd with status := .cancelled } else wd

/-- The statement `close(ch)`. Closing a nil or a closed channel panics. The
    goroutines parked on the channel wake up: a watchdog whose cancellation
    channel it is returns, and the writers return (lines 192-193) when it is
    the client's `quitWriterChan`. -/
def closeChan (r : Option Nat) : M Unit := fun w =>
  match r with
  | none => .panic .closeNilChan w
  | some c =>
    match w.chans[c]? with
    | none => .panic .closeNilChan w
    | some ch =>
      if ch.closed then .panic .closeClosedChan w
      else
        .ok () { w with
          chans := w.chans.set c { ch with closed := true }
          watchdogs := w.watchdogs.map (wakeCancelled c)
          writers := if w.wsc.quitWriterChan = some c then 0 else w.writers
          stoppedWriters :=
            if w.wsc.quitWriterChan = some c then w.stoppedWriters + w.writers
            else w.stoppedWriters
          trace := w.trace ++ [.closeChan c] }

/-- The statement `ch <- x` on a buffered channel: it parks on a nil channel
    and on a full one, and panics on a closed one. -/
def sendChan (r : Option Nat) (x : Item) : M Unit := fun w =>
  match r with
  | none => .blocked w
  | some c =>
    match w.chans[c]? with
    | none => .blocked w
    | some ch =>
      if ch.closed then .panic .sendClosedChan w
      else if ch.buf.length < ch.cap then
        .ok () { w with
          chans := w.chans.set c { ch with buf := ch.buf ++ [x] }
          trace := w.trace ++ [.chanSend c x] }
      else .blocked w

/-- The statement `wsc.writeChan <- m`. The channel is unbuffered (lines 81,
    124): the send completes when a writer goroutine receives the message
    (line 185), parks when the channel is nil or no writer is receiving, and
    panics when the channel is closed. -/
def sendWriteChan (m : writeMessage) : M Unit := fun w =>
  match w.wsc.writeChan with
  | none => .blocked w
  | some c =>
    match w.chans[c]? with
    | none => .blocked w
    | some ch =>
      if ch.closed then .panic .sendClosedChan w
      else if w.writers = 0 then .blocked w
      else .ok () { w with trace := w.trace ++ [.handoff m] }

/-- The call `time.NewTimer(d)`: a fresh timer that fires `d` seconds from
    now. -/
def newTimer (d : Nat) : M Nat := fun w =>
  .ok w.timers.length { w with
    timers := w.timers ++ [{ deadline := some (w.now + d), C := none }]
    trace := w.trace ++ [.newTimer w.timers.length (w.now + d)] }

/-- The call `t.Stop()`: it reports whether the timer was still armed and
    disarms it. -/
def timerStop (r : Option Nat) : M Bool := fun w =>
  match r with
  | none => .panic .nilDeref w
  | some t =>
    match w.timers[t]? with
    | none => .panic .nilDeref w
    | some tm =>
      .ok tm.deadline.isSome { w with
        timers := w.timers.set t { tm with deadline := none }
        trace := w.trace ++ [.timerStop t tm.deadline.isSome] }

/-- The statement `<-t.C`: it takes the value held by the timer's channel and
    parks when there is none. -/
def timerDrain (r : Option Nat) : M Unit := fun w =>
  match r with
  | none => .panic .nilDeref w
  | some t =>
    match w.timers[t]? with
    | none => .panic .nilDeref w
    | some tm =>
      match tm.C with
      | none => .blocked w
      | some _ =>
        .ok () { w with
          timers := w.timers.set t { tm with C := none }
          trace := w.trace ++ [.timerDrain t] }

/-- The call `t.Reset(d)`: the timer fires `d` seconds from now. -/
def timerReset (r : Option Nat) (d : Nat) : M Unit := fun w =>
  match r with
  | none => .panic .nilDeref w
  | some t =>
    match w.timers[t]? with
    | none => .panic .nilDeref w
    | some tm =>
      .ok () { w with
        timers := w.timers.set t { tm with deadline := some (w.now + d) }
        trace := w.trace ++ [.timerReset t (w.now + d)] }

/-- The call `dialer.Dial(url, nil)`: on success a fresh connection, on
    failure a nil connection and the error text. -/
def dial (dialer : Dialer) (url : String) : M (Option Nat × Option String) := fun w =>
  match dialer url with
  | .error e => .ok (none, some e) { w with trace := w.trace ++ [.dial url false] }
  | .ok _ =>
    .ok (some w.conns.length, none) { w with
      conns := w.conns ++ [{ url := url, closed := false, pingHandler := false }]
      trace := w.trace ++ [.dial url true] }

/-- The call `wsc.Conn.SetPingHandler(wsc.pingHandler)` (line 275). -/
def setPingHandler : M Unit := fun w =>
  match w.wsc.Conn with
  | none => .panic .nilDeref w
  | some c =>
    match w.conns[c]? with
    | none => .panic .nilDeref w
    | some cn =>
      .ok () { w with
        conns := w.conns.set c { cn with pingHandler := true }
        trace := w.trace ++ [.setPingHandler c] }

/-- The call `wsc.Conn.Close()` (line 165). -/
def connClose : M Unit := fun w =>
  match w.wsc.Conn with
  | none => .panic .nilDeref w
  | some c =>
    match w.conns[c]? with
    | none => .panic .nilDeref w
    | some cn =>
      .ok () { w with
        conns := w.conns.set c { cn with closed := true }
        trace := w.trace ++ [.connClose c] }

/-- The scheduler's next choice (see `World.sched`): whether a writer
    goroutine started now reaches its `select` before its caller goes on. -/
def runsFirst (sched : List Bool) : Bool :=
  match sched with
  | b :: _ => b
  | [] => false

/-- The statement `go wsc.writer()` (lines 88, 125). The new goroutine enters
    the `select` of lines 184-193 on `wsc.writeChan` and `wsc.quitWriterChan`.
    When `wsc.quitWriterChan` is open or nil, the goroutine waits there. When
    it is a closed channel (line 125 on a closed client: the channel that
    `Close` closed is replaced only at line 132), the goroutine returns at
    once if it reaches its `select` before the caller goes on, and waits on
    the client's later channels otherwise; `World.sched` says which. -/
def goWriter : M Unit := fun w =>
  if chanClosed w.wsc.quitWriterChan w then
    if runsFirst w.sched then
      .ok () { w with
        stoppedWriters := w.stoppedWriters + 1
        trace := w.trace ++ [.goWriter]
        sched := w.sched.tail }
    else
      .ok () { w with
        writers := w.writers + 1
        trace := w.trace ++ [.goWriter]
        sched := w.sched.tail }
  else .ok () { w with writers := w.writers + 1, trace := w.trace ++ [.goWriter] }

/-- The statement `go wsc.pingWatchdog()` (line 277): the goroutine enters the
    `select` of lines 293-297 on `wsc.pingTimeoutTimer.C` and
    `wsc.closePingWatchdog`. Both objects have just been made by the caller
    (lines 82 and 276, 128 and 276). -/
def goWatchdog : M Unit := fun w =>
  match w.wsc.pingTimeoutTimer with
  | none => .panic .nilDeref w
  | some t =>
    .ok () { w with
      watchdogs := w.watchdogs ++
        [{ timer := t, cancel := w.wsc.closePingWatchdog, status := .waiting }]
      trace := w.trace ++ [.goWatchdog w.watchdogs.length] }

/-- A timer whose deadline has been reached fires: it is disarmed and the
    firing time is put in its channel unless the channel already holds one. -/
def fireTimer (now : Nat) (tm : Timer) : Timer :=
  match tm.deadline with
  | some d =>
    if d ≤ now then
      { deadline := none, C := if tm.C.isSome then tm.C else some d }
    else tm
  | none => tm

/-- The watchdog goroutine `i`, parked in its `select`, receives the value of
    its timer's channel (line 294) and sends `true` on `wsc.PingTimeoutChannel`
    (line 295); it parks in that send when the channel is nil or full. -/
def watchdogWake (i : Nat) : M Unit := fun w =>
  match w.watchdogs[i]? with
  | none => .ok () w
  | some wd =>
    if wd.status ≠ .waiting then .ok () w
    else
      match w.timers[wd.timer]? with
      | none => .ok () w
      | some tm =>
        match tm.C with
        | none => .ok () w
        | some v =>
          let timers' := w.timers.set wd.timer { tm with C := none }
          let parked : World := { w with
            timers := timers'
            watchdogs := w.watchdogs.set i { wd with status := .sending } }
          match w.wsc.PingTimeoutChannel with
          | none => .ok () parked
          | some c =>
            match w.chans[c]? with
            | none => .ok () parked
            | some ch =>
              if ch.closed then .panic .sendClosedChan parked
              else if ch.buf.length < ch.cap then
                .ok () { w with
                  timers := timers'
                  watchdogs := w.watchdogs.set i { wd with status := .timedOut }
                  chans := w.chans.set c { ch with buf := ch.buf ++ [.timeout true] }
                  trace := w.trace ++ [.pingTimeout i v] }
              else .ok () parked

/-- Run `watchdogWake` for the listed goroutines. -/
def wakeAll : List Nat → M Unit
  | [] => pure ()
  | i :: is => do
    watchdogWake i
    wakeAll is

/-- The clock reaches instant `t`: the timers that are due fire and the
    watchdogs parked on them wake up. -/
def advance (t : Nat) : M Unit := fun w =>
  wakeAll (List.range w.watchdogs.length)
    { w with now := max w.now t, timers := w.timers.map (fireTimer (max w.now t)) }

/-! ## The methods of `WebSocketClient` -/

/-- The method `SendMessage` (lines 236-247). -/
def SendMessage (action : String) (data : Data) : M Unit := do
  let w ← getW
  let req : WebSocketRequest := { Seq := w.wsc.Sequence, Action := action, Data := data }
  setWsc { w.wsc with Sequence := wrapInt64 (w.wsc.Sequence + 1) }
  sendWriteChan { msgType := msgTypeJSON, contents := some req }

/-- The method `UserTyping` (lines 251-258). -/
def UserTyping (channelId parentId : String) : M Unit :=
  SendMessage "user_typing" (some [("channel_id", .str channelId), ("parent_id", .str parentId)])

/-- The method `GetStatuses` (lines 261-263). -/
def GetStatuses : M Unit :=
  SendMessage "get_statuses" none

/-- The method `GetStatusesByIds` (lines 267-272). -/
def GetStatusesByIds (userIds : List String) : M Unit :=
  SendMessage "get_statuses_by_ids" (some [("user_ids", .strs userIds)])

/-- The method `configurePingHandling` (lines 274-278). -/
def configurePingHandling : M Unit := do
  setPingHandler
  let t ← newTimer pingTimeoutSeconds
  let w ← getW
  setWsc { w.wsc with pingTimeoutTimer := some t }
  goWatchdog

/-- The method `pingHandler` (lines 280-290); the returned error is always
    nil. -/
def pingHandler (_appData : String) : M (Option String) := do
  let w ← getW
  let stopped ← timerStop w.wsc.pingTimeoutTimer
  (if !stopped then timerDrain w.wsc.pingTimeoutTimer else pure ())
  timerReset w.wsc.pingTimeoutTimer pingTimeoutSeconds
  sendWriteChan { msgType := msgTypePong, contents := none }
  return none

/-- The function `NewWebSocketClientWithDialer` (lines 65-93). The struct
    literal of lines 71-85 is stored in `World.wsc`; the result is the pair
    (client, error) of the Go function. -/
def NewWebSocketClientWithDialer (K : Consts) (dialer : Dialer) (url authToken : String) :
    M (Option WebSocketClient × Option AppError) := do
  let (conn, err) ← dial dialer (url ++ K.API_URL_SUFFIX ++ "/websocket")
  match err with
  | some e =>
    return (none, some (NewAppError "NewWebSocketClient"
      "model.websocket_client.connect_fail.app_error" e StatusInternalServerError))
  | none =>
    let pingTimeoutChannel ← makeChan 1
    let eventChannel ← makeChan 100
    let responseChannel ← makeChan 100
    let writeChan ← makeChan 0
    let closePingWatchdog ← makeChan 0
    let quitWriterChan ← makeChan 0
    let quitReaderChan ← makeChan 0
    setWsc
      { Url := url
        ApiUrl := url ++ K.API_URL_SUFFIX
        ConnectUrl := url ++ K.API_URL_SUFFIX ++ "/websocket"
        Conn := conn
        AuthToken := authToken
        Sequence := 1
        PingTimeoutChannel := some pingTimeoutChannel
        EventChannel := some eventChannel
        ResponseChannel := some responseChannel
        ListenError := none
        writeChan := some writeChan
        pingTimeoutTimer := none
        closePingWatchdog := some closePingWatchdog
        quitWriterChan := some quitWriterChan
        quitReaderChan := some quitReaderChan
        closeOnce := false
        closed := false }
    configurePingHandling
    goWriter
    SendMessage K.WEBSOCKET_AUTHENTICATION_CHALLENGE (some [("token", .str authToken)])
    let w ← getW
    return (some w.wsc, none)

/-- The method `ConnectWithDialer` (lines 115-148). Line 117 assigns `wsc.Conn`
    before the error is looked at. On a closed client the Writer is started
    (line 125) before `quitWriterChan` is replaced (line 132); `goWriter` says
    what becomes of it, and when it has returned the send of line 145 parks. -/
def ConnectWithDialer (K : Consts) (dialer : Dialer) : M (Option AppError) := do
  let w ← getW
  let (conn, err) ← dial dialer w.wsc.ConnectUrl
  let w ← getW
  setWsc { w.wsc with Conn := conn }
  match err with
  | some e =>
    return some (NewAppError "Connect"
      "model.websocket_client.connect_fail.app_error" e StatusInternalServerError)
  | none =>
    let w ← getW
    (if w.wsc.writeChan.isNone || w.wsc.closed then do
      let c ← makeChan 0
      let w ← getW
      setWsc { w.wsc with writeChan := some c }
      goWriter
    else pure ())
    let w ← getW
    (if w.wsc.closePingWatchdog.isNone || w.wsc.closed then do
      let c ← makeChan 0
      let w ← getW
      setWsc { w.wsc with closePingWatchdog := some c }
      configurePingHandling
    else pure ())
    let w ← getW
    (if w.wsc.quitWriterChan.isNone || w.wsc.closed then do
      let c ← makeChan 0
      let w ← getW
      setWsc { w.wsc with quitWriterChan := some c }
    else pure ())
    let w ← getW
    (if w.wsc.quitReaderChan.isNone || w.wsc.closed then do
      let c ← makeChan 0
      let w ← getW
      setWsc { w.wsc with quitReaderChan := some c }
    else pure ())
    let w ← getW
    (if w.wsc.closed then
      setWsc { w.wsc with closeOnce := false, closed := false }
    else pure ())
    let eventChannel ← makeChan 100
    let w ← getW
    setWsc { w.wsc with EventChannel := some eventChannel }
    let responseChannel ← makeChan 100
    let w ← getW
    setWsc { w.wsc with ResponseChannel := some responseChannel }
    let w ← getW
    SendMessage K.WEBSOCKET_AUTHENTICATION_CHALLENGE (some [("token", .str w.wsc.AuthToken)])
    return none

/-- The function passed to `closeOnce.Do` (lines 159-179). -/
def closeBody : M Unit := do
  let w ← getW
  closeChan w.wsc.quitWriterChan
  closeChan w.wsc.writeChan
  connClose
  closeChan w.wsc.quitReaderChan
  closeChan w.wsc.EventChannel
  closeChan w.wsc.ResponseChannel
  closeChan w.wsc.closePingWatchdog
  let w ← getW
  setWsc { w.wsc with closed := true }
  emit .setClosed

/-- The call `closeOnce.Do(f)`: `f` runs when the `sync.Once` has not been
    used, and the `Once` is marked done when `f` returns or panics. -/
def onceDo (f : M Unit) : M Unit := fun w =>
  if w.wsc.closeOnce then .ok () w
  else
    match f w with
    | .ok _ w' => .ok () { w' with wsc := { w'.wsc with closeOnce := true } }
    | .panic e w' => .panic e { w' with wsc := { w'.wsc with closeOnce := true } }
    | .blocked w' => .blocked w'

/-- The method `Close` (lines 153-180). -/
def Close : M Unit := onceDo closeBody

/-- How one iteration of the loop of `Listen` ends: `continue` or `return`. -/
inductive LoopCtl where
  | next
  | exit
  deriving DecidableEq, Repr

/-- One iteration of the loop of `Listen` (lines 203-231), given what
    `Conn.ReadMessage` returns when it is called. -/
def listenIter (C : Codec) (r : ReadResult) : M LoopCtl := do
  let w ← getW
  if chanClosed w.wsc.quitReaderChan w then
    return .exit
  else if w.wsc.Conn.isNone then
    raise .nilDeref
  else
    match r with
    | .error err =>
      (if !IsCloseError err [CloseNormalClosure, CloseNoStatusReceived] then do
        setWsc { w.wsc with ListenError := some (NewAppError "NewWebSocketClient"
          "model.websocket_client.connect_fail.app_error" err.text StatusInternalServerError) }
        emit (.setListenError (NewAppError "NewWebSocketClient"
          "model.websocket_client.connect_fail.app_error" err.text StatusInternalServerError))
      else pure ())
      return .exit
    | .frame rawMsg =>
      match C.WebSocketEventFromJson rawMsg with
      | none => return .next
      | some event =>
        if event.IsValid then
          sendChan w.wsc.EventChannel (.event event)
          return .next
        else
          match C.Unmarshal rawMsg with
          | some response =>
            if response.IsValid then
              sendChan w.wsc.ResponseChannel (.response response)
              return .next
            else return .next
          | none => return .next

/-- The loop of `Listen` (lines 202-232) run on the successive results of
    `Conn.ReadMessage`; when they are used up the goroutine is parked in the
    next read unless the stop signal is observed first. -/
def readerLoop (C : Codec) : List ReadResult → M Unit
  | [] => do
    let w ← getW
    if chanClosed w.wsc.quitReaderChan w then
      return ()
    else park
  | r :: rs => do
    match (← listenIter C r) with
    | .exit => return ()
    | .next => readerLoop C rs

/-- The statement `defer wsc.Close()` (line 200): `Close` runs when the body
    returns and when it panics. -/
def deferClose (body : M Unit) : M Unit := fun w =>
  match body w with
  | .ok _ w' => Close w'
  | .panic e w' =>
    match Close w' with
    | .ok _ w'' => .panic e w''
    | .panic e' w'' => .panic e' w''
    | .blocked w'' => .blocked w''
  | .blocked w' => .blocked w'

/-- The goroutine started by `Listen` (lines 198-234). -/
def Listen (C : Codec) (reads : List ReadResult) : M Unit :=
  deferClose (readerLoop C reads)

/-! ## Observations on runs -/

/-- The messages received by the Writer, in the order of the hand-offs. -/
def handed : List Effect → List writeMessage
  | [] => []
  | .handoff m :: es => m :: handed es
  | _ :: es => handed es

/-- The sequence number of a message handed to the Writer, when it carries a
    request. -/
def seqOf (m : writeMessage) : Option Int := m.contents.map (fun r => r.Seq)

/-- Consecutive calls of `SendMessage` by one goroutine, one for each
    (action, data) pair. -/
def sendAll : List (String × Data) → M Unit
  | [] => pure ()
  | (action, data) :: rest => do
    SendMessage action data
    sendAll rest

/-- The JSON requests for the given calls numbered `s`, `s + 1`, ... in that
    order. -/
def requestsFrom (s : Int) : List (String × Data) → List writeMessage
  | [] => []
  | (action, data) :: rest =>
    { msgType := msgTypeJSON, contents := some { Seq := s, Action := action, Data := data } }
      :: requestsFrom (s + 1) rest

/-- The Writer can take a message: `wsc.writeChan` is an open channel and a
    writer goroutine is receiving on it. -/
def WriterReady (w : World) : Prop :=
  ∃ c ch, w.wsc.writeChan = some c ∧ w.chans[c]? = some ch ∧ ch.closed = false ∧ 0 < w.writers

/-- Sample package constants. -/
def sampleConsts : Consts :=
  { API_URL_SUFFIX := "/api/v4", WEBSOCKET_AUTHENTICATION_CHALLENGE := "authentication_challenge" }

/-- A dialer that always succeeds. -/
def okDialer : Dialer := fun _ => .ok ()

/-- A dialer that always fails. -/
def failDialer : Dialer := fun _ => .error "connection refused"

/-- The world right after `NewWebSocketClientWithDialer` succeeded at instant 0
    in an empty world. -/
def sampleWorld : World :=
  (NewWebSocketClientWithDialer sampleConsts okDialer "ws://localhost:8065" "token" (World.boot 0)).world

/-- The sample world with the sequence counter at the largest `int64`. -/
def lastSeqWorld : World :=
  { sampleWorld with wsc := { sampleWorld.wsc with Sequence := maxInt64 } }

/-- The sample world after `Close`. -/
def closedWorld : World := (Close sampleWorld).world

/-- The messages handed to the Writer between world `w0` and the later world
    `w`. -/
def handedSince (w0 w : World) : List writeMessage :=
  (handed w.trace).drop (handed w0.trace).length

/-- Whether the frame decodes to an event whose `IsValid()` is true. -/
def Codec.validEvent (C : Codec) (rawMsg : RawMessage) : Bool :=
  match C.WebSocketEventFromJson rawMsg with
  | some event => event.IsValid
  | none => false

/-- Whether the frame unmarshals to a response whose `IsValid()` is true. -/
def Codec.validResponse (C : Codec) (rawMsg : RawMessage) : Bool :=
  match C.Unmarshal rawMsg with
  | some response => response.IsValid
  | none => false

/-- The Reader is at a read: its stop signal is not closed and the client has
    a connection. -/
def ReaderAtRead (w : World) : Prop :=
  chanClosed w.wsc.quitReaderChan w = false ∧ w.wsc.Conn.isSome = true

/-- The frame `{"event_type":"typing"}` of Scenario D. -/
def frameTyping : RawMessage := "\x7b\"event_type\":\"typing\"\x7d"

/-- The frame `{"status":"ok","seq_reply":3}` of Scenario D. -/
def frameStatusOk : RawMessage := "\x7b\"status\":\"ok\",\"seq_reply\":3\x7d"

/-- The frame `{"foo":"bar"}` of Scenario D. -/
def frameFoo : RawMessage := "\x7b\"foo\":\"bar\"\x7d"

/-- A frame carrying both discriminators. -/
def frameBoth : RawMessage := "\x7b\"event_type\":\"typing\",\"status\":\"ok\",\"seq_reply\":3\x7d"

/-- A frame with a status whose `seq` field is not a number. -/
def frameBadSeq : RawMessage := "\x7b\"status\":\"ok\",\"seq\":\"x\"\x7d"

/-- Modelled from the spec: the decoders on the frames of Scenario D. A JSON
    object decodes to an event and to a response holding the discriminators it
    carries (empty when absent); other bytes decode to nothing. -/
def scenarioCodec : Codec :=
  { WebSocketEventFromJson := fun rawMsg =>
      if rawMsg = frameTyping then some { EventType := "typing", Body := "" }
      else if rawMsg = frameBoth then some { EventType := "typing", Body := "" }
      else if rawMsg = frameStatusOk then some { EventType := "", Body := "" }
      else if rawMsg = frameFoo then some { EventType := "", Body := "" }
      else none
    Unmarshal := fun rawMsg =>
      if rawMsg = frameTyping then some { Status := "", SeqReply := 0, Body := "" }
      else if rawMsg = frameBoth then some { Status := "ok", SeqReply := 3, Body := "" }
      else if rawMsg = frameStatusOk then some { Status := "ok", SeqReply := 3, Body := "" }
      else if rawMsg = frameFoo then some { Status := "", SeqReply := 0, Body := "" }
      else none }

/-- A decoder pair whose event decoder returns nil for a frame that it cannot
    decode (`frameBadSeq`), while `json.Unmarshal` into a response, which has no
    such field, accepts the same bytes. -/
def rejectingCodec : Codec :=
  { WebSocketEventFromJson := fun rawMsg =>
      if rawMsg = frameBadSeq then none else some { EventType := "", Body := "" }
    Unmarshal := fun rawMsg =>
      if rawMsg = frameBadSeq then some { Status := "ok", SeqReply := 0, Body := "" }
      else none }

/-- The given number of consecutive calls of `Close`. -/
def closeTimes : Nat → M Unit
  | 0 => pure ()
  | n + 1 => do
    Close
    closeTimes n

/-- An open client: the `sync.Once` has not been used, the six channels that
    `Close` closes are distinct open channels, and the connection is set. -/
structure OpenClient (w : World) (qw wc qr ev rs cp cn : Nat) : Prop where
  once : w.wsc.closeOnce = false
  quitWriter : w.wsc.quitWriterChan = some qw
  write : w.wsc.writeChan = some wc
  quitReader : w.wsc.quitReaderChan = some qr
  events : w.wsc.EventChannel = some ev
  responses : w.wsc.ResponseChannel = some rs
  closeWatchdog : w.wsc.closePingWatchdog = some cp
  conn : w.wsc.Conn = some cn
  connLive : ∃ k, w.conns[cn]? = some k
  distinct : [qw, wc, qr, ev, rs, cp].Nodup
  isOpen : ∀ c ∈ [qw, wc, qr, ev, rs, cp], ∃ ch, w.chans[c]? = some ch ∧ ch.closed = false

/-- The timeout signals sent on `PingTimeoutChannel`: for each, the watchdog
    goroutine and the instant. -/
def timeouts : List Effect → List (Nat × Nat)
  | [] => []
  | .pingTimeout i t :: es => (i, t) :: timeouts es
  | _ :: es => timeouts es

/-- Pings are delivered by the transport, and handled, at the listed
    instants. -/
def pingsAt : List Nat → M Unit
  | [] => pure ()
  | t :: ts => do
    advance t
    let _ ← pingHandler ""
    pingsAt ts

/-- Each ping comes less than `D` after the one before it, the first less than
    `D` after instant `last`. -/
def pingsInTime (D : Nat) : Nat → List Nat → Prop
  | _, [] => True
  | last, t :: ts => last ≤ t ∧ t < last + D ∧ pingsInTime D t ts

/-- The instant of the last listed ping, `t0` when there is none. -/
def lastPing : Nat → List Nat → Nat
  | t0, [] => t0
  | _, t :: ts => lastPing t ts

/-- The watchdog installed on the client is armed since instant `last`, which
    is now: the client's deadline timer is pending with deadline
    `last + 65`, every watchdog goroutine parked in its `select` waits on that
    timer, and the Writer is receiving. -/
structure Armed (w : World) (tid last : Nat) : Prop where
  timer : w.wsc.pingTimeoutTimer = some tid
  armed : w.timers[tid]? = some { deadline := some (last + pingTimeoutSeconds), C := none }
  clock : w.now = last
  watch : ∀ wd ∈ w.watchdogs, wd.status = .waiting → wd.timer = tid
  writer : WriterReady w

/-- Pings handled at the listed instants, then the clock read at instant
    `T`. -/
def pingsThen (ts : List Nat) (T : Nat) : M Unit := do
  pingsAt ts
  advance T

/-- The number of assignments to `wsc.ListenError` (line 211) in a trace. -/
def listenErrorWrites : List Effect → Nat
  | [] => 0
  | .setListenError _ :: es => listenErrorWrites es + 1
  | _ :: es => listenErrorWrites es

/-- The number of timeout signals sent by watchdog goroutine `i`. -/
def timeoutsBy (i : Nat) (tr : List Effect) : Nat :=
  ((timeouts tr).filter (fun p => p.1 = i)).length

/-- The first watchdog parked in the send of line 295, if any. -/
def firstSending : List Watchdog → Option Nat
  | [] => none
  | wd :: wds => if wd.status = .sending then some 0 else (firstSending wds).map (· + 1)

/-- After a receive made room in channel `c`: when `c` is the client's
    `PingTimeoutChannel`, the first watchdog parked in the send of line 295
    completes it and returns. -/
def resumeSender (c : Nat) (w : World) : World :=
  if w.wsc.PingTimeoutChannel = some c then
    match firstSending w.watchdogs with
    | none => w
    | some i =>
      match w.watchdogs[i]?, w.chans[c]? with
      | some wd, some ch =>
        if ch.closed = false ∧ ch.buf.length < ch.cap then
          { w with
            watchdogs := w.watchdogs.set i { wd with status := .timedOut }
            chans := w.chans.set c { ch with buf := ch.buf ++ [.timeout true] }
            trace := w.trace ++ [.pingTimeout i w.now] }
        else w
      | _, _ => w
  else w

/-- The application receives from one of the client's queues (`<-ch`): it
    parks on a nil channel and on an open empty one, gets the zero value from a
    closed empty one, and otherwise takes the oldest value. -/
def recvChan (r : Option Nat) : M (Option Item) := fun w =>
  match r with
  | none => .blocked w
  | some c =>
    match w.chans[c]? with
    | none => .blocked w
    | some ch =>
      match ch.buf with
      | [] => if ch.closed then .ok none w else .blocked w
      | x :: rest =>
        .ok (some x) (resumeSender c { w with chans := w.chans.set c { ch with buf := rest } })

/-- One iteration of the Reader goroutine: the loop body, and the deferred
    `Close` of line 200 when the loop is left. -/
def readerStep (C : Codec) (r : ReadResult) : M Unit := fun w =>
  match listenIter C r w with
  | .ok .next w' => .ok () w'
  | .ok .exit w' => Close w'
  | .panic e w' =>
    match Close w' with
    | .ok _ w'' => .panic e w''
    | .panic e' w'' => .panic e' w''
    | .blocked w'' => .blocked w''
  | .blocked w' => .blocked w'

/-- What can happen to a client: calls of its methods by the application,
    steps of the Reader, pings delivered by the transport, the passing of time
    and receives from its queues. -/
inductive Action where
  | send (action : String) (data : Data)
  | userTyping (channelId parentId : String)
  | getStatuses
  | getStatusesByIds (userIds : List String)
  | connect (dialer : Dialer)
  | close
  | read (r : ReadResult)
  | ping (appData : String)
  | tick (t : Nat)
  | recvEvent
  | recvResponse
  | recvTimeout

/-- The code run by an action. -/
def perform (C : Codec) (K : Consts) : Action → M Unit
  | .send action data => SendMessage action data
  | .userTyping channelId parentId => UserTyping channelId parentId
  | .getStatuses => GetStatuses
  | .getStatusesByIds userIds => GetStatusesByIds userIds
  | .connect dialer => do
    let _ ← ConnectWithDialer K dialer
  | .close => Close
  | .read r => readerStep C r
  | .ping appData => do
    let _ ← pingHandler appData
  | .tick t => advance t
  | .recvEvent => do
    let w ← getW
    let _ ← recvChan w.wsc.EventChannel
  | .recvResponse => do
    let w ← getW
    let _ ← recvChan w.wsc.ResponseChannel
  | .recvTimeout => do
    let w ← getW
    let _ ← recvChan w.wsc.PingTimeoutChannel

/-- The world after a sequence of actions. A goroutine that parks leaves the
    others running; a panic ends the program, so the run stops there. -/
def runActions (C : Codec) (K : Consts) : List Action → World → World
  | [], w => w
  | a :: rest, w =>
    match perform C K a w with
    | .ok _ w' => runActions C K rest w'
    | .blocked w' => runActions C K rest w'
    | .panic _ w' => w'

/-- The code `m` preserves the property `P` of worlds, however it ends. -/
structure Stable (P : World → Prop) {α : Type} (m : M α) : Prop where
  pres : ∀ w, P w → P (m w).world

/-- A property of worlds that does not depend on the client struct and that
    every operation on channels, timers, connections and goroutines
    preserves. -/
structure PrimStable (P : World → Prop) : Prop where
  wsc : ∀ (w : World) (c : WebSocketClient), P w → P { w with wsc := c }
  clock : ∀ (w : World) (t : Nat), P w →
    P { w with now := max w.now t, timers := w.timers.map (fireTimer (max w.now t)) }
  makeChan : ∀ cap, Stable P (makeChan cap)
  closeChan : ∀ r, Stable P (closeChan r)
  sendChan : ∀ r x, Stable P (sendChan r x)
  sendWriteChan : ∀ m, Stable P (sendWriteChan m)
  newTimer : ∀ d, Stable P (newTimer d)
  timerStop : ∀ r, Stable P (timerStop r)
  timerDrain : ∀ r, Stable P (timerDrain r)
  timerReset : ∀ r d, Stable P (timerReset r d)
  dial : ∀ dialer url, Stable P (dial dialer url)
  setPingHandler : Stable P setPingHandler
  connClose : Stable P connClose
  goWriter : Stable P goWriter
  goWatchdog : Stable P goWatchdog
  watchdogWake : ∀ i, Stable P (watchdogWake i)
  recvChan : ∀ r, Stable P (recvChan r)
  emitClosed : Stable P (emit .setClosed)

/-- Watchdog goroutine `i` has returned after sending its timeout signal, and
    the trace holds `k` timeout signals sent by it. -/
def TimedOut (i k : Nat) (w : World) : Prop :=
  (∃ wd, w.watchdogs[i]? = some wd ∧ wd.status = .timedOut) ∧ timeoutsBy i w.trace = k

/-- The sample client after its watchdog timed out at instant 65 with nobody
    reading `PingTimeoutChannel`, a `Close` and a successful
    `ConnectWithDialer`: open again, a second watchdog armed for instant 130,
    the first timeout signal still in `PingTimeoutChannel`. -/
def staleWorld : World :=
  (runActions scenarioCodec sampleConsts [.tick 65, .close, .connect okDialer] sampleWorld)

/-- What the `select` of the writer loop receives (lines 184-194): a message
    from `wsc.writeChan` or the stop signal from `wsc.quitWriterChan`. -/
inductive WriterInput where
  | message (msg : writeMessage)
  | quit
  deriving DecidableEq, Repr

/-- The constant `websocket.PongMessage`. -/
def PongMessage : Nat := 10

/-- A write on the connection: `Conn.WriteJSON(v)` or
    `Conn.WriteMessage(messageType, data)`. -/
inductive TransportWrite where
  | writeJSON (conn : Nat) (v : Option WebSocketRequest)
  | writeMessage (conn : Nat) (messageType : Nat) (data : List Nat)
  deriving DecidableEq, Repr

/-- How a run of the writer goroutine stands when its inputs are used up: it
    has returned (line 193), it waits in the `select`, or it has panicked on a
    nil `wsc.Conn`. -/
inductive WriterExit where
  | returned
  | waiting
  | crashed
  deriving DecidableEq, Repr

/-- A run of the writer goroutine: the writes it made in order, the errors
    those writes returned (lines 188 and 190 drop them), how it stands, and the
    world it leaves. -/
structure WriterRun where
  writes : List TransportWrite
  dropped : List String
  exit : WriterExit
  world : World
  deriving DecidableEq, Repr

/-- The method `writer` (lines 182-196) run on what its `select` receives.
    `writeErr k` is the error, if any, that the write number `k` of the run
    returns. -/
def writer (writeErr : Nat → Option String) : List WriterInput → World → WriterRun
  | [], w => { writes := [], dropped := [], exit := .waiting, world := w }
  | .quit :: _, w => { writes := [], dropped := [], exit := .returned, world := w }
  | .message msg :: rest, w =>
    if msg.msgType = msgTypeJSON then
      match w.wsc.Conn with
      | none => { writes := [], dropped := [], exit := .crashed, world := w }
      | some c =>
        let run := writer (fun k => writeErr (k + 1)) rest w
        { run with
          writes := .writeJSON c msg.contents :: run.writes
          dropped := (writeErr 0).toList ++ run.dropped }
    else if msg.msgType = msgTypePong then
      match w.wsc.Conn with
      | none => { writes := [], dropped := [], exit := .crashed, world := w }
      | some c =>
        let run := writer (fun k => writeErr (k + 1)) rest w
        { run with
          writes := .writeMessage c PongMessage [] :: run.writes
          dropped := (writeErr 0).toList ++ run.dropped }
    else writer writeErr rest w

/-- The messages received before the stop signal. -/
def beforeQuit : List WriterInput → List writeMessage
  | [] => []
  | .quit :: _ => []
  | .message msg :: rest => msg :: beforeQuit rest

/-- The write that lines 186-191 make for a message on connection `conn`: one
    `WriteJSON` of the contents for `msgTypeJSON`, one pong control frame with
    empty payload for `msgTypePong`, none for any other type. -/
def writeFor (conn : Nat) (msg : writeMessage) : List TransportWrite :=
  if msg.msgType = msgTypeJSON then [.writeJSON conn msg.contents]
  else if msg.msgType = msgTypePong then [.writeMessage conn PongMessage []]
  else []

/-- The values sent on the client's queues, with the channel of each, in the
    order of the sends. -/
def queued : List Effect → List (Nat × Item)
  | [] => []
  | .chanSend c x :: es => (c, x) :: queued es
  | _ :: es => queued es

/-- The values sent on the client's queues between world `w0` and the later
    world `w`. -/
def queuedSince (w0 w : World) : List (Nat × Item) :=
  (queued w.trace).drop (queued w0.trace).length

/-- The closing actions of a trace: closes of channels and of connections and
    the setting of `closed`. -/
def teardown : List Effect → List Effect
  | [] => []
  | .closeChan c :: es => .closeChan c :: teardown es
  | .connClose c :: es => .connClose c :: teardown es
  | .setClosed :: es => .setClosed :: teardown es
  | _ :: es => teardown es

/-- The world after the given reads when every iteration of the Reader loop
    ends with `continue`; `none` when one of them leaves the loop, parks or
    panics. -/
def loopThrough (C : Codec) : List ReadResult → World → Option World
  | [], w => some w
  | r :: rs, w =>
    match listenIter C r w with
    | .ok .next w' => loopThrough C rs w'
    | _ => none

/-- The sample client after a `ConnectWithDialer` whose dial failed: line 117
    has set `Conn` to nil. -/
def lostConnWorld : World := (ConnectWithDialer sampleConsts failDialer sampleWorld).world

/-- The sample client while another goroutine is inside `Close` and has run
    lines 161-162: the Writer's two channels are closed, the connection is
    still open. -/
def closingWorld : World :=
  ((do
    let w ← getW
    closeChan w.wsc.quitWriterChan
    closeChan w.wsc.writeChan : M Unit) sampleWorld).world

/-- Reference `r` is a closed channel of the heap `chans`. -/
def closedIn (chans : List Chan) (r : Option Nat) : Bool :=
  match r with
  | none => false
  | some c =>
    match chans[c]? with
    | some ch => ch.closed
    | none => false

/-- A writer goroutine started now keeps running: `wsc.quitWriterChan` is not
    a closed channel, or the scheduler lets the caller of `go wsc.writer()`
    run first. -/
def WriterStays (w : World) : Prop :=
  chanClosed w.wsc.quitWriterChan w = true → runsFirst w.sched = false

/-- A writer goroutine started now returns at once: `wsc.quitWriterChan` is a
    closed channel and the goroutine reaches its `select` before its caller
    goes on. -/
def WriterLeaves (w : World) : Prop :=
  chanClosed w.wsc.quitWriterChan w = true ∧ runsFirst w.sched = true

/-- The sample world after `Close`, under a schedule in which the next writer
    goroutine started with a closed stop channel reaches its `select` before
    its caller goes on. -/
def racedWorld : World := { closedWorld with sched := [true] }

/-- World `wp` is what lines 116-140 of `ConnectWithDialer` make of world `w`
    when the dial succeeds, just before the authentication request of line
    142 is sent. -/
structure Reconnected (w wp : World) : Prop where
  sequence : wp.wsc.Sequence = w.wsc.Sequence
  token : wp.wsc.AuthToken = w.wsc.AuthToken
  timeoutChannel : wp.wsc.PingTimeoutChannel = w.wsc.PingTimeoutChannel
  handedSame : handed wp.trace = handed w.trace
  clock : wp.now = w.now
  conn : wp.wsc.Conn = some w.conns.length
  conns : wp.conns = w.conns ++
    [{ url := w.wsc.ConnectUrl, closed := false,
       pingHandler := w.wsc.closePingWatchdog.isNone || w.wsc.closed }]
  queues : ∃ a b, wp.wsc.EventChannel = some a ∧ wp.wsc.ResponseChannel = some b ∧ a ≠ b ∧
    w.chans.length ≤ a ∧ w.chans.length ≤ b ∧
    wp.chans[a]? = some { cap := 100, buf := [], closed := false } ∧
    wp.chans[b]? = some { cap := 100, buf := [], closed := false }
  chansKept : ∃ l, wp.chans = w.chans ++ l
  isOpen : wp.wsc.closed = false
  once : wp.wsc.closeOnce = (if w.wsc.closed then false else w.wsc.closeOnce)
  writerNew : w.wsc.writeChan = none ∨ w.wsc.closed = true → WriterStays w → WriterReady wp
  writerCount : wp.writers ≤ w.writers + 1
  writerSet : ∃ c, wp.wsc.writeChan = some c
  startsNone : (∃ c, w.wsc.writeChan = some c) → w.wsc.closed = false →
    ∃ es, wp.trace = w.trace ++ es ∧ Effect.goWriter ∉ es
  writerGone : w.wsc.writeChan = none ∨ w.wsc.closed = true → WriterLeaves w →
    wp.writers = w.writers ∧
    ∃ c, wp.wsc.writeChan = some c ∧
      wp.chans[c]? = some { cap := 0, buf := [], closed := false }
  writerKept : (∃ c, w.wsc.writeChan = some c) → w.wsc.closed = false →
    wp.wsc.writeChan = w.wsc.writeChan ∧ wp.writers = w.writers
  installs : w.wsc.closePingWatchdog = none ∨ w.wsc.closed = true →
    ∃ cp, wp.wsc.closePingWatchdog = some cp ∧
      wp.chans[cp]? = some { cap := 0, buf := [], closed := false } ∧
      wp.wsc.pingTimeoutTimer = some w.timers.length ∧
      wp.timers = w.timers ++ [{ deadline := some (w.now + pingTimeoutSeconds), C := none }] ∧
      wp.watchdogs = w.watchdogs ++
        [{ timer := w.timers.length, cancel := some cp, status := .waiting }]
  keeps : (∃ c, w.wsc.closePingWatchdog = some c) → w.wsc.closed = false →
    wp.wsc.closePingWatchdog = w.wsc.closePingWatchdog ∧
      wp.wsc.pingTimeoutTimer = w.wsc.pingTimeoutTimer ∧
      wp.timers = w.timers ∧ wp.watchdogs = w.watchdogs

/-- A fresh client: a struct literal that sets only `ConnectUrl` and
    `AuthToken`, in an empty world; `ConnectWithDialer` has not been called
    yet. -/
def freshWorld : World :=
  { World.boot 0 with
    wsc := { WebSocketClient.zero with
      ConnectUrl := "ws://localhost:8065/api/v4/websocket", AuthToken := "token" } }

/-- The sample client at instant 65 with no ping handled: its watchdog has
    sent the timeout signal and returned; the client has not been closed. -/
def timedOutWorld : World := (advance 65 sampleWorld).world

/-- The watchdog goroutines parked in the `select` of lines 293-297. -/
def waitingWatchdogs (w : World) : List Watchdog :=
  w.watchdogs.filter (fun wd => wd.status = .waiting)

/-- Channel `c` of the heap was made with capacity 100 and holds at most 100
    values. -/
def boundedAt (chans : List Chan) (c : Nat) : Prop :=
  ∃ ch, chans[c]? = some ch ∧ ch.cap = 100 ∧ ch.buf.length ≤ 100

/-- Channel `c` of the world is a queue of capacity 100 holding at most 100
    undelivered items. -/
def QueueBounded (c : Nat) (w : World) : Prop := boundedAt w.chans c

/-- The client's `EventChannel` and `ResponseChannel`, when set, are queues of
    capacity 100 holding at most 100 undelivered items each. -/
def QueuesBounded (w : World) : Prop :=
  ∀ c, w.wsc.EventChannel = some c ∨ w.wsc.ResponseChannel = some c → QueueBounded c w

/-- The client's two queue fields hold the references `e` and `r`. -/
def QueuesAre (e r : Option Nat) (w : World) : Prop :=
  w.wsc.EventChannel = e ∧ w.wsc.ResponseChannel = r

/-- The sample client after its Reader has read 100 typing events that no
    consumer has received. -/
def fullWorld : World :=
  runActions scenarioCodec sampleConsts (List.replicate 100 (.read (.frame frameTyping)))
    sampleWorld

/-- The effects recorded between world `w0` and the later world `w`. -/
def effectsSince (w0 w : World) : List Effect :=
  w.trace.drop w0.trace.length

/-- The position of the first rearming of a timer in a list of effects; the
    length of the list when there is none. -/
def firstReset : List Effect → Nat
  | [] => 0
  | .timerReset _ _ :: _ => 0
  | _ :: es => firstReset es + 1

/-- The position of the first hand-off to the Writer in a list of effects; the
    length of the list when there is none. -/
def firstHandoff : List Effect → Nat
  | [] => 0
  | .handoff _ :: _ => 0
  | _ :: es => firstHandoff es + 1

/-- Watchdog goroutine `i` has returned through the cancellation case of its
    `select` (lines 296-297), and the trace holds `k` timeout signals sent by
    it. -/
def Cancelled (i k : Nat) (w : World) : Prop :=
  (∃ wd, w.watchdogs[i]? = some wd ∧ wd.status = .cancelled) ∧ timeoutsBy i w.trace = k

/-- The client struct is `c0` except possibly for `closed` and the done flag
    of `closeOnce`. -/
def ClosingOf (c0 : WebSocketClient) (w : World) : Prop :=
  ∃ b1 b2, w.wsc = { c0 with closed := b1, closeOnce := b2 }

/-- Capacity and contents of every channel of the heap, in order. -/
def contents (w : World) : List (Nat × List Item) :=
  w.chans.map (fun ch => (ch.cap, ch.buf))

/-- Lines 161-178: what the function passed to `closeOnce.Do` does after it
    has closed `quitWriterChan`; `w` is the client at entry. -/
def closeRest (w : World) : M Unit := do
  closeChan w.wsc.writeChan
  connClose
  closeChan w.wsc.quitReaderChan
  closeChan w.wsc.EventChannel
  closeChan w.wsc.ResponseChannel
  closeChan w.wsc.closePingWatchdog
  let w ← getW
  setWsc { w.wsc with closed := true }
  emit .setClosed

/-- The client's `writeChan` is `wc`, its `closed` flag is `cl`, and `n`
    writer goroutines are running that have not been told to stop. -/
def WriterIs (wc : Option Nat) (cl : Bool) (n : Nat) (w : World) : Prop :=
  w.wsc.writeChan = wc ∧ w.wsc.closed = cl ∧ w.writers = n

/-- At most one writer goroutine that has not been told to stop is running,
    and none on a client that has no `writeChan` yet or is closed. -/
def OneWriter (w : World) : Prop :=
  w.writers ≤ 1 ∧ (w.wsc.writeChan = none ∨ w.wsc.closed = true → w.writers = 0)

/-! ## Properties -/

section Basics

variable {α β : Type}

@[simp] theorem bind_apply (m : M α) (f : α → M β) (w : World) :
    (m >>= f) w = match m w with
      | .ok a w' => f a w'
      | .panic e w' => .panic e w'
      | .blocked w' => .blocked w' := rfl

@[simp] theorem pure_apply (a : α) (w : World) : (pure a : M α) w = .ok a w := rfl

@[simp] theorem getW_apply (w : World) : getW w = .ok w w := rfl

@[simp] theorem setWsc_apply (c : WebSocketClient) (w : World) :
    setWsc c w = .ok () { w with wsc := c } := rfl

@[simp] theorem emit_apply (e : Effect) (w : World) :
    emit e w = .ok () { w with trace := w.trace ++ [e] } := rfl

@[simp] theorem handed_nil : handed [] = [] := rfl

@[simp] theorem handed_cons_handoff (m : writeMessage) (es : List Effect) :
    handed (.handoff m :: es) = m :: handed es := rfl

theorem handed_append (xs ys : List Effect) : handed (xs ++ ys) = handed xs ++ handed ys := by
  induction xs with
  | nil => rfl
  | cons e es ih => cases e <;> simp [handed, ih]

theorem wrapInt64_of_range (x : Int) (hlo : minInt64 ≤ x) (hhi : x ≤ maxInt64) :
    wrapInt64 x = x := by
  unfold wrapInt64
  unfold minInt64 at hlo
  unfold maxInt64 at hhi
  omega

/-- A send on a ready Writer returns, hands the request over and advances the
    counter with `int64` arithmetic. -/
theorem SendMessage_ready (w : World) (action : String) (data : Data) (h : WriterReady w) :
    SendMessage action data w = .ok ()
      { w with
        wsc := { w.wsc with Sequence := wrapInt64 (w.wsc.Sequence + 1) }
        trace := w.trace ++ [.handoff ⟨msgTypeJSON, some ⟨w.wsc.Sequence, action, data⟩⟩] } := by
  obtain ⟨c, ch, hc, hch, hopen, hw⟩ := h
  have hw' : w.writers ≠ 0 := by omega
  simp [SendMessage, sendWriteChan, hc, hch, hopen, hw']

/-- With no Writer receiving on the open `writeChan` the send of line 243
    parks; `Sequence` has been incremented. -/
theorem SendMessage_parks (w : World) (action : String) (data : Data) (c : Nat) (ch : Chan)
    (hc : w.wsc.writeChan = some c) (hch : w.chans[c]? = some ch) (hopen : ch.closed = false)
    (hw : w.writers = 0) :
    SendMessage action data w = .blocked
      { w with wsc := { w.wsc with Sequence := wrapInt64 (w.wsc.Sequence + 1) } } := by
  simp [SendMessage, sendWriteChan, hc, hch, hopen, hw]

theorem chanClosed_eq (r : Option Nat) (w : World) : chanClosed r w = closedIn w.chans r := rfl

theorem closedIn_none (chans : List Chan) : closedIn chans none = false := rfl

/-- Making a channel does not change which references are closed channels. -/
theorem closedIn_append_open (chans : List Chan) (r : Option Nat) (cap : Nat) :
    closedIn (chans ++ [{ cap := cap, buf := [], closed := false }]) r = closedIn chans r := by
  cases r with
  | none => rfl
  | some c =>
    unfold closedIn
    rcases Nat.lt_trichotomy c chans.length with h | h | h
    · simp [List.getElem?_append_left h]
    · subst h
      simp
    · have h1 : chans.length ≤ c := Nat.le_of_lt h
      simp only
      rw [List.getElem?_append_right h1]
      have h2 : chans[c]? = none := List.getElem?_eq_none h1
      have h3 : [({ cap := cap, buf := [], closed := false } : Chan)][c - chans.length]? = none :=
        List.getElem?_eq_none (by simp; omega)
      rw [h2, h3]

theorem goWriter_stays (w : World) (h : WriterStays w) :
    goWriter w = .ok () { w with
      writers := w.writers + 1
      trace := w.trace ++ [.goWriter]
      sched := if chanClosed w.wsc.quitWriterChan w then w.sched.tail else w.sched } := by
  unfold goWriter
  by_cases hq : chanClosed w.wsc.quitWriterChan w = true
  · simp [hq, h hq]
  · simp [hq]

theorem goWriter_leaves (w : World) (h : WriterLeaves w) :
    goWriter w = .ok () { w with
      stoppedWriters := w.stoppedWriters + 1
      trace := w.trace ++ [.goWriter]
      sched := w.sched.tail } := by
  unfold goWriter
  simp [h.1, h.2]

end Basics

section Sending

theorem getElem?_append_add {α : Type} (l l' : List α) (k : Nat) :
    (l ++ l')[l.length + k]? = l'[k]? := by
  rw [List.getElem?_append_right (by omega)]
  simp

theorem handedSince_of_append (w0 w : World) (ms : List writeMessage)
    (h : handed w.trace = handed w0.trace ++ ms) : handedSince w0 w = ms := by
  simp [handedSince, h]

theorem requestsFrom_length (calls : List (String × Data)) :
    ∀ s : Int, (requestsFrom s calls).length = calls.length := by
  induction calls with
  | nil => intro s; rfl
  | cons c rest ih =>
    intro s
    obtain ⟨a, d⟩ := c
    simp [requestsFrom, ih]

theorem requestsFrom_seq (calls : List (String × Data)) :
    ∀ s : Int, (requestsFrom s calls).map seqOf =
      (List.range calls.length).map (fun (k : Nat) => some (s + (k : Int))) := by
  induction calls with
  | nil => intro s; rfl
  | cons c rest ih =>
    intro s
    obtain ⟨a, d⟩ := c
    simp only [requestsFrom, List.map_cons, List.length_cons, List.range_succ_eq_map,
      List.map_map, ih]
    refine congrArg₂ _ ?_ ?_
    · simp [seqOf]
    · apply List.map_congr_left
      intro k _
      simp only [Function.comp, Nat.cast_succ]
      congr 1
      ring

/-- Consecutive sends on a ready Writer, away from the end of the `int64`
    range. -/
theorem sendAll_ready (calls : List (String × Data)) :
    ∀ w : World, WriterReady w → minInt64 ≤ w.wsc.Sequence →
      w.wsc.Sequence + calls.length ≤ maxInt64 →
      ∃ w', sendAll calls w = .ok () w' ∧ WriterReady w' ∧
        handed w'.trace = handed w.trace ++ requestsFrom w.wsc.Sequence calls ∧
        w'.wsc.Sequence = w.wsc.Sequence + calls.length := by
  induction calls with
  | nil =>
    intro w hr _ _
    exact ⟨w, rfl, hr, by simp [requestsFrom], by simp⟩
  | cons c rest ih =>
    intro w hr hlo hhi
    obtain ⟨a, d⟩ := c
    have hlen : ((a, d) :: rest).length = rest.length + 1 := rfl
    rw [hlen] at hhi
    push_cast at hhi
    have hwrap : wrapInt64 (w.wsc.Sequence + 1) = w.wsc.Sequence + 1 :=
      wrapInt64_of_range _ (by omega) (by omega)
    have hr' : WriterReady
        { w with
          wsc := { w.wsc with Sequence := wrapInt64 (w.wsc.Sequence + 1) }
          trace := w.trace ++ [.handoff ⟨msgTypeJSON, some ⟨w.wsc.Sequence, a, d⟩⟩] } := by
      obtain ⟨c, ch, hc, hch, hopen, hw⟩ := hr
      exact ⟨c, ch, hc, hch, hopen, hw⟩
    obtain ⟨w', hrun, hready, hh, hs⟩ := ih _ hr' (by simp only [hwrap]; omega)
      (by simp only [hwrap]; omega)
    refine ⟨w', ?_, hready, ?_, ?_⟩
    · simp only [sendAll, bind_apply, SendMessage_ready w a d hr]
      exact hrun
    · rw [hh]
      simp [handed_append, requestsFrom, hwrap]
    · rw [hs]
      simp only [hwrap, hlen]
      push_cast
      ring

end Sending

section Construction

/-- What a successful `NewWebSocketClientWithDialer` returns and leaves
    behind. -/
theorem New_dial_ok (K : Consts) (dialer : Dialer) (url authToken : String) (w0 : World)
    (hd : dialer (url ++ K.API_URL_SUFFIX ++ "/websocket") = .ok ()) :
    ∃ w, NewWebSocketClientWithDialer K dialer url authToken w0 = .ok (some w.wsc, none) w ∧
      w.wsc.Sequence = 2 ∧ WriterReady w ∧
      w.trace = w0.trace ++
        [.dial (url ++ K.API_URL_SUFFIX ++ "/websocket") true,
         .setPingHandler w0.conns.length,
         .newTimer w0.timers.length (w0.now + pingTimeoutSeconds),
         .goWatchdog w0.watchdogs.length,
         .goWriter,
         .handoff ⟨msgTypeJSON, some ⟨1, K.WEBSOCKET_AUTHENTICATION_CHALLENGE,
           some [("token", .str authToken)]⟩⟩] := by
  have h2 : wrapInt64 2 = 2 := by decide
  simp [NewWebSocketClientWithDialer, dial, hd, makeChan, configurePingHandling, setPingHandler,
    newTimer, goWatchdog, goWriter, SendMessage, sendWriteChan, List.getElem_append_right, h2,
    chanClosed, List.getElem?_append_right]
  refine ⟨_, ⟨rfl, rfl⟩, rfl, ?_, rfl⟩
  refine ⟨w0.chans.length + 3, ⟨0, [], false⟩, rfl, ?_, rfl, Nat.succ_pos _⟩
  exact getElem?_append_add _ _ 3

end Construction

section ClaimC1

/-- C1, as amended. On a client whose Writer is receiving on an open
    `writeChan`, with `Sequence = s` in the `int64` range and `N` calls such that
    `s + N` does not exceed the largest `int64`, `N` consecutive `SendMessage`
    calls all return, hand the Writer exactly the `N` requests numbered
    `s, s+1, ..., s+N-1` in call order and leave `Sequence = s + N`; right
    after a successful construction the numbers are `2, ..., N+1`. -/
theorem sendAll_sequence (w : World) (calls : List (String × Data))
    (hready : WriterReady w) (hlo : minInt64 ≤ w.wsc.Sequence)
    (hhi : w.wsc.Sequence + calls.length ≤ maxInt64) :
    (∃ w', sendAll calls w = .ok () w' ∧
      handedSince w w' = requestsFrom w.wsc.Sequence calls ∧
      (handedSince w w').length = calls.length ∧
      (handedSince w w').map seqOf =
        (List.range calls.length).map (fun (k : Nat) => some (w.wsc.Sequence + (k : Int))) ∧
      w'.wsc.Sequence = w.wsc.Sequence + calls.length) ∧
    (∀ (K : Consts) (dialer : Dialer) (url authToken : String) (w0 : World),
      dialer (url ++ K.API_URL_SUFFIX ++ "/websocket") = .ok () →
      (2 : Int) + calls.length ≤ maxInt64 →
      ∃ w1 w', NewWebSocketClientWithDialer K dialer url authToken w0 = .ok (some w1.wsc, none) w1 ∧
        sendAll calls w1 = .ok () w' ∧
        (handedSince w1 w').map seqOf =
          (List.range calls.length).map (fun (k : Nat) => some (2 + (k : Int))) ∧
        w'.wsc.Sequence = 2 + calls.length) := by
  constructor
  · obtain ⟨w', hrun, _, hh, hs⟩ := sendAll_ready calls w hready hlo hhi
    have hsince := handedSince_of_append w w' _ hh
    exact ⟨w', hrun, hsince, by rw [hsince, requestsFrom_length],
      by rw [hsince, requestsFrom_seq], hs⟩
  · intro K dialer url authToken w0 hd hN
    obtain ⟨w1, hnew, hseq, hr, _⟩ := New_dial_ok K dialer url authToken w0 hd
    obtain ⟨w', hrun, _, hh, hs⟩ := sendAll_ready calls w1 hr
      (by rw [hseq]; decide) (by rw [hseq]; exact hN)
    have hsince := handedSince_of_append w1 w' _ hh
    exact ⟨w1, w', hnew, hrun, by rw [hsince, requestsFrom_seq, hseq], by rw [hs, hseq]⟩

theorem sampleWorld_ready : WriterReady sampleWorld :=
  ⟨3, { cap := 0, buf := [], closed := false }, rfl, rfl, rfl, by decide⟩

/-- Instance of C1 as amended: three sends after construction. -/
theorem sendAll_sequence_witness :
    (∃ w', sendAll [("user_typing", none), ("get_statuses", none), ("ping", none)] sampleWorld
        = .ok () w' ∧
      handedSince sampleWorld w' = requestsFrom sampleWorld.wsc.Sequence
        [("user_typing", none), ("get_statuses", none), ("ping", none)] ∧
      (handedSince sampleWorld w').length = 3 ∧
      (handedSince sampleWorld w').map seqOf =
        (List.range 3).map (fun (k : Nat) => some (sampleWorld.wsc.Sequence + (k : Int))) ∧
      w'.wsc.Sequence = sampleWorld.wsc.Sequence + (3 : Nat)) :=
  (sendAll_sequence sampleWorld [("user_typing", none), ("get_statuses", none), ("ping", none)]
    sampleWorld_ready (by decide) (by decide)).1

/-- C1 fails as stated. With `Sequence` at the largest `int64` the second of
    two sends carries the smallest `int64`, not `s + 1`, and the counter ends at
    `-2^63 + 1`, not `s + 2`; and on a closed client a send hands the Writer
    nothing: it panics on the closed `writeChan`. -/
theorem sendAll_sequence_counterexample :
    (WriterReady lastSeqWorld ∧ lastSeqWorld.wsc.Sequence = 2 ^ 63 - 1 ∧
      (handedSince lastSeqWorld
          (sendAll [("a", none), ("b", none)] lastSeqWorld).world).map seqOf
        = [some (2 ^ 63 - 1), some (-(2 ^ 63))] ∧
      (handedSince lastSeqWorld
          (sendAll [("a", none), ("b", none)] lastSeqWorld).world).map seqOf
        ≠ [some (2 ^ 63 - 1), some (2 ^ 63 - 1 + 1)] ∧
      (sendAll [("a", none), ("b", none)] lastSeqWorld).world.wsc.Sequence = -(2 ^ 63) + 1) ∧
    (closedWorld.wsc.closed = true ∧
      (sendAll [("a", none)] closedWorld).isOk = false ∧
      handedSince closedWorld (sendAll [("a", none)] closedWorld).world = []) := by
  refine ⟨⟨?_, ?_, ?_, ?_, ?_⟩, ?_, ?_, ?_⟩
  · exact ⟨3, { cap := 0, buf := [], closed := false }, rfl, rfl, rfl, by decide⟩
  · decide
  · decide
  · decide
  · decide
  · decide
  · decide
  · decide

end ClaimC1

section Reader

theorem sampleWorld_atRead : ReaderAtRead sampleWorld := ⟨rfl, rfl⟩

/-- C2. When the Reader is at a read and the frame decodes to an event whose
    `IsValid()` is true, the iteration sends that event on `EventChannel` (an
    open channel): with room in the queue it returns with exactly that event
    appended to `EventChannel`, the loop continuing, and with a full queue it
    is parked at the send with nothing changed. Whatever `json.Unmarshal` makes
    of the same bytes, `ResponseChannel` is left as it was. -/
theorem listenIter_event (C : Codec) (w : World) (rawMsg : RawMessage) (event : WebSocketEvent)
    (c : Nat) (ch : Chan) (hread : ReaderAtRead w)
    (hdec : C.WebSocketEventFromJson rawMsg = some event) (hvalid : event.IsValid = true)
    (hc : w.wsc.EventChannel = some c) (hch : w.chans[c]? = some ch)
    (hopen : ch.closed = false) :
    (ch.buf.length < ch.cap →
      listenIter C (.frame rawMsg) w = .ok .next
        { w with
          chans := w.chans.set c { ch with buf := ch.buf ++ [.event event] }
          trace := w.trace ++ [.chanSend c (.event event)] }) ∧
    (ch.cap ≤ ch.buf.length → listenIter C (.frame rawMsg) w = .blocked w) ∧
    (∀ d, w.wsc.ResponseChannel = some d → d ≠ c →
      (listenIter C (.frame rawMsg) w).world.chans[d]? = w.chans[d]?) := by
  obtain ⟨hquit, hsome⟩ := hread
  obtain ⟨k, hconn⟩ := Option.isSome_iff_exists.mp hsome
  have hrun : listenIter C (.frame rawMsg) w =
      if ch.buf.length < ch.cap then
        .ok .next
          { w with
            chans := w.chans.set c { ch with buf := ch.buf ++ [.event event] }
            trace := w.trace ++ [.chanSend c (.event event)] }
      else .blocked w := by
    by_cases hroom : ch.buf.length < ch.cap <;>
      simp [listenIter, hquit, hconn, hdec, hvalid, sendChan, hc, hch, hopen, hroom]
  refine ⟨fun h => by rw [hrun, if_pos h], fun h => by rw [hrun, if_neg (by omega)], ?_⟩
  intro d _ hne
  rw [hrun]
  split
  · simp [Res.world, List.getElem?_set_ne (Ne.symm hne)]
  · rfl

/-- Instance of C2: a frame that carries both discriminators
    is routed as an event. -/
theorem listenIter_event_witness :
    scenarioCodec.validResponse frameBoth = true ∧
    listenIter scenarioCodec (.frame frameBoth) sampleWorld = .ok .next
      { sampleWorld with
        chans := sampleWorld.chans.set 1
          { cap := 100, buf := [.event { EventType := "typing", Body := "" }], closed := false }
        trace := sampleWorld.trace ++
          [.chanSend 1 (.event { EventType := "typing", Body := "" })] } :=
  ⟨by decide,
   (listenIter_event scenarioCodec sampleWorld frameBoth { EventType := "typing", Body := "" } 1
      { cap := 100, buf := [], closed := false } sampleWorld_atRead (by decide) (by decide)
      rfl rfl rfl).1 (by decide)⟩

/-- C3. When the Reader is at a read and the frame is neither a valid event
    nor a valid response (bytes that decode to nothing included), the
    iteration returns with the world unchanged, so `EventChannel`,
    `ResponseChannel`, `ListenError` and the closed state are as before, and
    the loop goes on to the next read. -/
theorem listenIter_drop (C : Codec) (w : World) (rawMsg : RawMessage) (hread : ReaderAtRead w)
    (hev : C.validEvent rawMsg = false) (hresp : C.validResponse rawMsg = false) :
    listenIter C (.frame rawMsg) w = .ok .next w := by
  obtain ⟨hquit, hsome⟩ := hread
  obtain ⟨k, hconn⟩ := Option.isSome_iff_exists.mp hsome
  unfold Codec.validEvent at hev
  unfold Codec.validResponse at hresp
  cases hdec : C.WebSocketEventFromJson rawMsg with
  | none => simp [listenIter, hquit, hconn, hdec]
  | some event =>
    rw [hdec] at hev
    cases hun : C.Unmarshal rawMsg with
    | none => simp [listenIter, hquit, hconn, hdec, hun] at hev ⊢; simp [hev]
    | some response =>
      rw [hun] at hresp
      simp [listenIter, hquit, hconn, hdec, hun] at hev hresp ⊢
      simp [hev, hresp]

/-- Instance of C3: the frame `{"foo":"bar"}` and bytes that
    are no JSON at all are dropped. -/
theorem listenIter_drop_witness :
    listenIter scenarioCodec (.frame frameFoo) sampleWorld = .ok .next sampleWorld ∧
    listenIter scenarioCodec (.frame "garbage") sampleWorld = .ok .next sampleWorld :=
  ⟨listenIter_drop scenarioCodec sampleWorld frameFoo sampleWorld_atRead (by decide) (by decide),
   listenIter_drop scenarioCodec sampleWorld "garbage" sampleWorld_atRead (by decide) (by decide)⟩

end Reader

section ClaimC4

/-- C4, as amended. When the Reader is at a read and `WebSocketEventFromJson`
    returns a non-nil event whose `IsValid()` is false while the bytes
    unmarshal to a response whose `IsValid()` is true, the iteration sends
    exactly that response on `ResponseChannel` (an open channel): with room in
    the queue it returns with the response appended, the loop continuing, and
    with a full queue it is parked at the send with nothing changed;
    `EventChannel` is left as it was. -/
theorem listenIter_response (C : Codec) (w : World) (rawMsg : RawMessage)
    (event : WebSocketEvent) (response : WebSocketResponse) (c : Nat) (ch : Chan)
    (hread : ReaderAtRead w)
    (hdec : C.WebSocketEventFromJson rawMsg = some event) (hinvalid : event.IsValid = false)
    (hun : C.Unmarshal rawMsg = some response) (hvalid : response.IsValid = true)
    (hc : w.wsc.ResponseChannel = some c) (hch : w.chans[c]? = some ch)
    (hopen : ch.closed = false) :
    (ch.buf.length < ch.cap →
      listenIter C (.frame rawMsg) w = .ok .next
        { w with
          chans := w.chans.set c { ch with buf := ch.buf ++ [.response response] }
          trace := w.trace ++ [.chanSend c (.response response)] }) ∧
    (ch.cap ≤ ch.buf.length → listenIter C (.frame rawMsg) w = .blocked w) ∧
    (∀ d, w.wsc.EventChannel = some d → d ≠ c →
      (listenIter C (.frame rawMsg) w).world.chans[d]? = w.chans[d]?) := by
  obtain ⟨hquit, hsome⟩ := hread
  obtain ⟨k, hconn⟩ := Option.isSome_iff_exists.mp hsome
  have hrun : listenIter C (.frame rawMsg) w =
      if ch.buf.length < ch.cap then
        .ok .next
          { w with
            chans := w.chans.set c { ch with buf := ch.buf ++ [.response response] }
            trace := w.trace ++ [.chanSend c (.response response)] }
      else .blocked w := by
    by_cases hroom : ch.buf.length < ch.cap <;>
      simp [listenIter, hquit, hconn, hdec, hinvalid, hun, hvalid, sendChan, hc, hch, hopen, hroom]
  refine ⟨fun h => by rw [hrun, if_pos h], fun h => by rw [hrun, if_neg (by omega)], ?_⟩
  intro d _ hne
  rw [hrun]
  split
  · simp [Res.world, List.getElem?_set_ne (Ne.symm hne)]
  · rfl

/-- Instance of C4 as amended: the frame
    `{"status":"ok","seq_reply":3}` is routed to the response queue. -/
theorem listenIter_response_witness :
    listenIter scenarioCodec (.frame frameStatusOk) sampleWorld = .ok .next
      { sampleWorld with
        chans := sampleWorld.chans.set 2
          { cap := 100, buf := [.response { Status := "ok", SeqReply := 3, Body := "" }],
            closed := false }
        trace := sampleWorld.trace ++
          [.chanSend 2 (.response { Status := "ok", SeqReply := 3, Body := "" })] } :=
  (listenIter_response scenarioCodec sampleWorld frameStatusOk { EventType := "", Body := "" }
      { Status := "ok", SeqReply := 3, Body := "" } 2 { cap := 100, buf := [], closed := false }
      sampleWorld_atRead (by decide) (by decide) (by decide) (by decide) rfl rfl rfl).1
    (by decide)

/-- C4 fails as stated. A frame for which `WebSocketEventFromJson` returns nil
    is not a valid event, and its bytes unmarshal to a valid response, yet the
    iteration drops it at the nil check of lines 218-220: the world, and with it
    `ResponseChannel`, is unchanged. -/
theorem listenIter_response_counterexample :
    ReaderAtRead sampleWorld ∧
    rejectingCodec.validEvent frameBadSeq = false ∧
    rejectingCodec.validResponse frameBadSeq = true ∧
    listenIter rejectingCodec (.frame frameBadSeq) sampleWorld = .ok .next sampleWorld := by
  refine ⟨⟨rfl, rfl⟩, by decide, by decide, by decide⟩

end ClaimC4

section Closing

/-- A used `sync.Once` makes `Close` a no-op. -/
theorem Close_done (w : World) (h : w.wsc.closeOnce = true) : Close w = .ok () w := by
  simp [Close, onceDo, h]

/-- The first `Close` of an open client returns after the whole teardown. -/
theorem Close_open (w : World) (qw wc qr ev rs cp cn : Nat)
    (h : OpenClient w qw wc qr ev rs cp cn) :
    ∃ w1, Close w = .ok () w1 ∧ w1.wsc.closeOnce = true ∧ w1.wsc.closed = true ∧
      w1.trace = w.trace ++
        [.closeChan qw, .closeChan wc, .connClose cn, .closeChan qr, .closeChan ev,
         .closeChan rs, .closeChan cp, .setClosed] := by
  obtain ⟨a1, ha1, hb1⟩ := h.isOpen qw (by simp)
  obtain ⟨a2, ha2, hb2⟩ := h.isOpen wc (by simp)
  obtain ⟨a3, ha3, hb3⟩ := h.isOpen qr (by simp)
  obtain ⟨a4, ha4, hb4⟩ := h.isOpen ev (by simp)
  obtain ⟨a5, ha5, hb5⟩ := h.isOpen rs (by simp)
  obtain ⟨a6, ha6, hb6⟩ := h.isOpen cp (by simp)
  obtain ⟨k, hk⟩ := h.connLive
  have hd := h.distinct
  simp only [List.nodup_cons, List.mem_cons, List.mem_singleton, not_or, List.not_mem_nil,
    not_false_eq_true, List.nodup_nil, and_true] at hd
  obtain ⟨⟨n12, n13, n14, n15, n16⟩, ⟨n23, n24, n25, n26⟩, ⟨n34, n35, n36⟩, ⟨n45, n46⟩, n56⟩ := hd
  simp [Close, onceDo, h.once, closeBody, closeChan, connClose, h.quitWriter, h.write,
    h.quitReader, h.events, h.responses, h.closeWatchdog, h.conn, hk, List.getElem?_set,
    ha1, ha2, ha3, ha4, ha5, ha6, hb1, hb2, hb3, hb4, hb5, hb6,
    n12, n13, n14, n15, n16, n23, n24, n25, n26, n34, n35, n36, n45, n46, n56]

theorem closeTimes_done (n : Nat) :
    ∀ w : World, w.wsc.closeOnce = true → closeTimes n w = .ok () w := by
  induction n with
  | zero => intro w _; rfl
  | succ n ih =>
    intro w h
    simp only [closeTimes, bind_apply, Close_done w h]
    exact ih w h

/-- C5. `Close` is idempotent. On an open client the first call returns after
    the teardown (seven closes, then `closed = true`); every further call
    returns with the world unchanged, so it closes no channel and does not
    close the connection again; and any number `n + 1` of consecutive calls
    reaches the same world, with the same trace of teardown actions, as one
    call. -/
theorem Close_idempotent (w : World) (qw wc qr ev rs cp cn : Nat)
    (h : OpenClient w qw wc qr ev rs cp cn) (n : Nat) :
    ∃ w1, Close w = .ok () w1 ∧
      Close w1 = .ok () w1 ∧
      closeTimes (n + 1) w = .ok () w1 ∧
      w1.trace = w.trace ++
        [.closeChan qw, .closeChan wc, .connClose cn, .closeChan qr, .closeChan ev,
         .closeChan rs, .closeChan cp, .setClosed] := by
  obtain ⟨w1, hclose, honce, _, htrace⟩ := Close_open w qw wc qr ev rs cp cn h
  refine ⟨w1, hclose, Close_done w1 honce, ?_, htrace⟩
  simp only [closeTimes, bind_apply, hclose]
  exact closeTimes_done n w1 honce

theorem sampleWorld_open : OpenClient sampleWorld 5 3 6 1 2 4 0 where
  once := rfl
  quitWriter := rfl
  write := rfl
  quitReader := rfl
  events := rfl
  responses := rfl
  closeWatchdog := rfl
  conn := rfl
  connLive := ⟨_, rfl⟩
  distinct := by decide
  isOpen := by decide

/-- Instance of C5: three calls of `Close` on a freshly
    constructed client. -/
theorem Close_idempotent_witness :
    ∃ w1, Close sampleWorld = .ok () w1 ∧
      Close w1 = .ok () w1 ∧
      closeTimes 3 sampleWorld = .ok () w1 ∧
      w1.trace = sampleWorld.trace ++
        [.closeChan 5, .closeChan 3, .connClose 0, .closeChan 6, .closeChan 1,
         .closeChan 2, .closeChan 4, .setClosed] :=
  Close_idempotent sampleWorld 5 3 6 1 2 4 0 sampleWorld_open 2

end Closing

section Keepalive

@[simp] theorem timeouts_nil : timeouts [] = [] := rfl

theorem timeouts_append (xs ys : List Effect) :
    timeouts (xs ++ ys) = timeouts xs ++ timeouts ys := by
  induction xs with
  | nil => rfl
  | cons e es ih => cases e <;> simp [timeouts, ih]

/-- A watchdog whose timer channel is empty stays parked. -/
theorem watchdogWake_idle (i : Nat) (w : World)
    (h : ∀ wd, w.watchdogs[i]? = some wd → wd.status = .waiting →
      ∀ tm, w.timers[wd.timer]? = some tm → tm.C = none) :
    watchdogWake i w = .ok () w := by
  unfold watchdogWake
  cases hwd : w.watchdogs[i]? with
  | none => rfl
  | some wd =>
    by_cases hs : wd.status = .waiting
    · cases htm : w.timers[wd.timer]? with
      | none => simp [hwd, hs, htm]
      | some tm =>
        have hC := h wd hwd hs tm htm
        simp [hwd, hs, htm, hC]
    · simp [hwd, hs]

theorem wakeAll_idle (is : List Nat) (w : World)
    (h : ∀ (i : Nat) (wd : Watchdog), w.watchdogs[i]? = some wd → wd.status = .waiting →
      ∀ tm : Timer, w.timers[wd.timer]? = some tm → tm.C = none) :
    wakeAll is w = .ok () w := by
  induction is with
  | nil => rfl
  | cons i is ih =>
    simp only [wakeAll, bind_apply, watchdogWake_idle i w (h i)]
    exact ih

/-- Before the deadline the clock moves and nothing else happens to the armed
    timer or to any watchdog. -/
theorem advance_before_deadline (w : World) (tid last t : Nat) (h : Armed w tid last)
    (h1 : last ≤ t) (h2 : t < last + pingTimeoutSeconds) :
    advance t w = .ok () { w with now := t, timers := w.timers.map (fireTimer t) } ∧
    (w.timers.map (fireTimer t))[tid]? =
      some { deadline := some (last + pingTimeoutSeconds), C := none } := by
  have hmax : max w.now t = t := by rw [h.clock]; exact max_eq_right h1
  have htm : (w.timers.map (fireTimer t))[tid]? =
      some { deadline := some (last + pingTimeoutSeconds), C := none } := by
    rw [List.getElem?_map, h.armed]
    simp [fireTimer]
    omega
  refine ⟨?_, htm⟩
  unfold advance
  rw [hmax]
  apply wakeAll_idle
  intro i wd hwd hs tm htm'
  have hmem : wd ∈ w.watchdogs := List.getElem?_mem hwd
  have := h.watch wd hmem hs
  rw [this] at htm'
  simp only at htm'
  rw [htm] at htm'
  injection htm' with htm'
  rw [← htm']

/-- A ping handled while the timer is pending: the timer is stopped and
    rearmed for 65 seconds from now, and a pong is handed to the Writer. -/
theorem pingHandler_pending (w : World) (tid d : Nat) (appData : String)
    (ht : w.wsc.pingTimeoutTimer = some tid)
    (harmed : w.timers[tid]? = some { deadline := some d, C := none })
    (hw : WriterReady w) :
    pingHandler appData w = .ok none
      { w with
        timers := w.timers.set tid { deadline := some (w.now + pingTimeoutSeconds), C := none }
        trace := w.trace ++
          [.timerStop tid true, .timerReset tid (w.now + pingTimeoutSeconds),
           .handoff { msgType := msgTypePong, contents := none }] } := by
  obtain ⟨c, ch, hc, hch, hopen, hpos⟩ := hw
  have hne : w.writers ≠ 0 := by omega
  have hlt : tid < w.timers.length := by
    by_contra hcon
    rw [List.getElem?_eq_none (by omega)] at harmed
    exact absurd harmed (by simp)
  simp [pingHandler, timerStop, timerReset, sendWriteChan, ht, harmed, hc, hch, hopen, hne,
    List.getElem?_set, hlt]

end Keepalive

section ClaimC6

/-- Pings that come in time keep the watchdog armed and silent. -/
theorem pingsAt_inTime (ts : List Nat) :
    ∀ (w : World) (tid last : Nat), Armed w tid last →
      pingsInTime pingTimeoutSeconds last ts →
      ∃ w', pingsAt ts w = .ok () w' ∧ Armed w' tid (lastPing last ts) ∧
        timeouts w'.trace = timeouts w.trace ∧ w'.chans = w.chans ∧
        w'.watchdogs = w.watchdogs ∧ w'.wsc = w.wsc := by
  induction ts with
  | nil =>
    intro w tid last h _
    exact ⟨w, rfl, h, rfl, rfl, rfl, rfl⟩
  | cons t ts ih =>
    intro w tid last h hp
    obtain ⟨h1, h2, hrest⟩ := hp
    obtain ⟨hadv, htm⟩ := advance_before_deadline w tid last t h h1 h2
    have hready : WriterReady { w with now := t, timers := w.timers.map (fireTimer t) } := by
      obtain ⟨c, ch, hc, hch, hopen, hpos⟩ := h.writer
      exact ⟨c, ch, hc, hch, hopen, hpos⟩
    have hping := pingHandler_pending
      { w with now := t, timers := w.timers.map (fireTimer t) } tid _ "" h.timer htm hready
    have hlt : tid < (w.timers.map (fireTimer t)).length := by
      by_contra hcon
      rw [List.getElem?_eq_none (by omega)] at htm
      exact absurd htm (by simp)
    have harmed' : Armed
        { w with
          now := t
          timers := (w.timers.map (fireTimer t)).set tid
            { deadline := some (t + pingTimeoutSeconds), C := none }
          trace := w.trace ++
            [.timerStop tid true, .timerReset tid (t + pingTimeoutSeconds),
             .handoff { msgType := msgTypePong, contents := none }] } tid t :=
      { timer := h.timer
        armed := by
          have hlt' : tid < w.timers.length := by simpa using hlt
          simp [List.getElem?_set, hlt']
        clock := rfl
        watch := h.watch
        writer := by
          obtain ⟨c, ch, hc, hch, hopen, hpos⟩ := h.writer
          exact ⟨c, ch, hc, hch, hopen, hpos⟩ }
    obtain ⟨w', hrun, harm, hto, hch, hwd, hwsc⟩ := ih _ tid t harmed' hrest
    refine ⟨w', ?_, harm, ?_, hch, hwd, hwsc⟩
    · simp only [pingsAt, bind_apply, hadv, hping]
      exact hrun
    · rw [hto]
      simp [timeouts_append, timeouts]

/-- C6. Keepalive liveness. If the watchdog is armed at instant `t0` (timer
    pending with deadline `t0 + 65`), pings are handled at instants
    `t1, t2, ...`, the first less than 65 seconds after `t0` and each less than
    65 seconds after the one before, then at every instant `T` less than 65
    seconds after the last ping no timeout signal has been sent: the run
    returns, the trace holds no new timeout, and no channel, in particular
    `PingTimeoutChannel`, has changed. -/
theorem keepalive_liveness (w : World) (tid t0 : Nat) (ts : List Nat) (T : Nat)
    (harmed : Armed w tid t0) (hpings : pingsInTime pingTimeoutSeconds t0 ts)
    (hT : lastPing t0 ts ≤ T) (hT' : T < lastPing t0 ts + pingTimeoutSeconds) :
    ∃ w', pingsThen ts T w = .ok () w' ∧
      timeouts w'.trace = timeouts w.trace ∧
      w'.wsc.PingTimeoutChannel = w.wsc.PingTimeoutChannel ∧
      w'.chans = w.chans ∧
      w'.watchdogs = w.watchdogs := by
  obtain ⟨w1, hrun, harm, hto, hch, hwd, hwsc⟩ := pingsAt_inTime ts w tid t0 harmed hpings
  obtain ⟨hadv, _⟩ := advance_before_deadline w1 tid _ T harm hT hT'
  refine ⟨{ w1 with now := T, timers := w1.timers.map (fireTimer T) }, ?_, ?_, ?_, ?_, ?_⟩
  · simp only [pingsThen, bind_apply, hrun, hadv]
  · exact hto
  · simp [hwsc]
  · exact hch
  · exact hwd

theorem sampleWorld_armed : Armed sampleWorld 0 0 where
  timer := rfl
  armed := rfl
  clock := rfl
  watch := by decide
  writer := sampleWorld_ready

/-- Instance of C6: Scenario B, watchdog started at 0, pings
    at 10, 40 and 70, deadline 65, observed at 134. -/
theorem keepalive_liveness_witness :
    ∃ w', pingsThen [10, 40, 70] 134 sampleWorld = .ok () w' ∧
      timeouts w'.trace = timeouts sampleWorld.trace ∧
      w'.wsc.PingTimeoutChannel = sampleWorld.wsc.PingTimeoutChannel ∧
      w'.chans = sampleWorld.chans ∧
      w'.watchdogs = sampleWorld.watchdogs :=
  keepalive_liveness sampleWorld 0 0 [10, 40, 70] 134 sampleWorld_armed
    ⟨by decide, by decide, by decide, by decide, by decide, by decide, trivial⟩
    (by decide) (by decide)

end ClaimC6

section ClaimC8C9

/-- C8. Whenever the dial succeeds, `NewWebSocketClientWithDialer` returns a
    client and a nil error; the one message handed to the Writer during the
    call, right after the Writer is started, is the JSON request with `Seq = 1`,
    the authentication-challenge action and `Data = {"token": authToken}`; and
    the returned client has `Sequence = 2`. -/
theorem New_auth_first (K : Consts) (dialer : Dialer) (url authToken : String) (w0 : World)
    (hd : dialer (url ++ K.API_URL_SUFFIX ++ "/websocket") = .ok ()) :
    ∃ client w,
      NewWebSocketClientWithDialer K dialer url authToken w0 = .ok (some client, none) w ∧
      client = w.wsc ∧
      client.Sequence = 2 ∧
      handedSince w0 w =
        [{ msgType := msgTypeJSON
           contents := some
             { Seq := 1
               Action := K.WEBSOCKET_AUTHENTICATION_CHALLENGE
               Data := some [("token", .str authToken)] } }] ∧
      w.trace = w0.trace ++
        [.dial (url ++ K.API_URL_SUFFIX ++ "/websocket") true,
         .setPingHandler w0.conns.length,
         .newTimer w0.timers.length (w0.now + pingTimeoutSeconds),
         .goWatchdog w0.watchdogs.length,
         .goWriter,
         .handoff ⟨msgTypeJSON, some ⟨1, K.WEBSOCKET_AUTHENTICATION_CHALLENGE,
           some [("token", .str authToken)]⟩⟩] := by
  obtain ⟨w, hnew, hseq, _, htrace⟩ := New_dial_ok K dialer url authToken w0 hd
  refine ⟨w.wsc, w, hnew, rfl, hseq, ?_, htrace⟩
  apply handedSince_of_append
  rw [htrace, handed_append]
  rfl

/-- Instance of C8: construction in an empty world. -/
theorem New_auth_first_witness :
    ∃ client w,
      NewWebSocketClientWithDialer sampleConsts okDialer "ws://localhost:8065" "token"
        (World.boot 0) = .ok (some client, none) w ∧
      client = w.wsc ∧
      client.Sequence = 2 ∧
      handedSince (World.boot 0) w =
        [{ msgType := msgTypeJSON
           contents := some
             { Seq := 1
               Action := "authentication_challenge"
               Data := some [("token", .str "token")] } }] ∧
      w.trace = (World.boot 0).trace ++
        [.dial ("ws://localhost:8065" ++ "/api/v4" ++ "/websocket") true,
         .setPingHandler 0,
         .newTimer 0 (0 + pingTimeoutSeconds),
         .goWatchdog 0,
         .goWriter,
         .handoff ⟨msgTypeJSON, some ⟨1, "authentication_challenge",
           some [("token", .str "token")]⟩⟩] :=
  New_auth_first sampleConsts okDialer "ws://localhost:8065" "token" (World.boot 0) rfl

/-- C9. `NewWebSocketClientWithDialer` always returns; it returns a nil client
    with a non-nil error exactly when the dial fails, and that error is the
    `AppError` with operation "NewWebSocketClient", key
    "model.websocket_client.connect_fail.app_error", the dial error's text and
    status 500. When the dial fails nothing but the dial happened: no writer
    and no watchdog is started, no channel is made and nothing is handed to the
    Writer. When it succeeds the error is nil and the client is non-nil. -/
theorem New_error_iff_dial_fails (K : Consts) (dialer : Dialer) (url authToken : String)
    (w0 : World) :
    ∃ r w, NewWebSocketClientWithDialer K dialer url authToken w0 = .ok r w ∧
      ((r.1 = none ∧ r.2 ≠ none) ↔
        ∃ e, dialer (url ++ K.API_URL_SUFFIX ++ "/websocket") = .error e) ∧
      (∀ e, dialer (url ++ K.API_URL_SUFFIX ++ "/websocket") = .error e →
        r = (none, some (NewAppError "NewWebSocketClient"
          "model.websocket_client.connect_fail.app_error" e 500)) ∧
        w = { w0 with
          trace := w0.trace ++ [.dial (url ++ K.API_URL_SUFFIX ++ "/websocket") false] } ∧
        w.writers = w0.writers ∧ w.watchdogs = w0.watchdogs ∧ w.chans = w0.chans ∧
        handedSince w0 w = []) ∧
      (dialer (url ++ K.API_URL_SUFFIX ++ "/websocket") = .ok () →
        r.2 = none ∧ r.1 = some w.wsc) := by
  cases hd : dialer (url ++ K.API_URL_SUFFIX ++ "/websocket") with
  | error e =>
    refine ⟨(none, some (NewAppError "NewWebSocketClient"
        "model.websocket_client.connect_fail.app_error" e 500)),
      { w0 with trace := w0.trace ++ [.dial (url ++ K.API_URL_SUFFIX ++ "/websocket") false] },
      ?_, ?_, ?_, ?_⟩
    · simp [NewWebSocketClientWithDialer, dial, hd, StatusInternalServerError]
    · simp
    · intro e' he'
      injection he' with he'
      subst he'
      refine ⟨rfl, rfl, rfl, rfl, rfl, ?_⟩
      simp [handedSince, handed_append, handed]
    · intro h
      exact absurd h (by simp)
  | ok u =>
    cases u
    obtain ⟨w, hnew, _, _, _⟩ := New_dial_ok K dialer url authToken w0 hd
    refine ⟨(some w.wsc, none), w, hnew, ?_, ?_, ?_⟩
    · simp
    · intro e he
      exact absurd he (by simp)
    · intro _
      exact ⟨rfl, rfl⟩

end ClaimC8C9

set_option linter.unusedTactic false
set_option linter.unreachableTactic false
set_option linter.unnecessarySeqFocus false

section Stability

variable {P : World → Prop} {α β : Type}

theorem Stable.pure (a : α) : Stable P (pure a : M α) := ⟨fun _ h => h⟩

theorem Stable.getW : Stable P getW := ⟨fun _ h => h⟩

theorem Stable.raise (f : Fault) : Stable P (raise f : M α) := ⟨fun _ h => h⟩

theorem Stable.park : Stable P (park : M α) := ⟨fun _ h => h⟩

theorem Stable.bind {m : M α} {f : α → M β} (hm : Stable P m) (hf : ∀ a, Stable P (f a)) :
    Stable P (m >>= f) := by
  constructor
  intro w hw
  have h1 := hm.pres w hw
  rw [bind_apply]
  cases hmw : m w with
  | ok a w' =>
    rw [hmw] at h1
    exact (hf a).pres w' h1
  | panic e w' =>
    rw [hmw] at h1
    exact h1
  | blocked w' =>
    rw [hmw] at h1
    exact h1

theorem Stable.ite {c : Prop} [Decidable c] {a b : M α} (ha : Stable P a) (hb : Stable P b) :
    Stable P (if c then a else b) := by
  split
  · exact ha
  · exact hb

theorem Stable.setWsc (h : PrimStable P) (c : WebSocketClient) : Stable P (setWsc c) :=
  ⟨fun w hw => h.wsc w c hw⟩

theorem SendMessage_stable (h : PrimStable P) (action : String) (data : Data) :
    Stable P (SendMessage action data) := by
  unfold SendMessage
  repeat' (first
    | exact Stable.pure _
    | exact Stable.getW
    | exact Stable.setWsc h _
    | exact h.sendWriteChan _
    | apply Stable.bind
    | apply Stable.ite
    | intro _
    | split)

theorem pingHandler_stable (h : PrimStable P) (appData : String) :
    Stable P (pingHandler appData) := by
  unfold pingHandler
  repeat' (first
    | exact Stable.pure _
    | exact Stable.getW
    | exact h.timerStop _
    | exact h.timerDrain _
    | exact h.timerReset _ _
    | exact h.sendWriteChan _
    | apply Stable.bind
    | apply Stable.ite
    | intro _
    | split)

theorem configurePingHandling_stable (h : PrimStable P) : Stable P configurePingHandling := by
  unfold configurePingHandling
  repeat' (first
    | exact Stable.pure _
    | exact Stable.getW
    | exact Stable.setWsc h _
    | exact h.setPingHandler
    | exact h.newTimer _
    | exact h.goWatchdog
    | apply Stable.bind
    | apply Stable.ite
    | intro _
    | split)

theorem ConnectWithDialer_stable (h : PrimStable P) (K : Consts) (dialer : Dialer) :
    Stable P (ConnectWithDialer K dialer) := by
  unfold ConnectWithDialer
  repeat' (first
    | exact Stable.pure _
    | exact Stable.getW
    | exact Stable.setWsc h _
    | exact h.dial _ _
    | exact h.makeChan _
    | exact h.goWriter
    | exact configurePingHandling_stable h
    | exact SendMessage_stable h _ _
    | apply Stable.bind
    | apply Stable.ite
    | intro _
    | split)

end Stability

section StabilityOfMethods

variable {P : World → Prop}

theorem UserTyping_stable (h : PrimStable P) (channelId parentId : String) :
    Stable P (UserTyping channelId parentId) :=
  SendMessage_stable h _ _

theorem GetStatuses_stable (h : PrimStable P) : Stable P GetStatuses :=
  SendMessage_stable h _ _

theorem GetStatusesByIds_stable (h : PrimStable P) (userIds : List String) :
    Stable P (GetStatusesByIds userIds) :=
  SendMessage_stable h _ _

theorem closeBody_stable (h : PrimStable P) : Stable P closeBody := by
  unfold closeBody
  repeat' (first
    | exact Stable.getW
    | exact Stable.setWsc h _
    | exact h.closeChan _
    | exact h.connClose
    | exact h.emitClosed
    | apply Stable.bind
    | intro _)

theorem onceDo_stable (h : PrimStable P) {f : M Unit} (hf : Stable P f) :
    Stable P (onceDo f) := by
  constructor
  intro w hw
  unfold onceDo
  split
  · exact hw
  · have h1 := hf.pres w hw
    cases hfw : f w with
    | ok a w' =>
      rw [hfw] at h1
      exact h.wsc w' _ h1
    | panic e w' =>
      rw [hfw] at h1
      exact h.wsc w' _ h1
    | blocked w' =>
      rw [hfw] at h1
      exact h1

theorem Close_stable (h : PrimStable P) : Stable P Close :=
  onceDo_stable h (closeBody_stable h)

theorem listenIter_frame_stable (h : PrimStable P) (C : Codec) (rawMsg : RawMessage) :
    Stable P (listenIter C (.frame rawMsg)) := by
  unfold listenIter
  dsimp only
  repeat' (first
    | exact Stable.pure _
    | exact Stable.getW
    | exact Stable.raise _
    | exact h.sendChan _ _
    | apply Stable.bind
    | apply Stable.ite
    | intro _
    | split)

theorem listenIter_stable (h : PrimStable P)
    (hle : ∀ e, Stable P (emit (.setListenError e))) (C : Codec) (r : ReadResult) :
    Stable P (listenIter C r) := by
  unfold listenIter
  repeat' (first
    | exact Stable.pure _
    | exact Stable.getW
    | exact Stable.raise _
    | exact Stable.setWsc h _
    | exact hle _
    | exact h.sendChan _ _
    | apply Stable.bind
    | apply Stable.ite
    | intro _
    | split)

theorem readerStep_stable (h : PrimStable P)
    (hle : ∀ e, Stable P (emit (.setListenError e))) (C : Codec) (r : ReadResult) :
    Stable P (readerStep C r) := by
  constructor
  intro w hw
  have h1 := (listenIter_stable h hle C r).pres w hw
  unfold readerStep
  cases hit : listenIter C r w with
  | ok ctl w' =>
    rw [hit] at h1
    cases ctl with
    | next => exact h1
    | exit => exact (Close_stable h).pres w' h1
  | panic e w' =>
    rw [hit] at h1
    have h2 := (Close_stable h).pres w' h1
    simp only
    cases hc : Close w' with
    | ok a w'' => rw [hc] at h2; exact h2
    | panic e' w'' => rw [hc] at h2; exact h2
    | blocked w'' => rw [hc] at h2; exact h2
  | blocked w' =>
    rw [hit] at h1
    exact h1

theorem wakeAll_stable (h : PrimStable P) (is : List Nat) : Stable P (wakeAll is) := by
  induction is with
  | nil => exact Stable.pure _
  | cons i is ih =>
    unfold wakeAll
    exact Stable.bind (h.watchdogWake i) (fun _ => ih)

theorem advance_stable (h : PrimStable P) (t : Nat) : Stable P (advance t) := by
  constructor
  intro w hw
  unfold advance
  exact (wakeAll_stable h _).pres _ (h.clock w t hw)

theorem perform_stable (h : PrimStable P)
    (hle : ∀ e, Stable P (emit (.setListenError e))) (C : Codec) (K : Consts) (a : Action) :
    Stable P (perform C K a) := by
  cases a with
  | send action data => exact SendMessage_stable h _ _
  | userTyping c p => exact UserTyping_stable h _ _
  | getStatuses => exact GetStatuses_stable h
  | getStatusesByIds ids => exact GetStatusesByIds_stable h _
  | connect dialer =>
    exact Stable.bind (ConnectWithDialer_stable h K dialer) (fun _ => Stable.pure _)
  | close => exact Close_stable h
  | read r => exact readerStep_stable h hle C r
  | ping appData => exact Stable.bind (pingHandler_stable h appData) (fun _ => Stable.pure _)
  | tick t => exact advance_stable h t
  | recvEvent =>
    exact Stable.bind Stable.getW (fun _ => Stable.bind (h.recvChan _) (fun _ => Stable.pure _))
  | recvResponse =>
    exact Stable.bind Stable.getW (fun _ => Stable.bind (h.recvChan _) (fun _ => Stable.pure _))
  | recvTimeout =>
    exact Stable.bind Stable.getW (fun _ => Stable.bind (h.recvChan _) (fun _ => Stable.pure _))

/-- A property preserved by every operation is preserved by every run. -/
theorem runActions_stable (h : PrimStable P)
    (hle : ∀ e, Stable P (emit (.setListenError e))) (C : Codec) (K : Consts)
    (as : List Action) : ∀ w, P w → P (runActions C K as w) := by
  induction as with
  | nil => intro w hw; exact hw
  | cons a rest ih =>
    intro w hw
    have h1 := (perform_stable h hle C K a).pres w hw
    unfold runActions
    cases hp : perform C K a w with
    | ok u w' => rw [hp] at h1; exact ih w' h1
    | blocked w' => rw [hp] at h1; exact ih w' h1
    | panic e w' => rw [hp] at h1; exact h1

end StabilityOfMethods

section ListenErrorWrites

theorem listenErrorWrites_append (xs ys : List Effect) :
    listenErrorWrites (xs ++ ys) = listenErrorWrites xs + listenErrorWrites ys := by
  induction xs with
  | nil => simp [listenErrorWrites]
  | cons e es ih => cases e <;> simp [listenErrorWrites, ih] <;> omega

/-- No operation on channels, timers, connections or goroutines assigns
    `ListenError`. -/
theorem listenErrorWrites_primStable (k : Nat) :
    PrimStable (fun w => listenErrorWrites w.trace = k) where
  wsc := fun _ _ h => h
  clock := fun _ _ h => h
  makeChan := fun _ => ⟨fun _ h => h⟩
  closeChan := fun r => ⟨fun w h => by
    unfold closeChan
    repeat' split
    all_goals simp_all [Res.world, listenErrorWrites_append, listenErrorWrites]⟩
  sendChan := fun r x => ⟨fun w h => by
    unfold sendChan
    repeat' split
    all_goals simp_all [Res.world, listenErrorWrites_append, listenErrorWrites]⟩
  sendWriteChan := fun m => ⟨fun w h => by
    unfold sendWriteChan
    repeat' split
    all_goals simp_all [Res.world, listenErrorWrites_append, listenErrorWrites]⟩
  newTimer := fun d => ⟨fun w h => by
    simp_all [newTimer, Res.world, listenErrorWrites_append, listenErrorWrites]⟩
  timerStop := fun r => ⟨fun w h => by
    unfold timerStop
    repeat' split
    all_goals simp_all [Res.world, listenErrorWrites_append, listenErrorWrites]⟩
  timerDrain := fun r => ⟨fun w h => by
    unfold timerDrain
    repeat' split
    all_goals simp_all [Res.world, listenErrorWrites_append, listenErrorWrites]⟩
  timerReset := fun r d => ⟨fun w h => by
    unfold timerReset
    repeat' split
    all_goals simp_all [Res.world, listenErrorWrites_append, listenErrorWrites]⟩
  dial := fun dialer url => ⟨fun w h => by
    unfold dial
    repeat' split
    all_goals simp_all [Res.world, listenErrorWrites_append, listenErrorWrites]⟩
  setPingHandler := ⟨fun w h => by
    unfold setPingHandler
    repeat' split
    all_goals simp_all [Res.world, listenErrorWrites_append, listenErrorWrites]⟩
  connClose := ⟨fun w h => by
    unfold connClose
    repeat' split
    all_goals simp_all [Res.world, listenErrorWrites_append, listenErrorWrites]⟩
  goWriter := ⟨fun w h => by
    unfold goWriter
    repeat' split
    all_goals simp_all [Res.world, listenErrorWrites_append, listenErrorWrites]⟩
  goWatchdog := ⟨fun w h => by
    unfold goWatchdog
    repeat' split
    all_goals simp_all [Res.world, listenErrorWrites_append, listenErrorWrites]⟩
  watchdogWake := fun i => ⟨fun w h => by
    unfold watchdogWake
    repeat' split
    all_goals simp_all [Res.world, listenErrorWrites_append, listenErrorWrites]⟩
  recvChan := fun r => ⟨fun w h => by
    unfold recvChan resumeSender
    repeat' split
    all_goals simp_all [Res.world, listenErrorWrites_append, listenErrorWrites]⟩
  emitClosed := ⟨fun w h => by
    simp_all [Res.world, listenErrorWrites_append, listenErrorWrites]⟩

end ListenErrorWrites

section ClaimC10

/-- What an iteration does on a failed read, in every world. -/
theorem listenIter_error_eq (C : Codec) (w : World) (err : ReadError) :
    listenIter C (.error err) w =
      if chanClosed w.wsc.quitReaderChan w = true then .ok .exit w
      else if w.wsc.Conn.isNone = true then .panic .nilDeref w
      else if IsCloseError err [CloseNormalClosure, CloseNoStatusReceived] = true then
        .ok .exit w
      else
        .ok .exit
          { w with
            wsc := { w.wsc with ListenError := some (NewAppError "NewWebSocketClient"
              "model.websocket_client.connect_fail.app_error" err.text 500) }
            trace := w.trace ++ [.setListenError (NewAppError "NewWebSocketClient"
              "model.websocket_client.connect_fail.app_error" err.text 500)] } := by
  unfold listenIter
  by_cases h1 : chanClosed w.wsc.quitReaderChan w = true
  · simp [h1]
  · cases h2 : w.wsc.Conn with
    | none => simp [h1, h2, raise]
    | some k =>
      by_cases h3 : IsCloseError err [CloseNormalClosure, CloseNoStatusReceived] = true
      · simp [h1, h2, h3]
      · simp [h1, h2, h3, StatusInternalServerError]

/-- An iteration that continues has not assigned `ListenError`, and no
    iteration assigns it more than once. -/
theorem listenIter_writes (C : Codec) (r : ReadResult) (w : World) :
    (∀ w', listenIter C r w = .ok .next w' →
      listenErrorWrites w'.trace = listenErrorWrites w.trace) ∧
    listenErrorWrites (listenIter C r w).world.trace ≤ listenErrorWrites w.trace + 1 := by
  cases r with
  | frame rawMsg =>
    have h := (listenIter_frame_stable (listenErrorWrites_primStable (listenErrorWrites w.trace))
      C rawMsg).pres w rfl
    constructor
    · intro w' hw'
      rw [hw'] at h
      exact h
    · rw [h]
      omega
  | error err =>
    rw [listenIter_error_eq]
    constructor
    · intro w' hw'
      split at hw'
      · exact absurd hw' (by simp)
      · split at hw'
        · exact absurd hw' (by simp)
        · split at hw' <;> exact absurd hw' (by simp)
    · split
      · simp [Res.world]
      · split
        · simp [Res.world]
        · split <;> simp [Res.world, listenErrorWrites_append, listenErrorWrites]

theorem readerLoop_writes (C : Codec) (reads : List ReadResult) :
    ∀ w, listenErrorWrites (readerLoop C reads w).world.trace ≤
      listenErrorWrites w.trace + 1 := by
  induction reads with
  | nil =>
    intro w
    unfold readerLoop
    simp only [bind_apply, getW_apply]
    split <;> simp [Res.world, park]
  | cons r rs ih =>
    intro w
    obtain ⟨hnext, hle⟩ := listenIter_writes C r w
    unfold readerLoop
    simp only [bind_apply]
    cases hit : listenIter C r w with
    | ok ctl w' =>
      cases ctl with
      | next =>
        have := ih w'
        rw [hnext w' hit] at this
        simpa using this
      | exit =>
        rw [hit] at hle
        simpa [Res.world] using hle
    | panic e w' =>
      rw [hit] at hle
      simpa [Res.world] using hle
    | blocked w' =>
      rw [hit] at hle
      simpa [Res.world] using hle

theorem deferClose_writes (body : M Unit) (w : World) :
    listenErrorWrites (deferClose body w).world.trace =
      listenErrorWrites (body w).world.trace := by
  have hclose : ∀ w', listenErrorWrites (Close w').world.trace = listenErrorWrites w'.trace :=
    fun w' => (Close_stable (listenErrorWrites_primStable (listenErrorWrites w'.trace))).pres w' rfl
  unfold deferClose
  cases hb : body w with
  | ok a w' => simpa [Res.world] using hclose w'
  | panic e w' =>
    have := hclose w'
    simp only
    cases hc : Close w' with
    | ok a w'' => rw [hc] at this; simpa [Res.world] using this
    | panic e' w'' => rw [hc] at this; simpa [Res.world] using this
    | blocked w'' => rw [hc] at this; simpa [Res.world] using this
  | blocked w' => rfl

/-- C10. When a read fails while the Reader is at a read, the iteration
    leaves the loop (`return`) having routed nothing; it assigns `ListenError`,
    the `AppError` with status 500 that carries the read error's text, exactly
    when the failure is not a close error with code `CloseNormalClosure` or
    `CloseNoStatusReceived`; on such an expected closure, and when the stop
    signal is observed, the world, `ListenError` included, is unchanged; and a
    whole run of the Reader goroutine, deferred `Close` included, assigns
    `ListenError` at most once. -/
theorem listenIter_read_error (C : Codec) (w : World) (err : ReadError)
    (hread : ReaderAtRead w) :
    (IsCloseError err [CloseNormalClosure, CloseNoStatusReceived] = false →
      listenIter C (.error err) w = .ok .exit
        { w with
          wsc := { w.wsc with ListenError := some (NewAppError "NewWebSocketClient"
            "model.websocket_client.connect_fail.app_error" err.text 500) }
          trace := w.trace ++ [.setListenError (NewAppError "NewWebSocketClient"
            "model.websocket_client.connect_fail.app_error" err.text 500)] }) ∧
    (IsCloseError err [CloseNormalClosure, CloseNoStatusReceived] = true →
      listenIter C (.error err) w = .ok .exit w) ∧
    (listenErrorWrites (listenIter C (.error err) w).world.trace
        = listenErrorWrites w.trace + 1 ↔
      IsCloseError err [CloseNormalClosure, CloseNoStatusReceived] = false) ∧
    (listenIter C (.error err) w).world.chans = w.chans ∧
    (∀ (w2 : World) (r : ReadResult), chanClosed w2.wsc.quitReaderChan w2 = true →
      listenIter C r w2 = .ok .exit w2) ∧
    (∀ (reads : List ReadResult) (w0 : World),
      listenErrorWrites (Listen C reads w0).world.trace ≤ listenErrorWrites w0.trace + 1) := by
  obtain ⟨hquit, hsome⟩ := hread
  have hconn : ¬ (w.wsc.Conn.isNone = true) := by
    cases hc : w.wsc.Conn <;> simp_all
  have hq : ¬ (chanClosed w.wsc.quitReaderChan w = true) := by simp [hquit]
  refine ⟨?_, ?_, ?_, ?_, ?_, ?_⟩
  · intro hno
    rw [listenIter_error_eq, if_neg hq, if_neg hconn, if_neg (by simp [hno])]
  · intro hyes
    rw [listenIter_error_eq, if_neg hq, if_neg hconn, if_pos hyes]
  · rw [listenIter_error_eq, if_neg hq, if_neg hconn]
    by_cases hyes : IsCloseError err [CloseNormalClosure, CloseNoStatusReceived] = true
    · simp [hyes, Res.world]
    · simp [hyes, Res.world, listenErrorWrites_append, listenErrorWrites]
  · rw [listenIter_error_eq, if_neg hq, if_neg hconn]
    split <;> rfl
  · intro w2 r hclosed
    unfold listenIter
    simp [hclosed]
  · intro reads w0
    unfold Listen
    rw [deferClose_writes]
    exact readerLoop_writes C reads w0

/-- A fatal read error: the connection was reset. -/
theorem sampleFatal_not_close :
    IsCloseError { closeCode := none, text := "connection reset by peer" }
      [CloseNormalClosure, CloseNoStatusReceived] = false := by decide

/-- Instance of C10: a connection reset sets `ListenError`,
    a normal closure (code 1000) does not. -/
theorem listenIter_read_error_witness :
    listenIter scenarioCodec
        (.error { closeCode := none, text := "connection reset by peer" }) sampleWorld =
      .ok .exit
        { sampleWorld with
          wsc := { sampleWorld.wsc with ListenError := some (NewAppError "NewWebSocketClient"
            "model.websocket_client.connect_fail.app_error" "connection reset by peer" 500) }
          trace := sampleWorld.trace ++ [.setListenError (NewAppError "NewWebSocketClient"
            "model.websocket_client.connect_fail.app_error" "connection reset by peer" 500)] } ∧
    listenIter scenarioCodec
        (.error { closeCode := some 1000, text := "websocket: close 1000 (normal)" })
        sampleWorld = .ok .exit sampleWorld :=
  ⟨(listenIter_read_error scenarioCodec sampleWorld
      { closeCode := none, text := "connection reset by peer" } sampleWorld_atRead).1
      sampleFatal_not_close,
   (listenIter_read_error scenarioCodec sampleWorld
      { closeCode := some 1000, text := "websocket: close 1000 (normal)" }
      sampleWorld_atRead).2.1 (by decide)⟩

end ClaimC10

section TimedOutStable

theorem timeoutsBy_append (i : Nat) (xs ys : List Effect) :
    timeoutsBy i (xs ++ ys) = timeoutsBy i xs + timeoutsBy i ys := by
  simp [timeoutsBy, timeouts_append]

theorem timeoutsBy_pingTimeout_ne (i j t : Nat) (h : j ≠ i) :
    timeoutsBy i [.pingTimeout j t] = 0 := by
  simp [timeoutsBy, timeouts, h]

theorem timeoutsBy_pingTimeout_self (i t : Nat) : timeoutsBy i [.pingTimeout i t] = 1 := by
  simp [timeoutsBy, timeouts]

theorem firstSending_spec (wds : List Watchdog) :
    ∀ j, firstSending wds = some j → ∃ wd, wds[j]? = some wd ∧ wd.status = .sending := by
  induction wds with
  | nil => intro j h; simp [firstSending] at h
  | cons wd wds ih =>
    intro j h
    unfold firstSending at h
    split at h
    · injection h with h
      subst h
      exact ⟨wd, by simp, by assumption⟩
    · cases hf : firstSending wds with
      | none => simp [hf] at h
      | some j' =>
        simp [hf] at h
        subst h
        obtain ⟨wd', h1, h2⟩ := ih j' hf
        exact ⟨wd', by simpa using h1, h2⟩

theorem wakeCancelled_timedOut (c : Nat) (wd : Watchdog) (h : wd.status = .timedOut) :
    wakeCancelled c wd = wd := by
  simp [wakeCancelled, h]

theorem resumeSender_timedOut (i k c : Nat) (w : World) (h : TimedOut i k w) :
    TimedOut i k (resumeSender c w) := by
  obtain ⟨⟨wd, h1, h2⟩, h3⟩ := h
  unfold resumeSender
  split
  · cases hfs : firstSending w.watchdogs with
    | none => exact ⟨⟨wd, h1, h2⟩, h3⟩
    | some j =>
      obtain ⟨wdj, hj1, hj2⟩ := firstSending_spec w.watchdogs j hfs
      have hji : j ≠ i := by
        intro hji
        subst hji
        rw [h1] at hj1
        injection hj1 with hj1
        subst hj1
        rw [h2] at hj2
        exact absurd hj2 (by decide)
      simp only
      split
      · split
        · refine ⟨⟨wd, ?_, h2⟩, ?_⟩
          · simp only
            rw [List.getElem?_set_ne hji]
            exact h1
          · simp only [timeoutsBy_append, timeoutsBy_pingTimeout_ne i j _ hji]
            exact h3
        · exact ⟨⟨wd, h1, h2⟩, h3⟩
      · exact ⟨⟨wd, h1, h2⟩, h3⟩
  · exact ⟨⟨wd, h1, h2⟩, h3⟩

/-- Once watchdog `i` has sent its signal and returned, no operation changes
    that or makes it send again. -/
theorem timedOut_primStable (i k : Nat) : PrimStable (TimedOut i k) where
  wsc := fun _ _ h => h
  clock := fun _ _ h => h
  makeChan := fun _ => ⟨fun _ h => h⟩
  closeChan := fun r => ⟨fun w h => by
    obtain ⟨⟨wd, h1, h2⟩, h3⟩ := h
    unfold closeChan
    repeat' split
    all_goals simp_all [TimedOut, Res.world, timeoutsBy, timeouts_append, timeouts,
      wakeCancelled_timedOut]⟩
  sendChan := fun r x => ⟨fun w h => by
    unfold sendChan
    repeat' split
    all_goals simp_all [TimedOut, Res.world, timeoutsBy, timeouts_append, timeouts]⟩
  sendWriteChan := fun m => ⟨fun w h => by
    unfold sendWriteChan
    repeat' split
    all_goals simp_all [TimedOut, Res.world, timeoutsBy, timeouts_append, timeouts]⟩
  newTimer := fun d => ⟨fun w h => by
    simp_all [TimedOut, newTimer, Res.world, timeoutsBy, timeouts_append, timeouts]⟩
  timerStop := fun r => ⟨fun w h => by
    unfold timerStop
    repeat' split
    all_goals simp_all [TimedOut, Res.world, timeoutsBy, timeouts_append, timeouts]⟩
  timerDrain := fun r => ⟨fun w h => by
    unfold timerDrain
    repeat' split
    all_goals simp_all [TimedOut, Res.world, timeoutsBy, timeouts_append, timeouts]⟩
  timerReset := fun r d => ⟨fun w h => by
    unfold timerReset
    repeat' split
    all_goals simp_all [TimedOut, Res.world, timeoutsBy, timeouts_append, timeouts]⟩
  dial := fun dialer url => ⟨fun w h => by
    unfold dial
    repeat' split
    all_goals simp_all [TimedOut, Res.world, timeoutsBy, timeouts_append, timeouts]⟩
  setPingHandler := ⟨fun w h => by
    unfold setPingHandler
    repeat' split
    all_goals simp_all [TimedOut, Res.world, timeoutsBy, timeouts_append, timeouts]⟩
  connClose := ⟨fun w h => by
    unfold connClose
    repeat' split
    all_goals simp_all [TimedOut, Res.world, timeoutsBy, timeouts_append, timeouts]⟩
  goWriter := ⟨fun w h => by
    unfold goWriter
    repeat' split
    all_goals simp_all [TimedOut, Res.world, timeoutsBy, timeouts_append, timeouts]⟩
  goWatchdog := ⟨fun w h => by
    obtain ⟨⟨wd, h1, h2⟩, h3⟩ := h
    have hlt : i < w.watchdogs.length := by
      by_contra hcon
      rw [List.getElem?_eq_none (by omega)] at h1
      exact absurd h1 (by simp)
    unfold goWatchdog
    split
    · exact ⟨⟨wd, h1, h2⟩, h3⟩
    · refine ⟨⟨wd, ?_, h2⟩, ?_⟩
      · simp only [Res.world]
        rw [List.getElem?_append_left hlt]
        exact h1
      · simp only [Res.world, timeoutsBy_append]
        simp [timeoutsBy, timeouts]
        exact h3⟩
  watchdogWake := fun j => ⟨fun w h => by
    obtain ⟨⟨wd, h1, h2⟩, h3⟩ := h
    by_cases hji : j = i
    · subst hji
      have : watchdogWake j w = .ok () w := by
        apply watchdogWake_idle
        intro wd' hwd' hs
        rw [h1] at hwd'
        injection hwd' with hwd'
        subst hwd'
        rw [h2] at hs
        exact absurd hs (by decide)
      rw [this]
      exact ⟨⟨wd, h1, h2⟩, h3⟩
    · have hget : ∀ x, (w.watchdogs.set j x)[i]? = some wd := by
        intro x
        rw [List.getElem?_set_ne hji]
        exact h1
      unfold watchdogWake
      repeat' split
      all_goals first
        | exact ⟨⟨wd, h1, h2⟩, h3⟩
        | exact ⟨⟨wd, hget _, h2⟩, h3⟩
        | (refine ⟨⟨wd, hget _, h2⟩, ?_⟩
           simp only [Res.world, timeoutsBy_append, timeoutsBy_pingTimeout_ne i j _ hji]
           exact h3)⟩
  recvChan := fun r => ⟨fun w h => by
    unfold recvChan
    repeat' split
    all_goals first
      | exact h
      | exact resumeSender_timedOut i k _ _ h⟩
  emitClosed := ⟨fun w h => by
    simp_all [TimedOut, Res.world, timeoutsBy, timeouts_append, timeouts]⟩

end TimedOutStable

section ClaimC7

theorem wakeAll_none (is : List Nat) (w : World)
    (h : ∀ (j : Nat) (wd : Watchdog), w.watchdogs[j]? = some wd → wd.status ≠ .waiting) :
    wakeAll is w = .ok () w := by
  apply wakeAll_idle
  intro j wd hwd hs
  exact absurd hs (h j wd hwd)

/-- The timer of the only parked watchdog has fired and `PingTimeoutChannel`
    has room: the watchdog takes the firing time, sends `true` and returns. -/
theorem watchdogWake_fires (w : World) (i tid v p : Nat) (wd : Watchdog) (tm : Timer) (ch : Chan)
    (hwd : w.watchdogs[i]? = some wd) (hwait : wd.status = .waiting) (hwt : wd.timer = tid)
    (htm : w.timers[tid]? = some tm) (hC : tm.C = some v)
    (hp : w.wsc.PingTimeoutChannel = some p) (hch : w.chans[p]? = some ch)
    (hopen : ch.closed = false) (hroom : ch.buf.length < ch.cap) :
    watchdogWake i w = .ok ()
      { w with
        timers := w.timers.set tid { tm with C := none }
        watchdogs := w.watchdogs.set i { wd with status := .timedOut }
        chans := w.chans.set p { ch with buf := ch.buf ++ [.timeout true] }
        trace := w.trace ++ [.pingTimeout i v] } := by
  subst hwt
  simp [watchdogWake, hwd, hwait, htm, hC, hp, hch, hopen, hroom]

theorem wakeAll_only (is : List Nat) :
    ∀ (w : World) (i tid v p : Nat) (wd : Watchdog) (tm : Timer) (ch : Chan),
      is.Nodup → i ∈ is →
      w.watchdogs[i]? = some wd → wd.status = .waiting → wd.timer = tid →
      (∀ (j : Nat) (wd' : Watchdog), w.watchdogs[j]? = some wd' → wd'.status = .waiting → j = i) →
      w.timers[tid]? = some tm → tm.C = some v →
      w.wsc.PingTimeoutChannel = some p → w.chans[p]? = some ch →
      ch.closed = false → ch.buf.length < ch.cap →
      wakeAll is w = .ok ()
        { w with
          timers := w.timers.set tid { tm with C := none }
          watchdogs := w.watchdogs.set i { wd with status := .timedOut }
          chans := w.chans.set p { ch with buf := ch.buf ++ [.timeout true] }
          trace := w.trace ++ [.pingTimeout i v] } := by
  induction is with
  | nil => intro w i tid v p wd tm ch _ hi; simp at hi
  | cons j rest ih =>
    intro w i tid v p wd tm ch hnd hi hwd hwait hwt honly htm hC hp hch hopen hroom
    have hnd' := List.nodup_cons.mp hnd
    by_cases hji : j = i
    · subst hji
      simp only [wakeAll, bind_apply,
        watchdogWake_fires w j tid v p wd tm ch hwd hwait hwt htm hC hp hch hopen hroom]
      apply wakeAll_none
      intro k wd' hk
      have hlt : j < w.watchdogs.length := by
        by_contra hcon
        rw [List.getElem?_eq_none (by omega)] at hwd
        exact absurd hwd (by simp)
      by_cases hkj : k = j
      · subst hkj
        simp only [List.getElem?_set_self hlt] at hk
        injection hk with hk
        subst hk
        simp
      · simp only [List.getElem?_set_ne (Ne.symm hkj)] at hk
        intro hs
        exact hkj (honly k wd' hk hs)
    · have hidle : watchdogWake j w = .ok () w := by
        apply watchdogWake_idle
        intro wd' hwd' hs
        exact absurd (honly j wd' hwd' hs) hji
      simp only [wakeAll, bind_apply, hidle]
      have hi' : i ∈ rest := by
        rcases List.mem_cons.mp hi with h | h
        · exact absurd h.symm hji
        · exact h
      exact ih w i tid v p wd tm ch hnd'.2 hi' hwd hwait hwt honly htm hC hp hch hopen hroom

/-- C7, as amended. Keepalive failure. Let the client's only parked watchdog
    `i` wait on a timer that is pending with deadline `d` (65 seconds after the
    last reset or after the watchdog's start), so the client has not been
    closed, and let `PingTimeoutChannel` be open with room. If no ping is
    handled before the clock reaches an instant `T` at or after `d`, the
    watchdog sends exactly one value, `true`, on `PingTimeoutChannel`, stamped
    with the deadline `d`, and returns; and whatever happens afterwards the
    number of timeout signals sent by that watchdog stays one more than it was
    before. -/
theorem keepalive_failure (C : Codec) (K : Consts) (w : World) (i tid d p T : Nat)
    (wd : Watchdog) (ch : Chan) (after : List Action)
    (hwd : w.watchdogs[i]? = some wd) (hwait : wd.status = .waiting) (hwt : wd.timer = tid)
    (honly : ∀ (j : Nat) (wd' : Watchdog),
      w.watchdogs[j]? = some wd' → wd'.status = .waiting → j = i)
    (htm : w.timers[tid]? = some { deadline := some d, C := none })
    (hp : w.wsc.PingTimeoutChannel = some p) (hch : w.chans[p]? = some ch)
    (hopen : ch.closed = false) (hroom : ch.buf.length < ch.cap)
    (hT : d ≤ T) :
    ∃ w', advance T w = .ok () w' ∧
      w'.trace = w.trace ++ [.pingTimeout i d] ∧
      w'.chans = w.chans.set p { ch with buf := ch.buf ++ [.timeout true] } ∧
      w'.watchdogs = w.watchdogs.set i { wd with status := .timedOut } ∧
      timeoutsBy i w'.trace = timeoutsBy i w.trace + 1 ∧
      timeoutsBy i (runActions C K after w').trace = timeoutsBy i w.trace + 1 := by
  have hlt : i < w.watchdogs.length := by
    by_contra hcon
    rw [List.getElem?_eq_none (by omega)] at hwd
    exact absurd hwd (by simp)
  have hfired : (w.timers.map (fireTimer (max w.now T)))[tid]? =
      some { deadline := none, C := some d } := by
    rw [List.getElem?_map, htm]
    have : d ≤ max w.now T := le_trans hT (le_max_right _ _)
    simp [fireTimer, this]
  have hrun := wakeAll_only (List.range w.watchdogs.length)
    { w with now := max w.now T, timers := w.timers.map (fireTimer (max w.now T)) }
    i tid d p wd _ ch (List.nodup_range _) (List.mem_range.mpr hlt) hwd hwait hwt honly hfired rfl
    hp hch hopen hroom
  refine ⟨{ w with
      now := max w.now T
      timers := (w.timers.map (fireTimer (max w.now T))).set tid { deadline := none, C := none }
      watchdogs := w.watchdogs.set i { wd with status := .timedOut }
      chans := w.chans.set p { ch with buf := ch.buf ++ [.timeout true] }
      trace := w.trace ++ [.pingTimeout i d] }, ?_, rfl, rfl, rfl, ?_, ?_⟩
  · unfold advance
    exact hrun
  · simp only [timeoutsBy_append, timeoutsBy_pingTimeout_self]
  · have hdone : TimedOut i (timeoutsBy i w.trace + 1)
        { w with
          now := max w.now T
          timers := (w.timers.map (fireTimer (max w.now T))).set tid { deadline := none, C := none }
          watchdogs := w.watchdogs.set i { wd with status := .timedOut }
          chans := w.chans.set p { ch with buf := ch.buf ++ [.timeout true] }
          trace := w.trace ++ [.pingTimeout i d] } := by
      refine ⟨⟨{ wd with status := .timedOut }, ?_, rfl⟩, ?_⟩
      · simp only [List.getElem?_set_self hlt]
      · simp only [timeoutsBy_append, timeoutsBy_pingTimeout_self]
    have hle : ∀ e, Stable (TimedOut i (timeoutsBy i w.trace + 1)) (emit (.setListenError e)) :=
      fun e => ⟨fun w1 h1 => by
        obtain ⟨h2, h3⟩ := h1
        refine ⟨h2, ?_⟩
        simp only [emit_apply, Res.world, timeoutsBy_append]
        simp [timeoutsBy, timeouts]
        exact h3⟩
    exact (runActions_stable (timedOut_primStable i _) hle C K after _ hdone).2

theorem sampleWorld_onlyWatchdog (j : Nat) (wd' : Watchdog)
    (h : sampleWorld.watchdogs[j]? = some wd') (_hs : wd'.status = .waiting) : j = 0 := by
  have hw : sampleWorld.watchdogs = [{ timer := 0, cancel := some 4, status := .waiting }] := rfl
  rw [hw] at h
  cases j with
  | zero => rfl
  | succ n => simp at h

/-- Instance of C7 as amended: Scenario C, watchdog started at 0,
    nothing arrives, the clock reaches 65; afterwards a ping, a close, a
    reconnect and more time add no signal of that watchdog. -/
theorem keepalive_failure_witness :
    ∃ w', advance 65 sampleWorld = .ok () w' ∧
      w'.trace = sampleWorld.trace ++ [.pingTimeout 0 65] ∧
      w'.chans = sampleWorld.chans.set 0 { cap := 1, buf := [.timeout true], closed := false } ∧
      w'.watchdogs = sampleWorld.watchdogs.set 0
        { timer := 0, cancel := some 4, status := .timedOut } ∧
      timeoutsBy 0 w'.trace = timeoutsBy 0 sampleWorld.trace + 1 ∧
      timeoutsBy 0 (runActions scenarioCodec sampleConsts
        [.ping "", .close, .connect okDialer, .tick 500, .recvTimeout] w').trace =
          timeoutsBy 0 sampleWorld.trace + 1 :=
  keepalive_failure scenarioCodec sampleConsts sampleWorld 0 0 65 0 65
    { timer := 0, cancel := some 4, status := .waiting }
    { cap := 1, buf := [], closed := false }
    [.ping "", .close, .connect okDialer, .tick 500, .recvTimeout]
    rfl rfl rfl sampleWorld_onlyWatchdog rfl rfl rfl rfl (by decide) (by decide)

/-- C7 fails as stated. In `staleWorld` the client is not closed, its watchdog
    (goroutine 1) waits on the client's pending timer with deadline 130 and no
    ping is handled; yet when the clock reaches 130, and however long one
    waits, that watchdog has sent nothing: it is parked in the send of line 295
    because `PingTimeoutChannel`, of capacity 1 and made only by the
    constructor, still holds the unread signal of the first watchdog. -/
theorem keepalive_failure_counterexample :
    staleWorld.wsc.closed = false ∧
    staleWorld.wsc.pingTimeoutTimer = some 1 ∧
    staleWorld.timers[1]? = some { deadline := some 130, C := none } ∧
    staleWorld.watchdogs[1]? = some { timer := 1, cancel := some 8, status := .waiting } ∧
    staleWorld.wsc.PingTimeoutChannel = some 0 ∧
    staleWorld.chans[0]? = some { cap := 1, buf := [.timeout true], closed := false } ∧
    (advance 130 staleWorld).isOk = true ∧
    timeoutsBy 1 (advance 130 staleWorld).world.trace = 0 ∧
    (advance 130 staleWorld).world.watchdogs[1]? =
      some { timer := 1, cancel := some 8, status := .sending } ∧
    timeoutsBy 1 (runActions scenarioCodec sampleConsts [.tick 130, .tick 100000]
      staleWorld).trace = 0 := by
  decide!

end ClaimC7

section Teardown

/-- The first `Close` of an open client: the order of its actions and what it
    leaves closed. -/
theorem Close_teardown (w : World) (qw wc qr ev rs cp cn : Nat)
    (h : OpenClient w qw wc qr ev rs cp cn) :
    ∃ w1, Close w = .ok () w1 ∧ w1.wsc.closeOnce = true ∧ w1.wsc.closed = true ∧
      w1.trace = w.trace ++
        [.closeChan qw, .closeChan wc, .connClose cn, .closeChan qr, .closeChan ev,
         .closeChan rs, .closeChan cp, .setClosed] ∧
      (∀ c ∈ [qw, wc, qr, ev, rs, cp], chanClosed (some c) w1 = true) ∧
      chanClosed w1.wsc.quitReaderChan w1 = true ∧
      (∃ k, w1.conns[cn]? = some k ∧ k.closed = true) := by
  obtain ⟨a1, ha1, hb1⟩ := h.isOpen qw (by simp)
  obtain ⟨a2, ha2, hb2⟩ := h.isOpen wc (by simp)
  obtain ⟨a3, ha3, hb3⟩ := h.isOpen qr (by simp)
  obtain ⟨a4, ha4, hb4⟩ := h.isOpen ev (by simp)
  obtain ⟨a5, ha5, hb5⟩ := h.isOpen rs (by simp)
  obtain ⟨a6, ha6, hb6⟩ := h.isOpen cp (by simp)
  obtain ⟨k, hk⟩ := h.connLive
  have hd := h.distinct
  simp only [List.nodup_cons, List.mem_cons, List.mem_singleton, not_or, List.not_mem_nil,
    not_false_eq_true, List.nodup_nil, and_true] at hd
  obtain ⟨⟨n12, n13, n14, n15, n16⟩, ⟨n23, n24, n25, n26⟩, ⟨n34, n35, n36⟩, ⟨n45, n46⟩, n56⟩ := hd
  have l1 := (List.getElem?_eq_some.mp ha1).1
  have l2 := (List.getElem?_eq_some.mp ha2).1
  have l3 := (List.getElem?_eq_some.mp ha3).1
  have l4 := (List.getElem?_eq_some.mp ha4).1
  have l5 := (List.getElem?_eq_some.mp ha5).1
  have l6 := (List.getElem?_eq_some.mp ha6).1
  have lk := (List.getElem?_eq_some.mp hk).1
  simp [Close, onceDo, h.once, closeBody, closeChan, connClose, h.quitWriter, h.write,
    h.quitReader, h.events, h.responses, h.closeWatchdog, h.conn, hk, List.getElem?_set,
    ha1, ha2, ha3, ha4, ha5, ha6, hb1, hb2, hb3, hb4, hb5, hb6, chanClosed,
    n12, n13, n14, n15, n16, n23, n24, n25, n26, n34, n35, n36, n45, n46, n56,
    Ne.symm n12, Ne.symm n13, Ne.symm n14, Ne.symm n15, Ne.symm n16,
    Ne.symm n23, Ne.symm n24, Ne.symm n25, Ne.symm n26, Ne.symm n34, Ne.symm n35, Ne.symm n36,
    Ne.symm n45, Ne.symm n46, Ne.symm n56]
  simp only [l1, l2, l3, l4, l5, l6, lk, if_true, true_and, and_self]
  exact ⟨_, rfl, rfl⟩

/-- C12. The first `Close` on an open client returns after performing exactly
    these actions, in this order: close `quitWriterChan`, close `writeChan`,
    close the connection, close `quitReaderChan`, close `EventChannel`, close
    `ResponseChannel`, close `closePingWatchdog`, and last of all set
    `closed = true`; the six channels and the connection are then closed. -/
theorem Close_order (w : World) (qw wc qr ev rs cp cn : Nat)
    (h : OpenClient w qw wc qr ev rs cp cn) :
    ∃ w1, Close w = .ok () w1 ∧
      w1.trace = w.trace ++
        [.closeChan qw, .closeChan wc, .connClose cn, .closeChan qr, .closeChan ev,
         .closeChan rs, .closeChan cp, .setClosed] ∧
      w1.wsc.closed = true ∧
      (∀ c ∈ [qw, wc, qr, ev, rs, cp], chanClosed (some c) w1 = true) ∧
      (∃ k, w1.conns[cn]? = some k ∧ k.closed = true) := by
  obtain ⟨w1, h1, _, h3, h4, h5, _, h7⟩ := Close_teardown w qw wc qr ev rs cp cn h
  exact ⟨w1, h1, h4, h3, h5, h7⟩

/-- Instance of C12: the sample client, whose channels are numbered 5, 3, 6,
    1, 2, 4 in the order of the teardown and whose connection is number 0. -/
theorem Close_order_witness :
    OpenClient sampleWorld 5 3 6 1 2 4 0 ∧
    ∃ w1, Close sampleWorld = .ok () w1 ∧
      w1.trace = sampleWorld.trace ++
        [.closeChan 5, .closeChan 3, .connClose 0, .closeChan 6, .closeChan 1,
         .closeChan 2, .closeChan 4, .setClosed] ∧
      w1.wsc.closed = true ∧
      (∀ c ∈ [5, 3, 6, 1, 2, 4], chanClosed (some c) w1 = true) ∧
      (∃ k, w1.conns[0]? = some k ∧ k.closed = true) :=
  ⟨sampleWorld_open, Close_order sampleWorld 5 3 6 1 2 4 0 sampleWorld_open⟩

end Teardown

section Helpers

/-- Whatever happens to the send on `writeChan`, `SendMessage` has incremented
    the counter (line 242 comes before line 243). -/
theorem SendMessage_sequence (w : World) (action : String) (data : Data) :
    (SendMessage action data w).world.wsc.Sequence = wrapInt64 (w.wsc.Sequence + 1) := by
  simp only [SendMessage, bind_apply, getW_apply, setWsc_apply, sendWriteChan]
  repeat' split
  all_goals rfl

/-- C17, within the `int64` range. Each convenience helper is one `SendMessage`
    call: `UserTyping c p` is `SendMessage "user_typing"` with data
    `channel_id: c, parent_id: p`, `GetStatuses` is `SendMessage "get_statuses"`
    with nil data, `GetStatusesByIds ids` is `SendMessage "get_statuses_by_ids"`
    with data `user_ids: ids`; and with `Sequence` below the largest `int64`
    each of them, whether or not the Writer takes the request, leaves
    `Sequence` exactly one higher. -/
theorem helpers_send_once (w : World) (c p : String) (ids : List String)
    (hlo : minInt64 ≤ w.wsc.Sequence) (hhi : w.wsc.Sequence < maxInt64) :
    UserTyping c p =
        SendMessage "user_typing" (some [("channel_id", .str c), ("parent_id", .str p)]) ∧
      GetStatuses = SendMessage "get_statuses" none ∧
      GetStatusesByIds ids = SendMessage "get_statuses_by_ids" (some [("user_ids", .strs ids)]) ∧
      (UserTyping c p w).world.wsc.Sequence = w.wsc.Sequence + 1 ∧
      (GetStatuses w).world.wsc.Sequence = w.wsc.Sequence + 1 ∧
      (GetStatusesByIds ids w).world.wsc.Sequence = w.wsc.Sequence + 1 := by
  have hw : wrapInt64 (w.wsc.Sequence + 1) = w.wsc.Sequence + 1 :=
    wrapInt64_of_range _ (by unfold minInt64 at *; omega) (by unfold maxInt64 at *; omega)
  refine ⟨rfl, rfl, rfl, ?_, ?_, ?_⟩
  · rw [UserTyping, SendMessage_sequence, hw]
  · rw [GetStatuses, SendMessage_sequence, hw]
  · rw [GetStatusesByIds, SendMessage_sequence, hw]

/-- Instance of C17: on the sample client, whose counter is 2, each helper
    leaves the counter at 3. -/
theorem helpers_send_once_witness :
    UserTyping "c" "p" =
        SendMessage "user_typing" (some [("channel_id", .str "c"), ("parent_id", .str "p")]) ∧
      GetStatuses = SendMessage "get_statuses" none ∧
      GetStatusesByIds ["u"] =
        SendMessage "get_statuses_by_ids" (some [("user_ids", .strs ["u"])]) ∧
      (UserTyping "c" "p" sampleWorld).world.wsc.Sequence = sampleWorld.wsc.Sequence + 1 ∧
      (GetStatuses sampleWorld).world.wsc.Sequence = sampleWorld.wsc.Sequence + 1 ∧
      (GetStatusesByIds ["u"] sampleWorld).world.wsc.Sequence = sampleWorld.wsc.Sequence + 1 :=
  helpers_send_once sampleWorld "c" "p" ["u"] (by decide) (by decide)

/-- C17 fails as stated at the end of the `int64` range: with `Sequence` at
    `2^63 - 1` each helper returns and leaves `Sequence` at `-2^63`, which is
    not one higher. -/
theorem helpers_send_once_counterexample :
    lastSeqWorld.wsc.Sequence = 2 ^ 63 - 1 ∧
      (GetStatuses lastSeqWorld).isOk = true ∧
      (GetStatuses lastSeqWorld).world.wsc.Sequence = -(2 ^ 63) ∧
      (UserTyping "c" "p" lastSeqWorld).world.wsc.Sequence = -(2 ^ 63) ∧
      (GetStatusesByIds ["u"] lastSeqWorld).world.wsc.Sequence = -(2 ^ 63) ∧
      (GetStatuses lastSeqWorld).world.wsc.Sequence ≠ lastSeqWorld.wsc.Sequence + 1 := by
  have hs : lastSeqWorld.wsc.Sequence = 2 ^ 63 - 1 := rfl
  have hw : wrapInt64 (2 ^ 63 - 1 + 1) = -(2 ^ 63) := by decide
  refine ⟨hs, ?_, ?_, ?_, ?_, ?_⟩
  · decide
  · rw [GetStatuses, SendMessage_sequence, hs, hw]
  · rw [UserTyping, SendMessage_sequence, hs, hw]
  · rw [GetStatusesByIds, SendMessage_sequence, hs, hw]
  · rw [GetStatuses, SendMessage_sequence, hs, hw]
    decide

end Helpers

section PingReply

/-- C19, with the Writer receiving. For every state in which the deadline
    timer is pending and the Writer is receiving on the open `writeChan`, and
    for every `appData`, one `pingHandler` call returns a nil error after
    exactly three actions: it stops the timer (`Stop` reports that it was
    pending, so nothing is drained), rearms it to fire `60 + 5` seconds from
    now, the deadline `configurePingHandling` gives a new timer, and hands one
    `msgTypePong` message to the Writer. The connections are untouched: the
    handler writes nothing itself. -/
theorem pingHandler_rearms (w : World) (tid d : Nat) (tm : Timer) (appData : String)
    (ht : w.wsc.pingTimeoutTimer = some tid)
    (htm : w.timers[tid]? = some tm) (hpending : tm.deadline = some d)
    (hw : WriterReady w) :
    pingHandler appData w = .ok none
      { w with
        timers := w.timers.set tid { deadline := some (w.now + (60 + 5)), C := tm.C }
        trace := w.trace ++
          [.timerStop tid true, .timerReset tid (w.now + (60 + 5)),
           .handoff { msgType := msgTypePong, contents := none }] } ∧
      handedSince w (pingHandler appData w).world = [{ msgType := msgTypePong, contents := none }] ∧
      (pingHandler appData w).world.conns = w.conns ∧
      (∀ w0 : World, (newTimer pingTimeoutSeconds w0).world.timers =
        w0.timers ++ [{ deadline := some (w0.now + (60 + 5)), C := none }]) := by
  obtain ⟨c, ch, hc, hch, hopen, hpos⟩ := hw
  have hne : w.writers ≠ 0 := by omega
  have hlt : tid < w.timers.length := (List.getElem?_eq_some.mp htm).1
  have hrun : pingHandler appData w = .ok none
      { w with
        timers := w.timers.set tid { deadline := some (w.now + (60 + 5)), C := tm.C }
        trace := w.trace ++
          [.timerStop tid true, .timerReset tid (w.now + (60 + 5)),
           .handoff { msgType := msgTypePong, contents := none }] } := by
    simp [pingHandler, timerStop, timerReset, sendWriteChan, ht, htm, hpending, hc, hch, hopen,
      hne, List.getElem?_set, hlt, pingTimeoutSeconds, PING_TIMEOUT_BUFFER_SECONDS]
  refine ⟨hrun, ?_, ?_, ?_⟩
  · rw [hrun]
    apply handedSince_of_append
    simp [Res.world, handed_append, handed]
  · rw [hrun]
    rfl
  · intro w0
    rfl

/-- Instance of C19: a ping on the sample client at instant 0 rearms timer 0
    for instant 65 and hands the Writer one pong. -/
theorem pingHandler_rearms_witness :
    pingHandler "ping" sampleWorld = .ok none
      { sampleWorld with
        timers := sampleWorld.timers.set 0 { deadline := some (sampleWorld.now + (60 + 5)), C := none }
        trace := sampleWorld.trace ++
          [.timerStop 0 true, .timerReset 0 (sampleWorld.now + (60 + 5)),
           .handoff { msgType := msgTypePong, contents := none }] } ∧
      handedSince sampleWorld (pingHandler "ping" sampleWorld).world =
        [{ msgType := msgTypePong, contents := none }] ∧
      (pingHandler "ping" sampleWorld).world.conns = sampleWorld.conns ∧
      (∀ w0 : World, (newTimer pingTimeoutSeconds w0).world.timers =
        w0.timers ++ [{ deadline := some (w0.now + (60 + 5)), C := none }]) :=
  pingHandler_rearms sampleWorld 0 65 { deadline := some 65, C := none } "ping" rfl
    (by decide) rfl sampleWorld_ready

/-- C19 fails as stated on a client that is being closed or is closed. The
    deadline timer is still pending (`Close` never stops it), but `writeChan`
    is closed: the handler stops and rearms the timer and then panics in the
    send of line 286, so no pong reaches the Writer and no nil error is
    returned. -/
theorem pingHandler_rearms_counterexample :
    (closingWorld.wsc.pingTimeoutTimer = some 0 ∧
      closingWorld.timers[0]? = some { deadline := some 65, C := none } ∧
      closingWorld.conns = [⟨"ws://localhost:8065/api/v4/websocket", false, true⟩] ∧
      pingHandler "ping" closingWorld =
        .panic .sendClosedChan (pingHandler "ping" closingWorld).world ∧
      handedSince closingWorld (pingHandler "ping" closingWorld).world = []) ∧
    (closedWorld.wsc.pingTimeoutTimer = some 0 ∧
      closedWorld.timers[0]? = some { deadline := some 65, C := none } ∧
      pingHandler "ping" closedWorld =
        .panic .sendClosedChan (pingHandler "ping" closedWorld).world ∧
      handedSince closedWorld (pingHandler "ping" closedWorld).world = []) := by
  refine ⟨⟨by decide!, by decide!, by decide!, by decide!, by decide!⟩,
    by decide!, by decide!, by decide!, by decide!⟩

end PingReply

section WriterLoop

theorem writer_world (writeErr : Nat → Option String) (inputs : List WriterInput) (w : World) :
    (writer writeErr inputs w).world = w := by
  induction inputs generalizing writeErr with
  | nil => rfl
  | cons i rest ih =>
    cases i with
    | quit => rfl
    | message msg =>
      unfold writer
      split
      · split
        · rfl
        · exact ih _
      · split
        · split
          · rfl
          · exact ih _
        · exact ih _

theorem writer_writes (writeErr : Nat → Option String) (inputs : List WriterInput) (w : World)
    (c : Nat) (hconn : w.wsc.Conn = some c) :
    (writer writeErr inputs w).writes = ((beforeQuit inputs).map (writeFor c)).flatten := by
  induction inputs generalizing writeErr with
  | nil => rfl
  | cons i rest ih =>
    cases i with
    | quit => rfl
    | message msg =>
      unfold writer
      by_cases h1 : msg.msgType = msgTypeJSON
      · simp [h1, hconn, beforeQuit, writeFor, ih]
      · by_cases h2 : msg.msgType = msgTypePong
        · have hne : ¬ msgTypePong = msgTypeJSON := by decide
          simp [h2, hne, hconn, beforeQuit, writeFor, ih]
        · simp [h1, h2, beforeQuit, writeFor, ih]

theorem writer_exit (writeErr : Nat → Option String) (inputs : List WriterInput) (w : World)
    (c : Nat) (hconn : w.wsc.Conn = some c) :
    (writer writeErr inputs w).exit = if .quit ∈ inputs then .returned else .waiting := by
  induction inputs generalizing writeErr with
  | nil => rfl
  | cons i rest ih =>
    cases i with
    | quit => simp [writer]
    | message msg =>
      unfold writer
      by_cases h1 : msg.msgType = msgTypeJSON
      · simp [h1, hconn, ih]
      · by_cases h2 : msg.msgType = msgTypePong
        · have hne : ¬ msgTypePong = msgTypeJSON := by decide
          simp [h2, hne, hconn, ih]
        · simp [h1, h2, ih]

/-- C13. For every sequence of inputs of the Writer of a client that has a
    connection, the writes it performs are, in order, those of the messages it
    received before the stop signal: one `WriteJSON` of the contents for a
    `msgTypeJSON` message, one pong control frame with empty payload for a
    `msgTypePong` message; when all the messages are of these two types there
    are exactly as many writes as messages. This holds whatever the writes
    return. -/
theorem writer_in_order (writeErr : Nat → Option String) (inputs : List WriterInput) (w : World)
    (c : Nat) (hconn : w.wsc.Conn = some c) :
    (writer writeErr inputs w).writes = ((beforeQuit inputs).map (writeFor c)).flatten ∧
      (∀ contents, writeFor c ⟨msgTypeJSON, contents⟩ = [.writeJSON c contents]) ∧
      (∀ contents, writeFor c ⟨msgTypePong, contents⟩ = [.writeMessage c PongMessage []]) ∧
      ((∀ m ∈ beforeQuit inputs, m.msgType = msgTypeJSON ∨ m.msgType = msgTypePong) →
        (writer writeErr inputs w).writes.length = (beforeQuit inputs).length) := by
  refine ⟨writer_writes writeErr inputs w c hconn, fun _ => rfl, fun _ => rfl, ?_⟩
  intro hall
  rw [writer_writes writeErr inputs w c hconn]
  generalize beforeQuit inputs = ms at hall
  induction ms with
  | nil => rfl
  | cons m ms ih =>
    have hm := hall m (by simp)
    have ih' := ih (fun x hx => hall x (by simp [hx]))
    rcases hm with hm | hm
    · simp [writeFor, hm, ih'] at ih' ⊢
    · have hne : ¬ msgTypePong = msgTypeJSON := by decide
      simp [writeFor, hm, hne, ih'] at ih' ⊢

/-- Instance of C13: a request, a pong and a second request on connection 0,
    then the stop signal and a message that comes too late. -/
theorem writer_in_order_witness :
    sampleWorld.wsc.Conn = some 0 ∧
    ((writer (fun _ => none)
        [.message ⟨msgTypeJSON, some ⟨2, "a", none⟩⟩, .message ⟨msgTypePong, none⟩,
         .message ⟨msgTypeJSON, some ⟨3, "b", none⟩⟩, .quit,
         .message ⟨msgTypeJSON, some ⟨4, "c", none⟩⟩] sampleWorld).writes =
        ((beforeQuit
          [.message ⟨msgTypeJSON, some ⟨2, "a", none⟩⟩, .message ⟨msgTypePong, none⟩,
           .message ⟨msgTypeJSON, some ⟨3, "b", none⟩⟩, .quit,
           .message ⟨msgTypeJSON, some ⟨4, "c", none⟩⟩]).map (writeFor 0)).flatten ∧
      (∀ contents, writeFor 0 ⟨msgTypeJSON, contents⟩ = [.writeJSON 0 contents]) ∧
      (∀ contents, writeFor 0 ⟨msgTypePong, contents⟩ = [.writeMessage 0 PongMessage []]) ∧
      ((∀ m ∈ beforeQuit
          [.message ⟨msgTypeJSON, some ⟨2, "a", none⟩⟩, .message ⟨msgTypePong, none⟩,
           .message ⟨msgTypeJSON, some ⟨3, "b", none⟩⟩, .quit,
           .message ⟨msgTypeJSON, some ⟨4, "c", none⟩⟩],
          m.msgType = msgTypeJSON ∨ m.msgType = msgTypePong) →
        (writer (fun _ => none)
          [.message ⟨msgTypeJSON, some ⟨2, "a", none⟩⟩, .message ⟨msgTypePong, none⟩,
           .message ⟨msgTypeJSON, some ⟨3, "b", none⟩⟩, .quit,
           .message ⟨msgTypeJSON, some ⟨4, "c", none⟩⟩] sampleWorld).writes.length =
        (beforeQuit
          [.message ⟨msgTypeJSON, some ⟨2, "a", none⟩⟩, .message ⟨msgTypePong, none⟩,
           .message ⟨msgTypeJSON, some ⟨3, "b", none⟩⟩, .quit,
           .message ⟨msgTypeJSON, some ⟨4, "c", none⟩⟩]).length)) :=
  ⟨rfl, writer_in_order (fun _ => none) _ sampleWorld 0 rfl⟩

/-- C18. For every sequence of inputs of the Writer of a client that has a
    connection and any two patterns of write failures, the Writer performs the
    same writes in the same order and ends in the same way; it leaves the
    client and every other part of the state as it was, so no error is stored
    anywhere; and it has returned exactly when the stop signal was among its
    inputs, otherwise it is waiting for the next input. -/
theorem writer_ignores_failures (e1 e2 : Nat → Option String) (inputs : List WriterInput)
    (w : World) (c : Nat) (hconn : w.wsc.Conn = some c) :
    (writer e1 inputs w).writes = (writer e2 inputs w).writes ∧
      (writer e1 inputs w).exit = (writer e2 inputs w).exit ∧
      (writer e1 inputs w).world = w ∧
      ((writer e1 inputs w).exit = .returned ↔ .quit ∈ inputs) ∧
      ((writer e1 inputs w).exit = .waiting ↔ .quit ∉ inputs) := by
  refine ⟨?_, ?_, writer_world e1 inputs w, ?_, ?_⟩
  · rw [writer_writes e1 inputs w c hconn, writer_writes e2 inputs w c hconn]
  · rw [writer_exit e1 inputs w c hconn, writer_exit e2 inputs w c hconn]
  · rw [writer_exit e1 inputs w c hconn]
    by_cases h : WriterInput.quit ∈ inputs <;> simp [h]
  · rw [writer_exit e1 inputs w c hconn]
    by_cases h : WriterInput.quit ∈ inputs <;> simp [h]

/-- Instance of C18: every write fails in the first run and none in the
    second; the two writes are the same, both errors are dropped, and the
    Writer goes on waiting. -/
theorem writer_ignores_failures_witness :
    sampleWorld.wsc.Conn = some 0 ∧
    (writer (fun _ => some "broken pipe")
        [.message ⟨msgTypeJSON, some ⟨2, "a", none⟩⟩, .message ⟨msgTypePong, none⟩]
        sampleWorld).dropped = ["broken pipe", "broken pipe"] ∧
    (writer (fun _ => some "broken pipe")
        [.message ⟨msgTypeJSON, some ⟨2, "a", none⟩⟩, .message ⟨msgTypePong, none⟩]
        sampleWorld).writes = [.writeJSON 0 (some ⟨2, "a", none⟩), .writeMessage 0 PongMessage []] ∧
    ((writer (fun _ => some "broken pipe")
        [.message ⟨msgTypeJSON, some ⟨2, "a", none⟩⟩, .message ⟨msgTypePong, none⟩]
        sampleWorld).writes =
      (writer (fun _ => none)
        [.message ⟨msgTypeJSON, some ⟨2, "a", none⟩⟩, .message ⟨msgTypePong, none⟩]
        sampleWorld).writes ∧
    (writer (fun _ => some "broken pipe")
        [.message ⟨msgTypeJSON, some ⟨2, "a", none⟩⟩, .message ⟨msgTypePong, none⟩]
        sampleWorld).exit =
      (writer (fun _ => none)
        [.message ⟨msgTypeJSON, some ⟨2, "a", none⟩⟩, .message ⟨msgTypePong, none⟩]
        sampleWorld).exit ∧
    (writer (fun _ => some "broken pipe")
        [.message ⟨msgTypeJSON, some ⟨2, "a", none⟩⟩, .message ⟨msgTypePong, none⟩]
        sampleWorld).world = sampleWorld ∧
    ((writer (fun _ => some "broken pipe")
        [.message ⟨msgTypeJSON, some ⟨2, "a", none⟩⟩, .message ⟨msgTypePong, none⟩]
        sampleWorld).exit = .returned ↔
      .quit ∈ [WriterInput.message ⟨msgTypeJSON, some ⟨2, "a", none⟩⟩,
        .message ⟨msgTypePong, none⟩]) ∧
    ((writer (fun _ => some "broken pipe")
        [.message ⟨msgTypeJSON, some ⟨2, "a", none⟩⟩, .message ⟨msgTypePong, none⟩]
        sampleWorld).exit = .waiting ↔
      .quit ∉ [WriterInput.message ⟨msgTypeJSON, some ⟨2, "a", none⟩⟩,
        .message ⟨msgTypePong, none⟩])) :=
  ⟨rfl, by decide, by decide,
    writer_ignores_failures (fun _ => some "broken pipe") (fun _ => none) _ sampleWorld 0 rfl⟩

end WriterLoop

section Classification

theorem queued_append (xs ys : List Effect) : queued (xs ++ ys) = queued xs ++ queued ys := by
  induction xs with
  | nil => rfl
  | cons e es ih => cases e <;> simp [queued, ih]

theorem queuedSince_self (w : World) : queuedSince w w = [] := by
  simp [queuedSince]

theorem queuedSince_of_append (w0 w : World) (xs : List (Nat × Item))
    (h : queued w.trace = queued w0.trace ++ xs) : queuedSince w0 w = xs := by
  simp [queuedSince, h]

/-- What a send on a queue does: nothing (it parks or panics) or one value
    appended to an open channel that has room. -/
theorem sendChan_cases (r : Option Nat) (x : Item) (w : World) :
    (sendChan r x w = .blocked w ∨ sendChan r x w = .panic .sendClosedChan w) ∨
    ∃ c ch, r = some c ∧ w.chans[c]? = some ch ∧ ch.closed = false ∧ ch.buf.length < ch.cap ∧
      sendChan r x w = .ok ()
        { w with
          chans := w.chans.set c { ch with buf := ch.buf ++ [x] }
          trace := w.trace ++ [.chanSend c x] } := by
  cases r with
  | none => exact .inl (.inl rfl)
  | some c =>
    cases hch : w.chans[c]? with
    | none => exact .inl (.inl (by simp [sendChan, hch]))
    | some ch =>
      by_cases hcl : ch.closed = true
      · exact .inl (.inr (by simp [sendChan, hch, hcl]))
      · by_cases hroom : ch.buf.length < ch.cap
        · exact .inr ⟨c, ch, rfl, hch, by simpa using hcl, hroom,
            by simp [sendChan, hch, hcl, hroom]⟩
        · exact .inl (.inl (by simp [sendChan, hch, hcl, hroom]))

/-- What one iteration of the Reader loop does with a frame: it ends with the
    world unchanged, or it has sent the decoded valid event on `EventChannel`,
    or it has sent the decoded valid response on `ResponseChannel`. -/
theorem listenIter_frame_cases (C : Codec) (rawMsg : RawMessage) (w : World) :
    (listenIter C (.frame rawMsg) w).world = w ∨
    (∃ c ch e, w.wsc.EventChannel = some c ∧ w.chans[c]? = some ch ∧ ch.closed = false ∧
      ch.buf.length < ch.cap ∧ C.WebSocketEventFromJson rawMsg = some e ∧ e.IsValid = true ∧
      listenIter C (.frame rawMsg) w = .ok .next
        { w with
          chans := w.chans.set c { ch with buf := ch.buf ++ [.event e] }
          trace := w.trace ++ [.chanSend c (.event e)] }) ∨
    (∃ c ch e r, w.wsc.ResponseChannel = some c ∧ w.chans[c]? = some ch ∧ ch.closed = false ∧
      ch.buf.length < ch.cap ∧ C.WebSocketEventFromJson rawMsg = some e ∧ e.IsValid = false ∧
      C.Unmarshal rawMsg = some r ∧ r.IsValid = true ∧
      listenIter C (.frame rawMsg) w = .ok .next
        { w with
          chans := w.chans.set c { ch with buf := ch.buf ++ [.response r] }
          trace := w.trace ++ [.chanSend c (.response r)] }) := by
  by_cases hq : chanClosed w.wsc.quitReaderChan w = true
  · left; simp [listenIter, hq, Res.world]
  cases hconn : w.wsc.Conn with
  | none => left; simp [listenIter, hq, hconn, raise, Res.world]
  | some k =>
    cases hdec : C.WebSocketEventFromJson rawMsg with
    | none => left; simp [listenIter, hq, hconn, hdec, Res.world]
    | some e =>
      by_cases hv : e.IsValid = true
      · rcases sendChan_cases w.wsc.EventChannel (.event e) w with (hs | hs) | ⟨c, ch, h1, h2, h3, h4, hs⟩
        · left; simp [listenIter, hq, hconn, hdec, hv, hs, Res.world]
        · left; simp [listenIter, hq, hconn, hdec, hv, hs, Res.world]
        · right; left
          exact ⟨c, ch, e, h1, h2, h3, h4, rfl, hv, by simp [listenIter, hq, hconn, hdec, hv, hs]⟩
      · have hv' : e.IsValid = false := by simpa using hv
        cases hun : C.Unmarshal rawMsg with
        | none => left; simp [listenIter, hq, hconn, hdec, hv, hun, Res.world]
        | some r =>
          by_cases hr : r.IsValid = true
          · rcases sendChan_cases w.wsc.ResponseChannel (.response r) w with
              (hs | hs) | ⟨c, ch, h1, h2, h3, h4, hs⟩
            · left; simp [listenIter, hq, hconn, hdec, hv, hun, hr, hs, Res.world]
            · left; simp [listenIter, hq, hconn, hdec, hv, hun, hr, hs, Res.world]
            · right; right
              exact ⟨c, ch, e, r, h1, h2, h3, h4, rfl, hv', rfl, hr,
                by simp [listenIter, hq, hconn, hdec, hv, hun, hr, hs]⟩
          · left; simp [listenIter, hq, hconn, hdec, hv, hun, hr, Res.world]

/-- C15. For every frame and every state, one iteration of the `Listen` loop
    has exactly one of three outcomes: nothing is sent on any queue and every
    channel is as before; or exactly one item, the decoded valid event, is
    appended to `EventChannel` and nothing else is sent; or exactly one item,
    the decoded valid response, is appended to `ResponseChannel` and nothing
    else is sent. So at most one item is sent for a frame, and never one on
    each queue. -/
theorem listenIter_one_outcome (C : Codec) (rawMsg : RawMessage) (w : World) :
    ((queuedSince w (listenIter C (.frame rawMsg) w).world = [] ∧
        (listenIter C (.frame rawMsg) w).world.chans = w.chans) ∨
      (∃ c ch e, w.wsc.EventChannel = some c ∧ w.chans[c]? = some ch ∧
        C.WebSocketEventFromJson rawMsg = some e ∧ e.IsValid = true ∧
        queuedSince w (listenIter C (.frame rawMsg) w).world = [(c, .event e)] ∧
        (listenIter C (.frame rawMsg) w).world.chans =
          w.chans.set c { ch with buf := ch.buf ++ [.event e] }) ∨
      (∃ c ch r, w.wsc.ResponseChannel = some c ∧ w.chans[c]? = some ch ∧
        C.Unmarshal rawMsg = some r ∧ r.IsValid = true ∧
        queuedSince w (listenIter C (.frame rawMsg) w).world = [(c, .response r)] ∧
        (listenIter C (.frame rawMsg) w).world.chans =
          w.chans.set c { ch with buf := ch.buf ++ [.response r] })) ∧
    (queuedSince w (listenIter C (.frame rawMsg) w).world).length ≤ 1 := by
  rcases listenIter_frame_cases C rawMsg w with h | ⟨c, ch, e, h1, h2, _, _, h5, h6, h⟩ |
      ⟨c, ch, e, r, h1, h2, _, _, _, _, h7, h8, h⟩
  · rw [h]
    exact ⟨.inl ⟨queuedSince_self w, rfl⟩, by simp [queuedSince_self]⟩
  · have hq : queuedSince w (listenIter C (.frame rawMsg) w).world = [(c, .event e)] := by
      rw [h]
      apply queuedSince_of_append
      simp [Res.world, queued_append, queued]
    refine ⟨.inr (.inl ⟨c, ch, e, h1, h2, h5, h6, hq, ?_⟩), by simp [hq]⟩
    rw [h]
    rfl
  · have hq : queuedSince w (listenIter C (.frame rawMsg) w).world = [(c, .response r)] := by
      rw [h]
      apply queuedSince_of_append
      simp [Res.world, queued_append, queued]
    refine ⟨.inr (.inr ⟨c, ch, r, h1, h2, h7, h8, hq, ?_⟩), by simp [hq]⟩
    rw [h]
    rfl

end Classification

section ReaderExit

theorem teardown_append (xs ys : List Effect) :
    teardown (xs ++ ys) = teardown xs ++ teardown ys := by
  induction xs with
  | nil => rfl
  | cons e es ih => cases e <;> simp [teardown, ih]

theorem OpenClient.afterSend {w : World} {qw wc qr ev rs cp cn : Nat}
    (h : OpenClient w qw wc qr ev rs cp cn) (c : Nat) (ch : Chan) (buf : List Item)
    (t : List Effect) (hch : w.chans[c]? = some ch) (hopen : ch.closed = false) :
    OpenClient { w with chans := w.chans.set c { ch with buf := buf }, trace := t }
      qw wc qr ev rs cp cn := by
  refine ⟨h.once, h.quitWriter, h.write, h.quitReader, h.events, h.responses, h.closeWatchdog,
    h.conn, h.connLive, h.distinct, ?_⟩
  intro c' hc'
  obtain ⟨ch', h1, h2⟩ := h.isOpen c' hc'
  by_cases hcc : c = c'
  · subst hcc
    have hlt := (List.getElem?_eq_some.mp hch).1
    exact ⟨{ ch with buf := buf }, by simp [List.getElem?_set, hlt], hopen⟩
  · exact ⟨ch', by simp [List.getElem?_set, hcc, h1], h2⟩

theorem OpenClient.afterError {w : World} {qw wc qr ev rs cp cn : Nat}
    (h : OpenClient w qw wc qr ev rs cp cn) (a : Option AppError) (t : List Effect) :
    OpenClient { w with wsc := { w.wsc with ListenError := a }, trace := t }
      qw wc qr ev rs cp cn :=
  ⟨h.once, h.quitWriter, h.write, h.quitReader, h.events, h.responses, h.closeWatchdog,
    h.conn, h.connLive, h.distinct, h.isOpen⟩

theorem OpenClient.atRead {w : World} {qw wc qr ev rs cp cn : Nat}
    (h : OpenClient w qw wc qr ev rs cp cn) :
    chanClosed w.wsc.quitReaderChan w = false := by
  obtain ⟨ch, h1, h2⟩ := h.isOpen qr (by simp)
  simp [chanClosed, h.quitReader, h1, h2]

/-- One iteration of the Reader loop on an open client: it continues or parks
    on a frame and leaves the loop on a failed read; it closes nothing and the
    client stays open. -/
theorem listenIter_open (C : Codec) (r : ReadResult) (w : World) (qw wc qr ev rs cp cn : Nat)
    (h : OpenClient w qw wc qr ev rs cp cn) :
    (∃ w', listenIter C r w = .blocked w') ∨
    ∃ ctl w', listenIter C r w = .ok ctl w' ∧ OpenClient w' qw wc qr ev rs cp cn ∧
      teardown w'.trace = teardown w.trace ∧
      (ctl = .exit ↔ ∃ err, r = .error err) := by
  have hq := h.atRead
  cases r with
  | error err =>
    right
    by_cases hc : IsCloseError err [CloseNormalClosure, CloseNoStatusReceived] = true
    · refine ⟨.exit, w, by simp [listenIter, hq, h.conn, hc], h, rfl, by simp⟩
    · have hrun : listenIter C (.error err) w = .ok .exit
          { w with
            wsc := { w.wsc with ListenError := some (NewAppError "NewWebSocketClient"
              "model.websocket_client.connect_fail.app_error" err.text
              StatusInternalServerError) }
            trace := w.trace ++ [.setListenError (NewAppError "NewWebSocketClient"
              "model.websocket_client.connect_fail.app_error" err.text
              StatusInternalServerError)] } := by
        simp [listenIter, hq, h.conn, hc]
      exact ⟨.exit, _, hrun, h.afterError _ _, by simp [teardown_append, teardown], by simp⟩
  | frame rawMsg =>
    obtain ⟨che, he1, he2⟩ := h.isOpen ev (by simp)
    obtain ⟨chr, hr1, hr2⟩ := h.isOpen rs (by simp)
    cases hdec : C.WebSocketEventFromJson rawMsg with
    | none => exact .inr ⟨.next, w, by simp [listenIter, hq, h.conn, hdec], h, rfl, by simp⟩
    | some e =>
      by_cases hv : e.IsValid = true
      · by_cases hroom : che.buf.length < che.cap
        · have hrun : listenIter C (.frame rawMsg) w = .ok .next
              { w with
                chans := w.chans.set ev { che with buf := che.buf ++ [.event e] }
                trace := w.trace ++ [.chanSend ev (.event e)] } := by
            simp [listenIter, hq, h.conn, hdec, hv, sendChan, h.events, he1, he2, hroom]
          exact .inr ⟨.next, _, hrun, h.afterSend ev che _ _ he1 he2,
            by simp [teardown_append, teardown], by simp⟩
        · have hrun : listenIter C (.frame rawMsg) w = .blocked w := by
            simp [listenIter, hq, h.conn, hdec, hv, sendChan, h.events, he1, he2, hroom]
          exact .inl ⟨w, hrun⟩
      · cases hun : C.Unmarshal rawMsg with
        | none => exact .inr ⟨.next, w, by simp [listenIter, hq, h.conn, hdec, hv, hun], h, rfl,
            by simp⟩
        | some r =>
          by_cases hvr : r.IsValid = true
          · by_cases hroom : chr.buf.length < chr.cap
            · have hrun : listenIter C (.frame rawMsg) w = .ok .next
                  { w with
                    chans := w.chans.set rs { chr with buf := chr.buf ++ [.response r] }
                    trace := w.trace ++ [.chanSend rs (.response r)] } := by
                simp [listenIter, hq, h.conn, hdec, hv, hun, hvr, sendChan, h.responses, hr1,
                  hr2, hroom]
              exact .inr ⟨.next, _, hrun, h.afterSend rs chr _ _ hr1 hr2,
                by simp [teardown_append, teardown], by simp⟩
            · have hrun : listenIter C (.frame rawMsg) w = .blocked w := by
                simp [listenIter, hq, h.conn, hdec, hv, hun, hvr, sendChan, h.responses, hr1,
                  hr2, hroom]
              exact .inl ⟨w, hrun⟩
          · exact .inr ⟨.next, w, by simp [listenIter, hq, h.conn, hdec, hv, hun, hvr], h, rfl,
              by simp⟩

/-- No iteration of the Reader loop closes anything or touches the `Once`. -/
theorem listenIter_keeps (C : Codec) (r : ReadResult) (w : World) :
    (listenIter C r w).world.wsc.closeOnce = w.wsc.closeOnce ∧
      (listenIter C r w).world.wsc.closed = w.wsc.closed ∧
      teardown (listenIter C r w).world.trace = teardown w.trace := by
  cases r with
  | error err =>
    rw [listenIter_error_eq]
    repeat' split
    all_goals simp [Res.world, teardown_append, teardown]
  | frame rawMsg =>
    rcases listenIter_frame_cases C rawMsg w with hw | ⟨c, ch, e, _, _, _, _, _, _, hrun⟩ |
        ⟨c, ch, e, r, _, _, _, _, _, _, _, _, hrun⟩
    · rw [hw]
      exact ⟨rfl, rfl, rfl⟩
    · rw [hrun]
      simp [Res.world, teardown_append, teardown]
    · rw [hrun]
      simp [Res.world, teardown_append, teardown]

theorem readerLoop_cons (C : Codec) (r : ReadResult) (rs : List ReadResult) (w : World) :
    readerLoop C (r :: rs) w =
      match listenIter C r w with
      | .ok .next w' => readerLoop C rs w'
      | .ok .exit w' => .ok () w'
      | .panic e w' => .panic e w'
      | .blocked w' => .blocked w' := by
  rw [readerLoop]
  simp only [bind_apply]
  cases listenIter C r w with
  | ok ctl w' => cases ctl <;> rfl
  | panic e w' => rfl
  | blocked w' => rfl

theorem readerLoop_keeps (C : Codec) (reads : List ReadResult) :
    ∀ w, (readerLoop C reads w).world.wsc.closeOnce = w.wsc.closeOnce ∧
      (readerLoop C reads w).world.wsc.closed = w.wsc.closed ∧
      teardown (readerLoop C reads w).world.trace = teardown w.trace := by
  induction reads with
  | nil =>
    intro w
    unfold readerLoop
    simp only [bind_apply, getW_apply]
    split <;> simp [Res.world, park]
  | cons r rs ih =>
    intro w
    have hk := listenIter_keeps C r w
    rw [readerLoop_cons]
    cases hit : listenIter C r w with
    | ok ctl w' =>
      rw [hit] at hk
      cases ctl with
      | next =>
        have := ih w'
        simp only [Res.world] at hk
        simpa [hk] using this
      | exit => simpa [Res.world] using hk
    | panic e w' =>
      rw [hit] at hk
      simpa [Res.world] using hk
    | blocked w' =>
      rw [hit] at hk
      simpa [Res.world] using hk

/-- With the `Once` used, the Reader goroutine closes nothing when it ends. -/
theorem Listen_after_close (C : Codec) (reads : List ReadResult) (w : World)
    (h : w.wsc.closeOnce = true) :
    teardown (Listen C reads w).world.trace = teardown w.trace ∧
      (Listen C reads w).world.wsc.closed = w.wsc.closed := by
  obtain ⟨h1, h2, h3⟩ := readerLoop_keeps C reads w
  unfold Listen deferClose
  cases hb : readerLoop C reads w with
  | ok a w' =>
    rw [hb] at h1 h2 h3
    simp only [Res.world] at h1 h2 h3
    simp only [Close_done w' (h1.trans h)]
    exact ⟨h3, h2⟩
  | panic e w' =>
    rw [hb] at h1 h2 h3
    simp only [Res.world] at h1 h2 h3
    simp only [Close_done w' (h1.trans h)]
    exact ⟨h3, h2⟩
  | blocked w' =>
    rw [hb] at h1 h2 h3
    exact ⟨h3, h2⟩

theorem loopThrough_append (C : Codec) (pre rest : List ReadResult) :
    ∀ w w', loopThrough C pre w = some w' →
      readerLoop C (pre ++ rest) w = readerLoop C rest w' := by
  induction pre with
  | nil =>
    intro w w' h
    simp only [loopThrough, Option.some.injEq] at h
    subst h
    rfl
  | cons r rs ih =>
    intro w w' h
    rw [List.cons_append, readerLoop_cons]
    unfold loopThrough at h
    cases hit : listenIter C r w with
    | ok ctl w1 =>
      rw [hit] at h
      cases ctl with
      | next => exact ih w1 w' h
      | exit => simp at h
    | panic e w1 => rw [hit] at h; simp at h
    | blocked w1 => rw [hit] at h; simp at h

theorem loopThrough_open (C : Codec) (pre : List ReadResult) (qw wc qr ev rs cp cn : Nat) :
    ∀ w w', OpenClient w qw wc qr ev rs cp cn → loopThrough C pre w = some w' →
      OpenClient w' qw wc qr ev rs cp cn ∧ teardown w'.trace = teardown w.trace := by
  induction pre with
  | nil =>
    intro w w' ho h
    simp only [loopThrough, Option.some.injEq] at h
    subst h
    exact ⟨ho, rfl⟩
  | cons r rs' ih =>
    intro w w' ho h
    unfold loopThrough at h
    rcases listenIter_open C r w qw wc qr ev rs cp cn ho with ⟨w1, hb⟩ | ⟨ctl, w1, hr, ho1, ht1, _⟩
    · rw [hb] at h; simp at h
    · rw [hr] at h
      cases ctl with
      | next =>
        obtain ⟨ho2, ht2⟩ := ih w1 w' ho1 h
        exact ⟨ho2, ht2.trans ht1⟩
      | exit => simp at h

/-- The Reader loop on an open client: it returns with the client still open
    and nothing closed, or it is parked. -/
theorem readerLoop_open (C : Codec) (reads : List ReadResult) (qw wc qr ev rs cp cn : Nat) :
    ∀ w, OpenClient w qw wc qr ev rs cp cn →
      (∃ w', readerLoop C reads w = .blocked w') ∨
      ∃ w', readerLoop C reads w = .ok () w' ∧ OpenClient w' qw wc qr ev rs cp cn ∧
        teardown w'.trace = teardown w.trace := by
  induction reads with
  | nil =>
    intro w ho
    left
    exact ⟨w, by simp [readerLoop, ho.atRead, park]⟩
  | cons r rs' ih =>
    intro w ho
    rw [readerLoop_cons]
    rcases listenIter_open C r w qw wc qr ev rs cp cn ho with ⟨w1, hb⟩ | ⟨ctl, w1, hr, ho1, ht1, _⟩
    · left
      exact ⟨w1, by rw [hb]⟩
    · rw [hr]
      cases ctl with
      | next =>
        rcases ih w1 ho1 with ⟨w2, hb⟩ | ⟨w2, hr2, ho2, ht2⟩
        · exact .inl ⟨w2, hb⟩
        · exact .inr ⟨w2, hr2, ho2, ht2.trans ht1⟩
      | exit => exact .inr ⟨w1, rfl, ho1, ht1⟩

end ReaderExit

section ClaimC11

theorem teardown_closing (qw wc qr ev rs cp cn : Nat) :
    teardown [.closeChan qw, .closeChan wc, .connClose cn, .closeChan qr, .closeChan ev,
        .closeChan rs, .closeChan cp, .setClosed] =
      [.closeChan qw, .closeChan wc, .connClose cn, .closeChan qr, .closeChan ev,
        .closeChan rs, .closeChan cp, .setClosed] := rfl

/-- The Reader goroutine of a closed client returns at once, whatever the
    reads would give: line 204 sees the stop signal and the deferred `Close`
    finds the `Once` used. -/
theorem Listen_stopped (C : Codec) (reads : List ReadResult) (w : World)
    (hq : chanClosed w.wsc.quitReaderChan w = true) (ho : w.wsc.closeOnce = true) :
    deferClose (readerLoop C reads) w = .ok () w := by
  have hloop : readerLoop C reads w = .ok () w := by
    cases reads with
    | nil => simp [readerLoop, hq]
    | cons r rs =>
      rw [readerLoop_cons]
      have : listenIter C r w = .ok .exit w := by simp [listenIter, hq]
      rw [this]
  unfold deferClose
  rw [hloop]
  exact Close_done w ho

/-- C11. Take an open client whose Reader has gone through the reads `pre`,
    each iteration ending with `continue`. (a) If the next read fails, with
    an expected closure or with any other error, the goroutine returns, the
    client is closed and the teardown actions have run exactly once. (b) If
    instead another goroutine calls `Close`, that call runs the teardown once
    and the rest of the Reader goroutine returns on the stop signal without
    changing anything, so the teardown is not run again. (c) Every run of
    `Listen` on the open client that returns ends with the client closed and
    the teardown run exactly once. (d) On every client whose `Once` is used,
    open or not, a run of `Listen` adds no teardown action. -/
theorem Listen_closes_once (C : Codec) (w w' : World) (qw wc qr ev rs cp cn : Nat)
    (h : OpenClient w qw wc qr ev rs cp cn) (pre : List ReadResult)
    (hpre : loopThrough C pre w = some w') :
    (∀ err rest, ∃ w1, Listen C (pre ++ .error err :: rest) w = .ok () w1 ∧
      w1.wsc.closed = true ∧ w1.wsc.closeOnce = true ∧
      teardown w1.trace = teardown w.trace ++
        [.closeChan qw, .closeChan wc, .connClose cn, .closeChan qr, .closeChan ev,
         .closeChan rs, .closeChan cp, .setClosed]) ∧
    (∃ w1, Close w' = .ok () w1 ∧ w1.wsc.closed = true ∧
      teardown w1.trace = teardown w.trace ++
        [.closeChan qw, .closeChan wc, .connClose cn, .closeChan qr, .closeChan ev,
         .closeChan rs, .closeChan cp, .setClosed] ∧
      ∀ rest, deferClose (readerLoop C rest) w1 = .ok () w1) ∧
    (∀ reads w1, Listen C reads w = .ok () w1 →
      w1.wsc.closed = true ∧
      teardown w1.trace = teardown w.trace ++
        [.closeChan qw, .closeChan wc, .connClose cn, .closeChan qr, .closeChan ev,
         .closeChan rs, .closeChan cp, .setClosed]) ∧
    (∀ reads w0, w0.wsc.closeOnce = true →
      teardown (Listen C reads w0).world.trace = teardown w0.trace) := by
  obtain ⟨ho', ht'⟩ := loopThrough_open C pre qw wc qr ev rs cp cn w w' h hpre
  refine ⟨?_, ?_, ?_, fun reads w0 h0 => (Listen_after_close C reads w0 h0).1⟩
  · intro err rest
    rcases listenIter_open C (.error err) w' qw wc qr ev rs cp cn ho' with
      ⟨w2, hb⟩ | ⟨ctl, w2, hr, ho2, ht2, hexit⟩
    · by_cases hc : IsCloseError err [CloseNormalClosure, CloseNoStatusReceived] = true <;>
        simp [listenIter_error_eq, ho'.atRead, ho'.conn, hc] at hb
    · have hctl : ctl = .exit := hexit.mpr ⟨err, rfl⟩
      subst hctl
      obtain ⟨w1, hc1, hc2, hc3, hc4, _⟩ := Close_teardown w2 qw wc qr ev rs cp cn ho2
      refine ⟨w1, ?_, hc3, hc2, ?_⟩
      · unfold Listen deferClose
        rw [loopThrough_append C pre _ w w' hpre, readerLoop_cons, hr]
        exact hc1
      · rw [hc4, teardown_append, teardown_closing, ht2, ht']
  · obtain ⟨w1, hc1, hc2, hc3, hc4, _, hc6, _⟩ := Close_teardown w' qw wc qr ev rs cp cn ho'
    refine ⟨w1, hc1, hc3, ?_, fun rest => Listen_stopped C rest w1 hc6 hc2⟩
    rw [hc4, teardown_append, teardown_closing, ht']
  · intro reads w1 hrun
    rcases readerLoop_open C reads qw wc qr ev rs cp cn w h with ⟨w2, hb⟩ | ⟨w2, hr2, ho2, ht2⟩
    · unfold Listen deferClose at hrun
      rw [hb] at hrun
      simp at hrun
    · obtain ⟨w3, hc1, _, hc3, hc4, _⟩ := Close_teardown w2 qw wc qr ev rs cp cn ho2
      unfold Listen deferClose at hrun
      rw [hr2] at hrun
      simp only [hc1, Res.ok.injEq, true_and] at hrun
      subst hrun
      exact ⟨hc3, by rw [hc4, teardown_append, teardown_closing, ht2]⟩

/-- Instance of C11: the sample client, whose Reader has read one typing
    event. -/
theorem Listen_closes_once_witness :
    OpenClient sampleWorld 5 3 6 1 2 4 0 ∧
    loopThrough scenarioCodec [.frame frameTyping] sampleWorld =
      some (listenIter scenarioCodec (.frame frameTyping) sampleWorld).world ∧
    (∀ err rest, ∃ w1,
      Listen scenarioCodec ([.frame frameTyping] ++ .error err :: rest) sampleWorld = .ok () w1 ∧
      w1.wsc.closed = true ∧ w1.wsc.closeOnce = true ∧
      teardown w1.trace = teardown sampleWorld.trace ++
        [.closeChan 5, .closeChan 3, .connClose 0, .closeChan 6, .closeChan 1,
         .closeChan 2, .closeChan 4, .setClosed]) :=
  ⟨sampleWorld_open, by decide!,
    (Listen_closes_once scenarioCodec sampleWorld
      (listenIter scenarioCodec (.frame frameTyping) sampleWorld).world 5 3 6 1 2 4 0
      sampleWorld_open [.frame frameTyping] (by decide!)).1⟩

end ClaimC11

section Reconnect

theorem getElem?_append_length {α : Type} (l l' : List α) :
    (l ++ l')[l.length]? = l'[0]? := by
  simpa using getElem?_append_add l l' 0

set_option maxHeartbeats 16000000 in
/-- A `ConnectWithDialer` whose dial succeeds prepares the client (lines
    116-140) and ends with the send of the authentication request. -/
theorem ConnectWithDialer_dial_ok (K : Consts) (dialer : Dialer) (w : World)
    (hd : dialer w.wsc.ConnectUrl = .ok ()) :
    ∃ wp, Reconnected w wp ∧
      ConnectWithDialer K dialer w =
        (SendMessage K.WEBSOCKET_AUTHENTICATION_CHALLENGE
            (some [("token", .str w.wsc.AuthToken)]) >>= fun _ => pure none) wp := by
  by_cases hclosed : w.wsc.closed = true
  · by_cases hq : closedIn w.chans w.wsc.quitWriterChan = true
    · by_cases hs : runsFirst w.sched = true <;>
        simp [ConnectWithDialer, dial, hd, makeChan, goWriter, configurePingHandling,
          setPingHandler, newTimer, goWatchdog, hclosed, List.getElem_append_right,
          chanClosed_eq, closedIn_append_open, hq, hs] <;>
        refine ⟨_, ?_, rfl⟩ <;>
        constructor <;>
        first
          | rfl
          | (simp [hclosed, handed_append, handed, WriterReady, WriterStays, WriterLeaves,
              chanClosed_eq, hq, hs,
              getElem?_append_add, getElem?_append_length, List.getElem_append_right])
    · simp [ConnectWithDialer, dial, hd, makeChan, goWriter, configurePingHandling,
        setPingHandler, newTimer, goWatchdog, hclosed, List.getElem_append_right,
        chanClosed_eq, closedIn_append_open, hq]
      refine ⟨_, ?_, rfl⟩
      constructor
      all_goals first
        | rfl
        | (simp [hclosed, handed_append, handed, WriterReady, WriterStays, WriterLeaves,
            chanClosed_eq, hq, getElem?_append_add, getElem?_append_length, List.getElem_append_right])
  · cases h1 : w.wsc.writeChan with
    | some c1 =>
      cases h2 : w.wsc.closePingWatchdog <;>
        cases h3 : w.wsc.quitWriterChan <;> cases h4 : w.wsc.quitReaderChan <;>
        simp [ConnectWithDialer, dial, hd, makeChan, goWriter, configurePingHandling,
          setPingHandler, newTimer, goWatchdog, hclosed, h1, h2, h3, h4,
          List.getElem_append_right] <;>
        refine ⟨_, ?_, rfl⟩ <;>
        constructor <;>
        first
          | rfl
          | (simp [hclosed, h1, h2, h3, h4, handed_append, handed, WriterReady,
              getElem?_append_add, getElem?_append_length,
            List.getElem_append_right])
    | none =>
      cases h3 : w.wsc.quitWriterChan with
      | none =>
        cases h2 : w.wsc.closePingWatchdog <;> cases h4 : w.wsc.quitReaderChan <;>
          simp [ConnectWithDialer, dial, hd, makeChan, goWriter, configurePingHandling,
            setPingHandler, newTimer, goWatchdog, hclosed, h1, h2, h3, h4,
            List.getElem_append_right, chanClosed_eq, closedIn_append_open, closedIn_none] <;>
          refine ⟨_, ?_, rfl⟩ <;>
          constructor <;>
          first
            | rfl
            | (simp [hclosed, h1, h2, h3, h4, handed_append, handed, WriterReady, WriterLeaves,
                chanClosed_eq, closedIn_none, getElem?_append_add, getElem?_append_length,
              List.getElem_append_right])
      | some c3 =>
        by_cases hq : closedIn w.chans (some c3) = true
        · by_cases hs : runsFirst w.sched = true <;>
            cases h2 : w.wsc.closePingWatchdog <;> cases h4 : w.wsc.quitReaderChan <;>
            simp [ConnectWithDialer, dial, hd, makeChan, goWriter, configurePingHandling,
              setPingHandler, newTimer, goWatchdog, hclosed, h1, h2, h3, h4,
              List.getElem_append_right, chanClosed_eq, closedIn_append_open, hq, hs] <;>
            refine ⟨_, ?_, rfl⟩ <;>
            constructor <;>
            first
              | rfl
              | (simp [hclosed, h1, h2, h3, h4, handed_append, handed, WriterReady, WriterStays,
                  WriterLeaves, chanClosed_eq, hq, hs, getElem?_append_add, getElem?_append_length,
                List.getElem_append_right])
        · cases h2 : w.wsc.closePingWatchdog <;> cases h4 : w.wsc.quitReaderChan <;>
            simp [ConnectWithDialer, dial, hd, makeChan, goWriter, configurePingHandling,
              setPingHandler, newTimer, goWatchdog, hclosed, h1, h2, h3, h4,
              List.getElem_append_right, chanClosed_eq, closedIn_append_open, hq] <;>
            refine ⟨_, ?_, rfl⟩ <;>
            constructor <;>
            first
              | rfl
              | (simp [hclosed, h1, h2, h3, h4, handed_append, handed, WriterReady, WriterStays,
                  WriterLeaves, chanClosed_eq, hq, getElem?_append_add, getElem?_append_length,
                List.getElem_append_right])

/-- A send returns only when the Writer is receiving. -/
theorem SendMessage_ok_ready (w w' : World) (action : String) (data : Data)
    (h : SendMessage action data w = .ok () w') : WriterReady w := by
  cases hc : w.wsc.writeChan with
  | none => simp [SendMessage, sendWriteChan, hc] at h
  | some c =>
    cases hch : w.chans[c]? with
    | none => simp [SendMessage, sendWriteChan, hc, hch] at h
    | some ch =>
      by_cases hcl : ch.closed = true
      · simp [SendMessage, sendWriteChan, hc, hch, hcl] at h
      · by_cases hw : w.writers = 0
        · simp [SendMessage, sendWriteChan, hc, hch, hcl, hw] at h
        · exact ⟨c, ch, hc, hch, by simpa using hcl, by omega⟩

/-- A send that does not return hands the Writer nothing. -/
theorem SendMessage_handed (w : World) (action : String) (data : Data) :
    handed (SendMessage action data w).world.trace = handed w.trace ∨
      ∃ w', SendMessage action data w = .ok () w' := by
  simp only [SendMessage, bind_apply, getW_apply, setWsc_apply, sendWriteChan]
  repeat' split
  all_goals first
    | exact .inl rfl
    | exact .inr ⟨_, rfl⟩

theorem Reconnected.ready {w wp : World} (h : Reconnected w wp)
    (hstate : w.wsc.writeChan = none ∨ w.wsc.closed = true ∨ WriterReady w)
    (hsched : w.wsc.writeChan = none ∨ w.wsc.closed = true → WriterStays w) :
    WriterReady wp := by
  by_cases hnew : w.wsc.writeChan = none ∨ w.wsc.closed = true
  · exact h.writerNew hnew (hsched hnew)
  · have hready : WriterReady w := by
      rcases hstate with h1 | h1 | h1
      · exact absurd (.inl h1) hnew
      · exact absurd (.inr h1) hnew
      · exact h1
    obtain ⟨c, ch, hc, hch, hopen, hpos⟩ := hready
    have hcl : w.wsc.closed = false := by
      cases hx : w.wsc.closed
      · rfl
      · exact absurd (.inr hx) hnew
    obtain ⟨hk1, hk2⟩ := h.writerKept ⟨c, hc⟩ hcl
    obtain ⟨l, hl⟩ := h.chansKept
    have hlt := (List.getElem?_eq_some.mp hch).1
    refine ⟨c, ch, hk1.trans hc, ?_, hopen, by omega⟩
    rw [hl, List.getElem?_append_left hlt]
    exact hch

/-- What a `ConnectWithDialer` does whose dial succeeds and whose
    authentication request is taken by the Writer. -/
theorem ConnectWithDialer_ready (K : Consts) (dialer : Dialer) (w : World)
    (hd : dialer w.wsc.ConnectUrl = .ok ())
    (hstate : w.wsc.writeChan = none ∨ w.wsc.closed = true ∨ WriterReady w)
    (hsched : w.wsc.writeChan = none ∨ w.wsc.closed = true → WriterStays w) :
    ∃ wp, Reconnected w wp ∧
      ConnectWithDialer K dialer w = .ok none
        { wp with
          wsc := { wp.wsc with Sequence := wrapInt64 (w.wsc.Sequence + 1) }
          trace := wp.trace ++ [.handoff ⟨msgTypeJSON, some ⟨w.wsc.Sequence,
            K.WEBSOCKET_AUTHENTICATION_CHALLENGE, some [("token", .str w.wsc.AuthToken)]⟩⟩] } := by
  obtain ⟨wp, hr, hrun⟩ := ConnectWithDialer_dial_ok K dialer w hd
  refine ⟨wp, hr, ?_⟩
  rw [hrun, bind_apply, SendMessage_ready wp _ _ (hr.ready hstate hsched), hr.sequence]
  rfl

/-- A `ConnectWithDialer` that returns a nil error has handed the Writer the
    authentication request. -/
theorem ConnectWithDialer_returns (K : Consts) (dialer : Dialer) (w w' : World)
    (h : ConnectWithDialer K dialer w = .ok none w') :
    dialer w.wsc.ConnectUrl = .ok () ∧
    ∃ wp, Reconnected w wp ∧
      w' = { wp with
          wsc := { wp.wsc with Sequence := wrapInt64 (w.wsc.Sequence + 1) }
          trace := wp.trace ++ [.handoff ⟨msgTypeJSON, some ⟨w.wsc.Sequence,
            K.WEBSOCKET_AUTHENTICATION_CHALLENGE, some [("token", .str w.wsc.AuthToken)]⟩⟩] } := by
  cases hd : dialer w.wsc.ConnectUrl with
  | error e => simp [ConnectWithDialer, dial, hd] at h
  | ok u =>
    refine ⟨rfl, ?_⟩
    obtain ⟨wp, hr, hrun⟩ := ConnectWithDialer_dial_ok K dialer w hd
    refine ⟨wp, hr, ?_⟩
    rw [hrun, bind_apply] at h
    cases hs : SendMessage K.WEBSOCKET_AUTHENTICATION_CHALLENGE
        (some [("token", .str w.wsc.AuthToken)]) wp with
    | ok u' w2 =>
      have hready := SendMessage_ok_ready wp w2 _ _ hs
      rw [SendMessage_ready wp _ _ hready, hr.sequence] at h
      simp only [pure_apply, Res.ok.injEq, true_and] at h
      exact h.symm
    | panic e w2 => rw [hs] at h; simp at h
    | blocked w2 => rw [hs] at h; simp at h

/-- A `ConnectWithDialer` that starts a Writer which returns at once (line
    125, the stop channel still being the closed one) parks in the send of
    line 145 when no other Writer is left. -/
theorem ConnectWithDialer_parks (K : Consts) (dialer : Dialer) (w : World)
    (hd : dialer w.wsc.ConnectUrl = .ok ())
    (hnew : w.wsc.writeChan = none ∨ w.wsc.closed = true) (hl : WriterLeaves w)
    (h0 : w.writers = 0) :
    ∃ wp, Reconnected w wp ∧
      ConnectWithDialer K dialer w = .blocked
        { wp with wsc := { wp.wsc with Sequence := wrapInt64 (w.wsc.Sequence + 1) } } := by
  obtain ⟨wp, hr, hrun⟩ := ConnectWithDialer_dial_ok K dialer w hd
  obtain ⟨hw, c, hc, hch⟩ := hr.writerGone hnew hl
  refine ⟨wp, hr, ?_⟩
  rw [hrun, bind_apply, SendMessage_parks wp _ _ c _ hc hch rfl (hw.trans h0), hr.sequence]

/-- A `ConnectWithDialer` whose dial fails returns the error after setting
    `Conn` to nil (line 117) and does nothing else. -/
theorem ConnectWithDialer_dial_fails (K : Consts) (dialer : Dialer) (w : World) (e : String)
    (hd : dialer w.wsc.ConnectUrl = .error e) :
    ConnectWithDialer K dialer w =
      .ok (some (NewAppError "Connect" "model.websocket_client.connect_fail.app_error" e
          StatusInternalServerError))
        { w with
          wsc := { w.wsc with Conn := none }
          trace := w.trace ++ [.dial w.wsc.ConnectUrl false] } := by
  simp [ConnectWithDialer, dial, hd]

end Reconnect

section ClaimC14

/-- C14, within the `int64` range. Take a client whose `Sequence` is below
    the largest `int64`. (a) If the dial succeeds on a fresh client (nil
    `writeChan`), a closed client, or a live client whose Writer is receiving,
    and the Writer that the call starts (line 125) keeps running,
    `ConnectWithDialer` returns nil, hands the Writer exactly one message, the
    authentication request with data `token: wsc.AuthToken` and `Seq` equal to
    the `Sequence` before the call, and leaves `Sequence` one higher. (b) Every
    call that returns nil has done exactly that. (c) If the dial fails the call
    returns the `Connect` error, hands the Writer nothing and leaves
    `Sequence` as it was. (d) If the Writer that the call starts returns at
    once, because it finds the stop channel that `Close` closed (replaced only
    at line 132), and no other Writer is left, the call does not return: it
    parks in the send of line 145 and hands the Writer nothing. -/
theorem Connect_authenticates (K : Consts) (dialer : Dialer) (w : World)
    (hlo : minInt64 ≤ w.wsc.Sequence) (hhi : w.wsc.Sequence < maxInt64) :
    (dialer w.wsc.ConnectUrl = .ok () →
      (w.wsc.writeChan = none ∨ w.wsc.closed = true ∨ WriterReady w) →
      (w.wsc.writeChan = none ∨ w.wsc.closed = true → WriterStays w) →
      ∃ w', ConnectWithDialer K dialer w = .ok none w' ∧
        handedSince w w' = [⟨msgTypeJSON, some ⟨w.wsc.Sequence,
          K.WEBSOCKET_AUTHENTICATION_CHALLENGE, some [("token", .str w.wsc.AuthToken)]⟩⟩] ∧
        w'.wsc.Sequence = w.wsc.Sequence + 1) ∧
    (∀ w', ConnectWithDialer K dialer w = .ok none w' →
      handedSince w w' = [⟨msgTypeJSON, some ⟨w.wsc.Sequence,
          K.WEBSOCKET_AUTHENTICATION_CHALLENGE, some [("token", .str w.wsc.AuthToken)]⟩⟩] ∧
        w'.wsc.Sequence = w.wsc.Sequence + 1) ∧
    (∀ e, dialer w.wsc.ConnectUrl = .error e →
      ∃ w', ConnectWithDialer K dialer w =
          .ok (some (NewAppError "Connect" "model.websocket_client.connect_fail.app_error" e
            StatusInternalServerError)) w' ∧
        handedSince w w' = [] ∧ w'.wsc.Sequence = w.wsc.Sequence) ∧
    (dialer w.wsc.ConnectUrl = .ok () →
      (w.wsc.writeChan = none ∨ w.wsc.closed = true) → WriterLeaves w → w.writers = 0 →
      ∃ w', ConnectWithDialer K dialer w = .blocked w' ∧ handedSince w w' = []) := by
  have hw : wrapInt64 (w.wsc.Sequence + 1) = w.wsc.Sequence + 1 :=
    wrapInt64_of_range _ (by unfold minInt64 at *; omega) (by unfold maxInt64 at *; omega)
  refine ⟨?_, ?_, ?_, ?_⟩
  · intro hd hstate hsched
    obtain ⟨wp, hr, hrun⟩ := ConnectWithDialer_ready K dialer w hd hstate hsched
    refine ⟨_, hrun, ?_, hw⟩
    apply handedSince_of_append
    simp [handed_append, handed, hr.handedSame]
  · intro w' hrun
    obtain ⟨_, wp, hr, hw'⟩ := ConnectWithDialer_returns K dialer w w' hrun
    subst hw'
    refine ⟨?_, hw⟩
    apply handedSince_of_append
    simp [handed_append, handed, hr.handedSame]
  · intro e hd
    refine ⟨_, ConnectWithDialer_dial_fails K dialer w e hd, ?_, rfl⟩
    apply handedSince_of_append
    simp [handed_append, handed]
  · intro hd hnew hl h0
    obtain ⟨wp, hr, hrun⟩ := ConnectWithDialer_parks K dialer w hd hnew hl h0
    refine ⟨_, hrun, ?_⟩
    apply handedSince_of_append
    simp [hr.handedSame]

/-- Instance of C14: a live client (the sample client, `Sequence` 2), a fresh
    client (`Sequence` 0), the closed sample client when the new Writer keeps
    running, a failed dial, and the closed sample client when the new Writer
    returns at once. -/
theorem Connect_authenticates_witness :
    (∃ w', ConnectWithDialer sampleConsts okDialer sampleWorld = .ok none w' ∧
      handedSince sampleWorld w' = [⟨msgTypeJSON, some ⟨2, "authentication_challenge",
        some [("token", .str "token")]⟩⟩] ∧
      w'.wsc.Sequence = 2 + 1) ∧
    (∃ w', ConnectWithDialer sampleConsts okDialer freshWorld = .ok none w' ∧
      handedSince freshWorld w' = [⟨msgTypeJSON, some ⟨0, "authentication_challenge",
        some [("token", .str "token")]⟩⟩] ∧
      w'.wsc.Sequence = 0 + 1) ∧
    (closedWorld.wsc.closed = true ∧
      ∃ w', ConnectWithDialer sampleConsts okDialer closedWorld = .ok none w' ∧
        handedSince closedWorld w' = [⟨msgTypeJSON, some ⟨2, "authentication_challenge",
          some [("token", .str "token")]⟩⟩] ∧
        w'.wsc.Sequence = 2 + 1) ∧
    (∃ w', ConnectWithDialer sampleConsts failDialer sampleWorld =
        .ok (some (NewAppError "Connect" "model.websocket_client.connect_fail.app_error"
          "connection refused" StatusInternalServerError)) w' ∧
      handedSince sampleWorld w' = [] ∧ w'.wsc.Sequence = 2) ∧
    (WriterLeaves racedWorld ∧
      ∃ w', ConnectWithDialer sampleConsts okDialer racedWorld = .blocked w' ∧
        handedSince racedWorld w' = []) :=
  ⟨(Connect_authenticates sampleConsts okDialer sampleWorld (by decide) (by decide)).1 rfl
      (.inr (.inr sampleWorld_ready)) (fun _ _ => by decide!),
    (Connect_authenticates sampleConsts okDialer freshWorld (by decide) (by decide)).1 rfl
      (.inl rfl) (fun _ _ => by decide!),
    ⟨by decide!,
      (Connect_authenticates sampleConsts okDialer closedWorld (by decide!) (by decide!)).1 rfl
        (.inr (.inl (by decide!))) (fun _ _ => by decide!)⟩,
    (Connect_authenticates sampleConsts failDialer sampleWorld (by decide) (by decide)).2.2.1
      "connection refused" rfl,
    ⟨⟨by decide!, by decide!⟩,
      (Connect_authenticates sampleConsts okDialer racedWorld (by decide!) (by decide!)).2.2.2 rfl
        (.inr (by decide!)) ⟨by decide!, by decide!⟩ (by decide!)⟩⟩

/-- C14 fails as stated at the end of the `int64` range: with `Sequence` at
    `2^63 - 1` a successful `ConnectWithDialer` on the live sample client
    leaves `Sequence` at `-2^63`, which is not one higher. -/
theorem Connect_authenticates_counterexample :
    lastSeqWorld.wsc.Sequence = 2 ^ 63 - 1 ∧ WriterReady lastSeqWorld ∧
      (ConnectWithDialer sampleConsts okDialer lastSeqWorld).isOk = true ∧
      (ConnectWithDialer sampleConsts okDialer lastSeqWorld).world.wsc.Sequence = -(2 ^ 63) ∧
      (ConnectWithDialer sampleConsts okDialer lastSeqWorld).world.wsc.Sequence ≠
        lastSeqWorld.wsc.Sequence + 1 := by
  refine ⟨rfl, ⟨3, ⟨0, [], false⟩, rfl, by decide, rfl, by decide⟩, by decide!, by decide!,
    by decide!⟩

end ClaimC14

section ClaimC20

/-- C20, what the code does on a client that has not been closed and has a
    watchdog cancellation channel (a live client, or one whose watchdog has
    timed out): lines 127-130 are skipped. A `ConnectWithDialer` that returns
    nil has stored the new connection in `Conn` without registering the ping
    handler on it, has kept the old deadline timer, and has started no
    watchdog: timers and watchdog goroutines are exactly those of before. -/
theorem Connect_open_keeps_watchdog (K : Consts) (dialer : Dialer) (w w' : World) (c : Nat)
    (hcp : w.wsc.closePingWatchdog = some c) (hopen : w.wsc.closed = false)
    (hrun : ConnectWithDialer K dialer w = .ok none w') :
    w'.wsc.Conn = some w.conns.length ∧
      w'.conns[w.conns.length]? =
        some { url := w.wsc.ConnectUrl, closed := false, pingHandler := false } ∧
      w'.wsc.pingTimeoutTimer = w.wsc.pingTimeoutTimer ∧
      w'.timers = w.timers ∧
      w'.watchdogs = w.watchdogs ∧
      waitingWatchdogs w' = waitingWatchdogs w := by
  obtain ⟨_, wp, hr, hw'⟩ := ConnectWithDialer_returns K dialer w w' hrun
  obtain ⟨_, h2, h3, h4⟩ := hr.keeps ⟨c, hcp⟩ hopen
  subst hw'
  refine ⟨hr.conn, ?_, h2, h3, h4, ?_⟩
  · simp [hr.conns, hcp, hopen, getElem?_append_length]
  · simp [waitingWatchdogs, h4]

/-- Instance of C20: the live sample client at instant 0 and the same client
    after its watchdog timed out at instant 65. In both the second connection
    has no ping handler and the timer is the one made by the constructor; on
    the first the only watchdog still waits on that timer, on the second no
    watchdog waits at all. -/
theorem Connect_open_keeps_watchdog_witness :
    ((ConnectWithDialer sampleConsts okDialer sampleWorld).world.wsc.Conn = some 1 ∧
      (ConnectWithDialer sampleConsts okDialer sampleWorld).world.conns[1]? =
        some { url := "ws://localhost:8065/api/v4/websocket", closed := false,
               pingHandler := false } ∧
      (ConnectWithDialer sampleConsts okDialer sampleWorld).world.wsc.pingTimeoutTimer =
        sampleWorld.wsc.pingTimeoutTimer ∧
      (ConnectWithDialer sampleConsts okDialer sampleWorld).world.timers = sampleWorld.timers ∧
      (ConnectWithDialer sampleConsts okDialer sampleWorld).world.watchdogs =
        sampleWorld.watchdogs ∧
      waitingWatchdogs (ConnectWithDialer sampleConsts okDialer sampleWorld).world =
        waitingWatchdogs sampleWorld) ∧
    (timedOutWorld.wsc.closed = false ∧ waitingWatchdogs timedOutWorld = [] ∧
      waitingWatchdogs (ConnectWithDialer sampleConsts okDialer timedOutWorld).world = [] ∧
      (ConnectWithDialer sampleConsts okDialer timedOutWorld).world.timers =
        [{ deadline := none, C := none }]) :=
  ⟨Connect_open_keeps_watchdog sampleConsts okDialer sampleWorld
      (ConnectWithDialer sampleConsts okDialer sampleWorld).world 4 rfl rfl (by decide!),
    by decide!, by decide!, by decide!, by decide!⟩

end ClaimC20

section Queues

theorem boundedAt_append {chans : List Chan} {c : Nat} (h : boundedAt chans c) (l : List Chan) :
    boundedAt (chans ++ l) c := by
  obtain ⟨ch, h1, h2, h3⟩ := h
  have hlt := (List.getElem?_eq_some.mp h1).1
  exact ⟨ch, by rw [List.getElem?_append_left hlt]; exact h1, h2, h3⟩

/-- Replacing a channel by one of the same capacity that holds no more than
    its capacity keeps a queue bounded. -/
theorem boundedAt_set {chans : List Chan} {c : Nat} (h : boundedAt chans c) (c' : Nat)
    (ch' new : Chan) (hch : chans[c']? = some ch') (hcap : new.cap = ch'.cap)
    (hlen : new.buf.length ≤ new.cap ∨ new.buf.length ≤ ch'.buf.length) :
    boundedAt (chans.set c' new) c := by
  obtain ⟨ch, h1, h2, h3⟩ := h
  by_cases hcc : c' = c
  · subst hcc
    have hlt := (List.getElem?_eq_some.mp h1).1
    rw [h1] at hch
    injection hch with hch
    subst hch
    refine ⟨new, by simp [List.getElem?_set, hlt], hcap.trans h2, ?_⟩
    rcases hlen with hl | hl
    · omega
    · omega
  · exact ⟨ch, by simp [List.getElem?_set, hcc, h1], h2, h3⟩

theorem resumeSender_bounded (c0 c : Nat) (w : World) (h : QueueBounded c0 w) :
    QueueBounded c0 (resumeSender c w) := by
  unfold resumeSender
  repeat' split
  all_goals first
    | exact h
    | exact boundedAt_set h _ _ _ (by assumption) (by rfl)
        (.inl (by simp only [List.length_append, List.length_singleton]; omega))

/-- No operation on channels, timers, connections or goroutines changes the
    capacity of a queue of capacity 100 or puts a 101st value in it. -/
theorem queueBounded_primStable (c : Nat) : PrimStable (QueueBounded c) where
  wsc := fun _ _ h => h
  clock := fun _ _ h => h
  makeChan := fun _ => ⟨fun _ h => boundedAt_append h _⟩
  closeChan := fun r => ⟨fun w h => by
    unfold closeChan
    repeat' split
    all_goals first
      | exact h
      | exact boundedAt_set h _ _ _ (by assumption) (by rfl) (.inr (by exact le_refl _))⟩
  sendChan := fun r x => ⟨fun w h => by
    unfold sendChan
    repeat' split
    all_goals first
      | exact h
      | exact boundedAt_set h _ _ _ (by assumption) (by rfl)
          (.inl (by simp only [List.length_append, List.length_singleton]; omega))⟩
  sendWriteChan := fun m => ⟨fun w h => by
    unfold sendWriteChan
    repeat' split
    all_goals exact h⟩
  newTimer := fun d => ⟨fun _ h => h⟩
  timerStop := fun r => ⟨fun w h => by
    unfold timerStop
    repeat' split
    all_goals exact h⟩
  timerDrain := fun r => ⟨fun w h => by
    unfold timerDrain
    repeat' split
    all_goals exact h⟩
  timerReset := fun r d => ⟨fun w h => by
    unfold timerReset
    repeat' split
    all_goals exact h⟩
  dial := fun dialer url => ⟨fun w h => by
    unfold dial
    repeat' split
    all_goals exact h⟩
  setPingHandler := ⟨fun w h => by
    unfold setPingHandler
    repeat' split
    all_goals exact h⟩
  connClose := ⟨fun w h => by
    unfold connClose
    repeat' split
    all_goals exact h⟩
  goWriter := ⟨fun w h => by
    unfold goWriter
    repeat' split
    all_goals exact h⟩
  goWatchdog := ⟨fun w h => by
    unfold goWatchdog
    repeat' split
    all_goals exact h⟩
  watchdogWake := fun i => ⟨fun w h => by
    unfold watchdogWake
    repeat' split
    all_goals first
      | exact h
      | exact boundedAt_set h _ _ _ (by assumption) (by rfl)
          (.inl (by simp only [List.length_append, List.length_singleton]; omega))⟩
  recvChan := fun r => ⟨fun w h => by
    unfold recvChan
    repeat' split
    all_goals first
      | exact h
      | (apply resumeSender_bounded
         refine boundedAt_set h _ _ _ (by assumption) (by rfl) (.inr ?_)
         simp_all)⟩
  emitClosed := ⟨fun _ h => h⟩

theorem Stable.bind_getW {P : World → Prop} {β : Type} {f : World → M β}
    (hf : ∀ w1, P w1 → Stable P (f w1)) : Stable P (WebSocket.getW >>= f) :=
  ⟨fun w hw => by
    rw [bind_apply, getW_apply]
    exact (hf w hw).pres w hw⟩

theorem setWsc_refs (e r : Option Nat) (w1 : World) (h : QueuesAre e r w1) (c : WebSocketClient)
    (h1 : c.EventChannel = w1.wsc.EventChannel) (h2 : c.ResponseChannel = w1.wsc.ResponseChannel) :
    Stable (QueuesAre e r) (setWsc c) :=
  ⟨fun _ _ => ⟨h1.trans h.1, h2.trans h.2⟩⟩

theorem closeChan_refs (e r : Option Nat) (c : Option Nat) :
    Stable (QueuesAre e r) (closeChan c) :=
  ⟨fun w h => by
    unfold closeChan
    repeat' split
    all_goals exact h⟩

theorem connClose_refs (e r : Option Nat) : Stable (QueuesAre e r) connClose :=
  ⟨fun w h => by
    unfold connClose
    repeat' split
    all_goals exact h⟩

theorem emit_refs (e r : Option Nat) (x : Effect) : Stable (QueuesAre e r) (emit x) :=
  ⟨fun _ h => h⟩

theorem sendChan_refs (e r : Option Nat) (c : Option Nat) (x : Item) :
    Stable (QueuesAre e r) (sendChan c x) :=
  ⟨fun w h => by
    unfold sendChan
    repeat' split
    all_goals exact h⟩

theorem sendWriteChan_refs (e r : Option Nat) (m : writeMessage) :
    Stable (QueuesAre e r) (sendWriteChan m) :=
  ⟨fun w h => by
    unfold sendWriteChan
    repeat' split
    all_goals exact h⟩

theorem timerStop_refs (e r : Option Nat) (t : Option Nat) :
    Stable (QueuesAre e r) (timerStop t) :=
  ⟨fun w h => by
    unfold timerStop
    repeat' split
    all_goals exact h⟩

theorem timerDrain_refs (e r : Option Nat) (t : Option Nat) :
    Stable (QueuesAre e r) (timerDrain t) :=
  ⟨fun w h => by
    unfold timerDrain
    repeat' split
    all_goals exact h⟩

theorem timerReset_refs (e r : Option Nat) (t : Option Nat) (d : Nat) :
    Stable (QueuesAre e r) (timerReset t d) :=
  ⟨fun w h => by
    unfold timerReset
    repeat' split
    all_goals exact h⟩

theorem watchdogWake_refs (e r : Option Nat) (i : Nat) :
    Stable (QueuesAre e r) (watchdogWake i) :=
  ⟨fun w h => by
    unfold watchdogWake
    repeat' split
    all_goals exact h⟩

theorem resumeSender_refs (e r : Option Nat) (c : Nat) (w : World) (h : QueuesAre e r w) :
    QueuesAre e r (resumeSender c w) := by
  unfold resumeSender
  repeat' split
  all_goals exact h

theorem recvChan_refs (e r : Option Nat) (c : Option Nat) :
    Stable (QueuesAre e r) (recvChan c) :=
  ⟨fun w h => by
    unfold recvChan
    repeat' split
    all_goals first
      | exact h
      | exact resumeSender_refs e r _ _ h⟩

theorem SendMessage_refs (e r : Option Nat) (action : String) (data : Data) :
    Stable (QueuesAre e r) (SendMessage action data) := by
  unfold SendMessage
  repeat' (first
    | exact Stable.pure _
    | exact sendWriteChan_refs e r _
    | exact setWsc_refs e r _ (by assumption) _ rfl rfl
    | (apply Stable.bind_getW; intro _ _)
    | apply Stable.bind
    | intro _)

theorem pingHandler_refs (e r : Option Nat) (appData : String) :
    Stable (QueuesAre e r) (pingHandler appData) := by
  unfold pingHandler
  repeat' (first
    | exact Stable.pure _
    | exact Stable.getW
    | exact timerStop_refs e r _
    | exact timerDrain_refs e r _
    | exact timerReset_refs e r _ _
    | exact sendWriteChan_refs e r _
    | apply Stable.bind
    | apply Stable.ite
    | intro _)

theorem Close_refs (e r : Option Nat) : Stable (QueuesAre e r) Close := by
  have hbody : Stable (QueuesAre e r) closeBody := by
    unfold closeBody
    repeat' (first
      | exact closeChan_refs e r _
      | exact connClose_refs e r
      | exact emit_refs e r _
      | exact setWsc_refs e r _ (by assumption) _ rfl rfl
      | (apply Stable.bind_getW; intro _ _)
      | apply Stable.bind
      | intro _)
  constructor
  intro w hw
  unfold Close onceDo
  split
  · exact hw
  · have h1 := hbody.pres w hw
    cases hfw : closeBody w with
    | ok a w' => rw [hfw] at h1; exact h1
    | panic f w' => rw [hfw] at h1; exact h1
    | blocked w' => rw [hfw] at h1; exact h1

theorem listenIter_refs (e r : Option Nat) (C : Codec) (rd : ReadResult) :
    Stable (QueuesAre e r) (listenIter C rd) := by
  constructor
  intro w hw
  cases rd with
  | error err =>
    rw [listenIter_error_eq]
    repeat' split
    all_goals exact hw
  | frame rawMsg =>
    rcases listenIter_frame_cases C rawMsg w with h | ⟨c, ch, ev, _, _, _, _, _, _, h⟩ |
        ⟨c, ch, ev, rs, _, _, _, _, _, _, _, _, h⟩
    · rw [h]
      exact hw
    · rw [h]
      exact hw
    · rw [h]
      exact hw

theorem readerStep_refs (e r : Option Nat) (C : Codec) (rd : ReadResult) :
    Stable (QueuesAre e r) (readerStep C rd) := by
  constructor
  intro w hw
  have h1 := (listenIter_refs e r C rd).pres w hw
  unfold readerStep
  cases hit : listenIter C rd w with
  | ok ctl w' =>
    rw [hit] at h1
    cases ctl with
    | next => exact h1
    | exit => exact (Close_refs e r).pres w' h1
  | panic f w' =>
    rw [hit] at h1
    have h2 := (Close_refs e r).pres w' h1
    simp only
    cases hc : Close w' with
    | ok a w'' => rw [hc] at h2; exact h2
    | panic f' w'' => rw [hc] at h2; exact h2
    | blocked w'' => rw [hc] at h2; exact h2
  | blocked w' =>
    rw [hit] at h1
    exact h1

theorem advance_refs (e r : Option Nat) (t : Nat) : Stable (QueuesAre e r) (advance t) := by
  have hall : ∀ is : List Nat, Stable (QueuesAre e r) (wakeAll is) := by
    intro is
    induction is with
    | nil => exact Stable.pure _
    | cons i is ih =>
      unfold wakeAll
      exact Stable.bind (watchdogWake_refs e r i) (fun _ => ih)
  constructor
  intro w hw
  unfold advance
  exact (hall _).pres _ hw

/-- Only `ConnectWithDialer` assigns `EventChannel` and `ResponseChannel`. -/
theorem perform_refs (e r : Option Nat) (C : Codec) (K : Consts) (a : Action)
    (ha : ∀ dialer, a ≠ .connect dialer) : Stable (QueuesAre e r) (perform C K a) := by
  cases a with
  | send action data => exact SendMessage_refs e r _ _
  | userTyping c p => exact SendMessage_refs e r _ _
  | getStatuses => exact SendMessage_refs e r _ _
  | getStatusesByIds ids => exact SendMessage_refs e r _ _
  | connect dialer => exact absurd rfl (ha dialer)
  | close => exact Close_refs e r
  | read rd => exact readerStep_refs e r C rd
  | ping appData => exact Stable.bind (pingHandler_refs e r appData) (fun _ => Stable.pure _)
  | tick t => exact advance_refs e r t
  | recvEvent =>
    exact Stable.bind Stable.getW (fun _ => Stable.bind (recvChan_refs e r _)
      (fun _ => Stable.pure _))
  | recvResponse =>
    exact Stable.bind Stable.getW (fun _ => Stable.bind (recvChan_refs e r _)
      (fun _ => Stable.pure _))
  | recvTimeout =>
    exact Stable.bind Stable.getW (fun _ => Stable.bind (recvChan_refs e r _)
      (fun _ => Stable.pure _))

theorem SendMessage_frame (w : World) (action : String) (data : Data) :
    (SendMessage action data w).world.chans = w.chans ∧
      (SendMessage action data w).world.wsc.EventChannel = w.wsc.EventChannel ∧
      (SendMessage action data w).world.wsc.ResponseChannel = w.wsc.ResponseChannel := by
  simp only [SendMessage, bind_apply, getW_apply, setWsc_apply, sendWriteChan]
  repeat' split
  all_goals exact ⟨rfl, rfl, rfl⟩

theorem world_bind_pure {α β : Type} (m : M α) (b : β) (w : World) :
    ((m >>= fun _ => pure b) w).world = (m w).world := by
  rw [bind_apply]
  cases m w <;> rfl

/-- A `ConnectWithDialer` whose dial succeeds leaves, however it ends, two
    fresh empty queues of capacity 100 in `EventChannel` and
    `ResponseChannel`. -/
theorem Connect_fresh_queues (K : Consts) (dialer : Dialer) (w : World)
    (hd : dialer w.wsc.ConnectUrl = .ok ()) :
    ∃ a b, a ≠ b ∧
      (ConnectWithDialer K dialer w).world.wsc.EventChannel = some a ∧
      (ConnectWithDialer K dialer w).world.wsc.ResponseChannel = some b ∧
      (ConnectWithDialer K dialer w).world.chans[a]? =
        some { cap := 100, buf := [], closed := false } ∧
      (ConnectWithDialer K dialer w).world.chans[b]? =
        some { cap := 100, buf := [], closed := false } := by
  obtain ⟨wp, hr, hrun⟩ := ConnectWithDialer_dial_ok K dialer w hd
  obtain ⟨a, b, h1, h2, h3, _, _, h6, h7⟩ := hr.queues
  obtain ⟨f1, f2, f3⟩ := SendMessage_frame wp K.WEBSOCKET_AUTHENTICATION_CHALLENGE
    (some [("token", .str w.wsc.AuthToken)])
  rw [hrun, world_bind_pure]
  exact ⟨a, b, h3, f2.trans h1, f3.trans h2, by rw [f1]; exact h6, by rw [f1]; exact h7⟩

theorem Connect_queuesBounded (K : Consts) (dialer : Dialer) (w : World)
    (h : QueuesBounded w) : QueuesBounded (ConnectWithDialer K dialer w).world := by
  cases hd : dialer w.wsc.ConnectUrl with
  | error e =>
    rw [ConnectWithDialer_dial_fails K dialer w e hd]
    exact h
  | ok u =>
    obtain ⟨a, b, _, h1, h2, h3, h4⟩ := Connect_fresh_queues K dialer w hd
    intro c hc
    rcases hc with hc | hc
    · rw [h1] at hc
      injection hc with hc
      subst hc
      exact ⟨_, h3, rfl, by simp⟩
    · rw [h2] at hc
      injection hc with hc
      subst hc
      exact ⟨_, h4, rfl, by simp⟩

theorem perform_queuesBounded (C : Codec) (K : Consts) (a : Action) (w : World)
    (h : QueuesBounded w) : QueuesBounded (perform C K a w).world := by
  by_cases ha : ∃ dialer, a = .connect dialer
  · obtain ⟨dialer, rfl⟩ := ha
    have : (perform C K (.connect dialer) w).world = (ConnectWithDialer K dialer w).world := by
      show ((ConnectWithDialer K dialer >>= fun _ => pure ()) w).world = _
      exact world_bind_pure _ _ _
    rw [this]
    exact Connect_queuesBounded K dialer w h
  · have ha' : ∀ dialer, a ≠ .connect dialer := fun d hd => ha ⟨d, hd⟩
    have hrefs := (perform_refs w.wsc.EventChannel w.wsc.ResponseChannel C K a ha').pres w
      ⟨rfl, rfl⟩
    intro c hc
    have hc' : w.wsc.EventChannel = some c ∨ w.wsc.ResponseChannel = some c := by
      rcases hc with hc | hc
      · exact .inl (hrefs.1.symm.trans hc)
      · exact .inr (hrefs.2.symm.trans hc)
    exact (perform_stable (queueBounded_primStable c) (fun _ => ⟨fun _ hq => hq⟩) C K a).pres w
      (h c hc')

theorem runActions_queuesBounded (C : Codec) (K : Consts) (acts : List Action) :
    ∀ w, QueuesBounded w → QueuesBounded (runActions C K acts w) := by
  induction acts with
  | nil => intro w hw; exact hw
  | cons a rest ih =>
    intro w hw
    have h1 := perform_queuesBounded C K a w hw
    unfold runActions
    cases hp : perform C K a w with
    | ok u w' => rw [hp] at h1; exact ih w' h1
    | blocked w' => rw [hp] at h1; exact ih w' h1
    | panic e w' => rw [hp] at h1; exact h1

/-- A successful `NewWebSocketClientWithDialer` leaves two fresh empty queues
    of capacity 100 in `EventChannel` and `ResponseChannel`. -/
theorem New_fresh_queues (K : Consts) (dialer : Dialer) (url authToken : String) (w0 : World)
    (hd : dialer (url ++ K.API_URL_SUFFIX ++ "/websocket") = .ok ()) :
    ∃ w, NewWebSocketClientWithDialer K dialer url authToken w0 = .ok (some w.wsc, none) w ∧
      w.wsc.EventChannel = some (w0.chans.length + 1) ∧
      w.wsc.ResponseChannel = some (w0.chans.length + 2) ∧
      w.chans[w0.chans.length + 1]? = some { cap := 100, buf := [], closed := false } ∧
      w.chans[w0.chans.length + 2]? = some { cap := 100, buf := [], closed := false } := by
  have h2 : wrapInt64 2 = 2 := by decide
  simp [NewWebSocketClientWithDialer, dial, hd, makeChan, configurePingHandling, setPingHandler,
    newTimer, goWatchdog, goWriter, SendMessage, sendWriteChan, List.getElem_append_right, h2,
    chanClosed, List.getElem?_append_right]
  refine ⟨_, ⟨rfl, rfl⟩, rfl, rfl, ?_, ?_⟩
  · exact getElem?_append_add _ _ 1
  · exact getElem?_append_add _ _ 2

theorem sampleWorld_queuesBounded : QueuesBounded sampleWorld := by
  intro c hc
  have h1 : sampleWorld.wsc.EventChannel = some 1 := rfl
  have h2 : sampleWorld.wsc.ResponseChannel = some 2 := rfl
  rcases hc with hc | hc
  · rw [h1] at hc
    injection hc with hc
    subst hc
    exact ⟨⟨100, [], false⟩, by decide, rfl, by decide⟩
  · rw [h2] at hc
    injection hc with hc
    subst hc
    exact ⟨⟨100, [], false⟩, by decide, rfl, by decide⟩

end Queues

section ClaimC16

/-- C16. (a) A successful `NewWebSocketClientWithDialer` and every
    `ConnectWithDialer` whose dial succeeds leave in `EventChannel` and
    `ResponseChannel` two distinct fresh empty channels of capacity 100.
    (b) From a state in which the two queues are channels of capacity 100
    holding at most 100 items, every sequence of actions (sends, reconnects,
    closes, Reader steps, pings, the passing of time, receives by consumers)
    leads to such a state: in every reachable state `EventChannel` and
    `ResponseChannel` have capacity 100 and hold at most 100 items. (c) With
    the Reader at a read and 100 items in the target queue, the iteration for a
    valid event or a valid response parks at the send with the world unchanged,
    so nothing is enqueued and the loop does not reach the next read. -/
theorem queues_hold_at_most_100 (C : Codec) (K : Consts) (w : World) (h : QueuesBounded w) :
    (∀ (dialer : Dialer) (url authToken : String) (w0 : World),
      dialer (url ++ K.API_URL_SUFFIX ++ "/websocket") = .ok () →
      ∃ w1, NewWebSocketClientWithDialer K dialer url authToken w0 = .ok (some w1.wsc, none) w1 ∧
        w1.wsc.EventChannel = some (w0.chans.length + 1) ∧
        w1.wsc.ResponseChannel = some (w0.chans.length + 2) ∧
        w1.chans[w0.chans.length + 1]? = some { cap := 100, buf := [], closed := false } ∧
        w1.chans[w0.chans.length + 2]? = some { cap := 100, buf := [], closed := false } ∧
        QueuesBounded w1) ∧
    (∀ (dialer : Dialer) (w0 : World), dialer w0.wsc.ConnectUrl = .ok () →
      ∃ a b, a ≠ b ∧
        (ConnectWithDialer K dialer w0).world.wsc.EventChannel = some a ∧
        (ConnectWithDialer K dialer w0).world.wsc.ResponseChannel = some b ∧
        (ConnectWithDialer K dialer w0).world.chans[a]? =
          some { cap := 100, buf := [], closed := false } ∧
        (ConnectWithDialer K dialer w0).world.chans[b]? =
          some { cap := 100, buf := [], closed := false }) ∧
    (∀ (acts : List Action) (c : Nat),
      (runActions C K acts w).wsc.EventChannel = some c ∨
        (runActions C K acts w).wsc.ResponseChannel = some c →
      ∃ ch, (runActions C K acts w).chans[c]? = some ch ∧ ch.cap = 100 ∧
        ch.buf.length ≤ 100) ∧
    (∀ (w1 : World) (rawMsg : RawMessage) (event : WebSocketEvent) (c : Nat) (ch : Chan),
      ReaderAtRead w1 → C.WebSocketEventFromJson rawMsg = some event → event.IsValid = true →
      w1.wsc.EventChannel = some c → w1.chans[c]? = some ch → ch.closed = false →
      ch.cap = 100 → ch.buf.length = 100 →
      listenIter C (.frame rawMsg) w1 = .blocked w1) ∧
    (∀ (w1 : World) (rawMsg : RawMessage) (event : WebSocketEvent) (response : WebSocketResponse)
      (c : Nat) (ch : Chan),
      ReaderAtRead w1 → C.WebSocketEventFromJson rawMsg = some event → event.IsValid = false →
      C.Unmarshal rawMsg = some response → response.IsValid = true →
      w1.wsc.ResponseChannel = some c → w1.chans[c]? = some ch → ch.closed = false →
      ch.cap = 100 → ch.buf.length = 100 →
      listenIter C (.frame rawMsg) w1 = .blocked w1) := by
  refine ⟨?_, fun dialer w0 hd => Connect_fresh_queues K dialer w0 hd,
    fun acts c hc => runActions_queuesBounded C K acts w h c hc, ?_, ?_⟩
  · intro dialer url authToken w0 hd
    obtain ⟨w1, h1, h2, h3, h4, h5⟩ := New_fresh_queues K dialer url authToken w0 hd
    refine ⟨w1, h1, h2, h3, h4, h5, ?_⟩
    intro c hc
    rcases hc with hc | hc
    · rw [h2] at hc
      injection hc with hc
      subst hc
      exact ⟨_, h4, rfl, by simp⟩
    · rw [h3] at hc
      injection hc with hc
      subst hc
      exact ⟨_, h5, rfl, by simp⟩
  · intro w1 rawMsg event c ch hread hdec hvalid hc hch hopen hcap hlen
    obtain ⟨hquit, hsome⟩ := hread
    obtain ⟨k, hconn⟩ := Option.isSome_iff_exists.mp hsome
    have hroom : ¬ ch.buf.length < ch.cap := by omega
    simp [listenIter, hquit, hconn, hdec, hvalid, sendChan, hc, hch, hopen, hroom]
  · intro w1 rawMsg event response c ch hread hdec hinvalid hun hvalid hc hch hopen hcap hlen
    obtain ⟨hquit, hsome⟩ := hread
    obtain ⟨k, hconn⟩ := Option.isSome_iff_exists.mp hsome
    have hroom : ¬ ch.buf.length < ch.cap := by omega
    simp [listenIter, hquit, hconn, hdec, hinvalid, hun, hvalid, sendChan, hc, hch, hopen, hroom]

set_option maxRecDepth 100000 in
/-- Instance of C16: the sample client. After 100 typing events no consumer
    has received, a further typing event parks the Reader with nothing
    changed; and whatever happens to the client, its two queues keep capacity
    100 and at most 100 items. -/
theorem queues_hold_at_most_100_witness :
    QueuesBounded sampleWorld ∧
    (∀ (acts : List Action) (c : Nat),
      (runActions scenarioCodec sampleConsts acts sampleWorld).wsc.EventChannel = some c ∨
        (runActions scenarioCodec sampleConsts acts sampleWorld).wsc.ResponseChannel = some c →
      ∃ ch, (runActions scenarioCodec sampleConsts acts sampleWorld).chans[c]? = some ch ∧
        ch.cap = 100 ∧ ch.buf.length ≤ 100) ∧
    fullWorld.chans[1]? = some
      { cap := 100, buf := List.replicate 100 (.event { EventType := "typing", Body := "" }),
        closed := false } ∧
    listenIter scenarioCodec (.frame frameTyping) fullWorld = .blocked fullWorld :=
  ⟨sampleWorld_queuesBounded,
    (queues_hold_at_most_100 scenarioCodec sampleConsts sampleWorld
      sampleWorld_queuesBounded).2.2.1,
    by decide!,
    (queues_hold_at_most_100 scenarioCodec sampleConsts sampleWorld
      sampleWorld_queuesBounded).2.2.2.1 fullWorld frameTyping
      { EventType := "typing", Body := "" } 1
      { cap := 100, buf := List.replicate 100 (.event { EventType := "typing", Body := "" }),
        closed := false }
      ⟨by decide!, by decide!⟩ (by decide) (by decide) (by decide!) (by decide!) rfl rfl
      (by decide)⟩

end ClaimC16

section ClaimC28

/-- C28, as amended. On a client whose `writeChan` is closed (a closed client
    that has not been reconnected) `SendMessage` panics in the send of line
    243 and hands the Writer nothing; line 242 has run before, so `Sequence`
    has been incremented with `int64` arithmetic and nothing else has
    changed. -/
theorem SendMessage_closed (w : World) (action : String) (data : Data) (c : Nat) (ch : Chan)
    (hc : w.wsc.writeChan = some c) (hch : w.chans[c]? = some ch) (hclosed : ch.closed = true) :
    SendMessage action data w = .panic .sendClosedChan
        { w with wsc := { w.wsc with Sequence := wrapInt64 (w.wsc.Sequence + 1) } } ∧
      handedSince w (SendMessage action data w).world = [] ∧
      (SendMessage action data w).world.wsc.Sequence = wrapInt64 (w.wsc.Sequence + 1) ∧
      (minInt64 ≤ w.wsc.Sequence → w.wsc.Sequence < maxInt64 →
        (SendMessage action data w).world.wsc.Sequence = w.wsc.Sequence + 1) := by
  have hrun : SendMessage action data w = .panic .sendClosedChan
      { w with wsc := { w.wsc with Sequence := wrapInt64 (w.wsc.Sequence + 1) } } := by
    simp [SendMessage, sendWriteChan, hc, hch, hclosed]
  refine ⟨hrun, ?_, ?_, ?_⟩
  · rw [hrun]
    simp [handedSince, Res.world]
  · rw [hrun]
    rfl
  · intro hlo hhi
    rw [hrun]
    exact wrapInt64_of_range _ (by unfold minInt64 at *; omega) (by unfold maxInt64 at *; omega)

/-- Instance of C28: the sample client after `Close`; its counter goes from 2
    to 3. -/
theorem SendMessage_closed_witness :
    closedWorld.wsc.closed = true ∧
    (SendMessage "get_statuses" none closedWorld = .panic .sendClosedChan
        { closedWorld with
          wsc := { closedWorld.wsc with Sequence := wrapInt64 (closedWorld.wsc.Sequence + 1) } } ∧
      handedSince closedWorld (SendMessage "get_statuses" none closedWorld).world = [] ∧
      (SendMessage "get_statuses" none closedWorld).world.wsc.Sequence =
        wrapInt64 (closedWorld.wsc.Sequence + 1) ∧
      (minInt64 ≤ closedWorld.wsc.Sequence → closedWorld.wsc.Sequence < maxInt64 →
        (SendMessage "get_statuses" none closedWorld).world.wsc.Sequence =
          closedWorld.wsc.Sequence + 1)) :=
  ⟨by decide!, SendMessage_closed closedWorld "get_statuses" none 3
    { cap := 0, buf := [], closed := true } (by decide!) (by decide!) rfl⟩

/-- C28 fails as stated: on the closed sample client `SendMessage` hands the
    Writer nothing and panics, but `Sequence`, 2 before the call, is 3 after
    it. -/
theorem SendMessage_closed_counterexample :
    closedWorld.wsc.closed = true ∧ closedWorld.wsc.Sequence = 2 ∧
      (SendMessage "get_statuses" none closedWorld).isOk = false ∧
      handedSince closedWorld (SendMessage "get_statuses" none closedWorld).world = [] ∧
      (SendMessage "get_statuses" none closedWorld).world.wsc.Sequence = 3 ∧
      (SendMessage "get_statuses" none closedWorld).world.wsc.Sequence ≠
        closedWorld.wsc.Sequence := by
  refine ⟨by decide!, by decide!, by decide!, by decide!, by decide!, by decide!⟩

end ClaimC28

section PingOrder

theorem effectsSince_self (w : World) : effectsSince w w = [] := by
  simp [effectsSince]

theorem effectsSince_append (w : World) (es : List Effect) (w' : World)
    (h : w'.trace = w.trace ++ es) : effectsSince w w' = es := by
  simp [effectsSince, h]

/-- The effects of one `pingHandler` call, in every state: none (nil timer),
    or `Stop` alone (parked in the drain of line 282), or `Stop`, possibly the
    drain, and `Reset` (the send of line 286 did not complete), or all of
    these followed by the hand-off of the pong, in which case the call
    returns. -/
theorem pingHandler_effects (w : World) (appData : String) :
    (effectsSince w (pingHandler appData w).world = [] ∧
        (pingHandler appData w).isOk = false) ∨
      (∃ tid, effectsSince w (pingHandler appData w).world = [.timerStop tid false] ∧
        (pingHandler appData w).isOk = false) ∨
      (∃ tid, effectsSince w (pingHandler appData w).world =
          [.timerStop tid true, .timerReset tid (w.now + pingTimeoutSeconds)] ∧
        (pingHandler appData w).isOk = false) ∨
      (∃ tid, effectsSince w (pingHandler appData w).world =
          [.timerStop tid false, .timerDrain tid,
            .timerReset tid (w.now + pingTimeoutSeconds)] ∧
        (pingHandler appData w).isOk = false) ∨
      (∃ tid, effectsSince w (pingHandler appData w).world =
          [.timerStop tid true, .timerReset tid (w.now + pingTimeoutSeconds),
            .handoff { msgType := msgTypePong, contents := none }] ∧
        (pingHandler appData w).isOk = true) ∨
      (∃ tid, effectsSince w (pingHandler appData w).world =
          [.timerStop tid false, .timerDrain tid,
            .timerReset tid (w.now + pingTimeoutSeconds),
            .handoff { msgType := msgTypePong, contents := none }] ∧
        (pingHandler appData w).isOk = true) := by
  cases ht : w.wsc.pingTimeoutTimer with
  | none =>
    left
    simp [pingHandler, timerStop, ht, Res.world, Res.isOk, effectsSince]
  | some tid =>
    cases htm : w.timers[tid]? with
    | none =>
      left
      simp [pingHandler, timerStop, ht, htm, Res.world, Res.isOk, effectsSince]
    | some tm =>
      have hlt : tid < w.timers.length := (List.getElem?_eq_some.mp htm).1
      cases hd : tm.deadline with
      | some d =>
        cases hc : w.wsc.writeChan with
        | none =>
          right; right; left
          exact ⟨tid, by simp [pingHandler, timerStop, timerReset, sendWriteChan, ht, htm, hd, hc,
            hlt, Res.world, Res.isOk, effectsSince]⟩
        | some c =>
          cases hch : w.chans[c]? with
          | none =>
            right; right; left
            exact ⟨tid, by simp [pingHandler, timerStop, timerReset, sendWriteChan, ht, htm, hd,
              hc, hch, hlt, Res.world, Res.isOk, effectsSince]⟩
          | some ch =>
            by_cases hcl : ch.closed = true
            · right; right; left
              exact ⟨tid, by simp [pingHandler, timerStop, timerReset, sendWriteChan, ht, htm, hd,
                hc, hch, hcl, hlt, Res.world, Res.isOk, effectsSince]⟩
            · by_cases hw : w.writers = 0
              · right; right; left
                exact ⟨tid, by simp [pingHandler, timerStop, timerReset, sendWriteChan, ht, htm,
                  hd, hc, hch, hcl, hw, hlt, Res.world, Res.isOk, effectsSince]⟩
              · right; right; right; right; left
                exact ⟨tid, by simp [pingHandler, timerStop, timerReset, sendWriteChan, ht, htm,
                  hd, hc, hch, hcl, hw, hlt, Res.world, Res.isOk, effectsSince]⟩
      | none =>
        cases hC : tm.C with
        | none =>
          right; left
          exact ⟨tid, by simp [pingHandler, timerStop, timerDrain, ht, htm, hd, hC, hlt,
            Res.world, Res.isOk, effectsSince]⟩
        | some v =>
          cases hc : w.wsc.writeChan with
          | none =>
            right; right; right; left
            exact ⟨tid, by simp [pingHandler, timerStop, timerDrain, timerReset, sendWriteChan, ht,
              htm, hd, hC, hc, hlt, Res.world, Res.isOk, effectsSince]⟩
          | some c =>
            cases hch : w.chans[c]? with
            | none =>
              right; right; right; left
              exact ⟨tid, by simp [pingHandler, timerStop, timerDrain, timerReset, sendWriteChan,
                ht, htm, hd, hC, hc, hch, hlt, Res.world, Res.isOk, effectsSince]⟩
            | some ch =>
              by_cases hcl : ch.closed = true
              · right; right; right; left
                exact ⟨tid, by simp [pingHandler, timerStop, timerDrain, timerReset, sendWriteChan,
                  ht, htm, hd, hC, hc, hch, hcl, hlt, Res.world, Res.isOk, effectsSince]⟩
              · by_cases hw : w.writers = 0
                · right; right; right; left
                  exact ⟨tid, by simp [pingHandler, timerStop, timerDrain, timerReset,
                    sendWriteChan, ht, htm, hd, hC, hc, hch, hcl, hw, hlt, Res.world, Res.isOk,
                    effectsSince]⟩
                · right; right; right; right; right
                  exact ⟨tid, by simp [pingHandler, timerStop, timerDrain, timerReset,
                    sendWriteChan, ht, htm, hd, hC, hc, hch, hcl, hw, hlt, Res.world, Res.isOk,
                    effectsSince]⟩

end PingOrder

section ClaimC22

/-- C22, as amended. Within one `pingHandler` call the deadline timer is
    rearmed before the pong is handed to the Writer. In every state: when the
    call returns, its effects are `Stop`, the drain when `Stop` reported a
    fired timer, `Reset` and then the hand-off of the pong, in this order, so
    the rearming comes first; and in no state, returning or not, does a
    hand-off come before the rearming. -/
theorem pingHandler_resets_first (w : World) (appData : String) :
    ((pingHandler appData w).isOk = true →
      (∃ tid, effectsSince w (pingHandler appData w).world =
          [.timerStop tid true, .timerReset tid (w.now + pingTimeoutSeconds),
            .handoff { msgType := msgTypePong, contents := none }] ∨
        effectsSince w (pingHandler appData w).world =
          [.timerStop tid false, .timerDrain tid,
            .timerReset tid (w.now + pingTimeoutSeconds),
            .handoff { msgType := msgTypePong, contents := none }]) ∧
      firstReset (effectsSince w (pingHandler appData w).world) <
        firstHandoff (effectsSince w (pingHandler appData w).world)) ∧
    firstReset (effectsSince w (pingHandler appData w).world) ≤
      firstHandoff (effectsSince w (pingHandler appData w).world) := by
  rcases pingHandler_effects w appData with ⟨h, hk⟩ | ⟨tid, h, hk⟩ | ⟨tid, h, hk⟩ |
      ⟨tid, h, hk⟩ | ⟨tid, h, hk⟩ | ⟨tid, h, hk⟩
  · rw [h, hk]
    exact ⟨fun hh => by simp at hh, by simp [firstReset, firstHandoff]⟩
  · rw [h, hk]
    exact ⟨fun hh => by simp at hh, by simp [firstReset, firstHandoff]⟩
  · rw [h, hk]
    exact ⟨fun hh => by simp at hh, by simp [firstReset, firstHandoff]⟩
  · rw [h, hk]
    exact ⟨fun hh => by simp at hh, by simp [firstReset, firstHandoff]⟩
  · rw [h]
    exact ⟨fun _ => ⟨⟨tid, .inl rfl⟩, by simp [firstReset, firstHandoff]⟩,
      by simp [firstReset, firstHandoff]⟩
  · rw [h]
    exact ⟨fun _ => ⟨⟨tid, .inr rfl⟩, by simp [firstReset, firstHandoff]⟩,
      by simp [firstReset, firstHandoff]⟩

/-- Instance of C22: a ping on the sample client at instant 0. -/
theorem pingHandler_resets_first_witness :
    (pingHandler "ping" sampleWorld).isOk = true ∧
    ((∃ tid, effectsSince sampleWorld (pingHandler "ping" sampleWorld).world =
          [.timerStop tid true, .timerReset tid (sampleWorld.now + pingTimeoutSeconds),
            .handoff { msgType := msgTypePong, contents := none }] ∨
        effectsSince sampleWorld (pingHandler "ping" sampleWorld).world =
          [.timerStop tid false, .timerDrain tid,
            .timerReset tid (sampleWorld.now + pingTimeoutSeconds),
            .handoff { msgType := msgTypePong, contents := none }]) ∧
      firstReset (effectsSince sampleWorld (pingHandler "ping" sampleWorld).world) <
        firstHandoff (effectsSince sampleWorld (pingHandler "ping" sampleWorld).world)) :=
  ⟨by decide!, (pingHandler_resets_first sampleWorld "ping").1 (by decide!)⟩

/-- C22 fails as stated: a ping on the sample client stops timer 0, rearms it
    for instant 65 and only then hands the pong to the Writer; the hand-off is
    the third effect of the call and the rearming the second. -/
theorem pingHandler_resets_first_counterexample :
    (pingHandler "ping" sampleWorld).isOk = true ∧
      effectsSince sampleWorld (pingHandler "ping" sampleWorld).world =
        [.timerStop 0 true, .timerReset 0 65,
          .handoff { msgType := msgTypePong, contents := none }] ∧
      firstReset (effectsSince sampleWorld (pingHandler "ping" sampleWorld).world) = 1 ∧
      firstHandoff (effectsSince sampleWorld (pingHandler "ping" sampleWorld).world) = 2 ∧
      ¬ firstHandoff (effectsSince sampleWorld (pingHandler "ping" sampleWorld).world) <
        firstReset (effectsSince sampleWorld (pingHandler "ping" sampleWorld).world) := by
  refine ⟨by decide!, by decide!, by decide!, by decide!, by decide!⟩

end ClaimC22

section ClaimC26

/-- C26, what the code does when the watchdog has taken the fired value. In
    every state in which the client's deadline timer has fired (it is not
    armed) and its channel is empty, `pingHandler` is parked for good in the
    receive of line 282: `Stop` reports false, nothing is rearmed and no pong
    is handed to the Writer. -/
theorem pingHandler_drain_parks (w : World) (tid : Nat) (appData : String)
    (ht : w.wsc.pingTimeoutTimer = some tid)
    (htm : w.timers[tid]? = some { deadline := none, C := none }) :
    pingHandler appData w = .blocked
        { w with trace := w.trace ++ [.timerStop tid false] } ∧
      effectsSince w (pingHandler appData w).world = [.timerStop tid false] ∧
      handedSince w (pingHandler appData w).world = [] ∧
      (pingHandler appData w).world.timers = w.timers := by
  have hlt : tid < w.timers.length := (List.getElem?_eq_some.mp htm).1
  have hset : w.timers.set tid { deadline := none, C := none } = w.timers := by
    apply List.ext_getElem?
    intro k
    by_cases hk : tid = k
    · subst hk
      simp [List.getElem?_set, hlt, htm]
    · simp [List.getElem?_set, hk]
  have hrun : pingHandler appData w = .blocked
      { w with trace := w.trace ++ [.timerStop tid false] } := by
    simp [pingHandler, timerStop, timerDrain, ht, htm, hlt, hset]
  refine ⟨hrun, ?_, ?_, ?_⟩
  · rw [hrun]
    exact effectsSince_append w _ _ rfl
  · rw [hrun]
    apply handedSince_of_append
    simp [Res.world, handed_append, handed]
  · rw [hrun]
    rfl

/-- Instance of C26: the sample client at instant 65 with no ping handled. Its
    watchdog has taken the fired value from the timer's channel and sent the
    timeout signal; the client has not been closed. A ping that arrives now
    parks the handler in the drain. -/
theorem pingHandler_drain_parks_witness :
    timedOutWorld = (advance 65 sampleWorld).world ∧
    timedOutWorld.wsc.closed = false ∧
    timeouts timedOutWorld.trace = [(0, 65)] ∧
    (pingHandler "ping" timedOutWorld = .blocked
        { timedOutWorld with trace := timedOutWorld.trace ++ [.timerStop 0 false] } ∧
      effectsSince timedOutWorld (pingHandler "ping" timedOutWorld).world =
        [.timerStop 0 false] ∧
      handedSince timedOutWorld (pingHandler "ping" timedOutWorld).world = [] ∧
      (pingHandler "ping" timedOutWorld).world.timers = timedOutWorld.timers) :=
  ⟨rfl, by decide!, by decide!,
    pingHandler_drain_parks timedOutWorld 0 "ping" (by decide!) (by decide!)⟩

end ClaimC26

section ClaimC27

/-- C27, what the code does when the dial fails. `ConnectWithDialer` returns
    the `AppError` of operation `Connect` with status 500 and hands the Writer
    nothing; every field of the client keeps its value except `Conn`, which
    line 117 has set to nil; channels, timers, connections and goroutines are
    as before. So on a client that had a connection the state has changed. -/
theorem Connect_failure_clears_Conn (K : Consts) (dialer : Dialer) (w : World) (e : String)
    (hd : dialer w.wsc.ConnectUrl = .error e) :
    ConnectWithDialer K dialer w =
        .ok (some { Where := "Connect", Id := "model.websocket_client.connect_fail.app_error",
                    DetailedError := e, StatusCode := 500 })
          { w with
            wsc := { w.wsc with Conn := none }
            trace := w.trace ++ [.dial w.wsc.ConnectUrl false] } ∧
      (ConnectWithDialer K dialer w).world.wsc = { w.wsc with Conn := none } ∧
      (ConnectWithDialer K dialer w).world.wsc.Conn = none ∧
      (ConnectWithDialer K dialer w).world.chans = w.chans ∧
      (ConnectWithDialer K dialer w).world.conns = w.conns ∧
      handedSince w (ConnectWithDialer K dialer w).world = [] ∧
      (∀ c, w.wsc.Conn = some c → (ConnectWithDialer K dialer w).world.wsc ≠ w.wsc) := by
  have hrun := ConnectWithDialer_dial_fails K dialer w e hd
  refine ⟨hrun, by rw [hrun]; rfl, by rw [hrun]; rfl, by rw [hrun]; rfl, by rw [hrun]; rfl, ?_, ?_⟩
  · rw [hrun]
    apply handedSince_of_append
    simp [Res.world, handed_append, handed]
  · intro c hc hcontra
    rw [hrun] at hcontra
    have : (none : Option Nat) = w.wsc.Conn := congrArg WebSocketClient.Conn hcontra
    rw [hc] at this
    exact absurd this (by simp)

/-- Instance of C27: a failed `ConnectWithDialer` on the live sample client.
    `Conn`, connection 0 before the call, is nil after it, and connection 0 is
    still open; the next write of the Writer and the next `Close` then
    dereference the nil `Conn`. -/
theorem Connect_failure_clears_Conn_witness :
    sampleWorld.wsc.Conn = some 0 ∧
    lostConnWorld = (ConnectWithDialer sampleConsts failDialer sampleWorld).world ∧
    lostConnWorld.wsc.Conn = none ∧
    lostConnWorld.conns = [{ url := "ws://localhost:8065/api/v4/websocket", closed := false,
                             pingHandler := true }] ∧
    (writer (fun _ => none) [.message ⟨msgTypeJSON, some ⟨2, "get_statuses", none⟩⟩]
      lostConnWorld).exit = .crashed ∧
    Close lostConnWorld = .panic .nilDeref (Close lostConnWorld).world ∧
    (ConnectWithDialer sampleConsts failDialer sampleWorld =
        .ok (some { Where := "Connect", Id := "model.websocket_client.connect_fail.app_error",
                    DetailedError := "connection refused", StatusCode := 500 })
          { sampleWorld with
            wsc := { sampleWorld.wsc with Conn := none }
            trace := sampleWorld.trace ++ [.dial sampleWorld.wsc.ConnectUrl false] } ∧
      (ConnectWithDialer sampleConsts failDialer sampleWorld).world.wsc =
        { sampleWorld.wsc with Conn := none } ∧
      (ConnectWithDialer sampleConsts failDialer sampleWorld).world.wsc.Conn = none ∧
      (ConnectWithDialer sampleConsts failDialer sampleWorld).world.chans = sampleWorld.chans ∧
      (ConnectWithDialer sampleConsts failDialer sampleWorld).world.conns = sampleWorld.conns ∧
      handedSince sampleWorld (ConnectWithDialer sampleConsts failDialer sampleWorld).world = [] ∧
      (∀ c, sampleWorld.wsc.Conn = some c →
        (ConnectWithDialer sampleConsts failDialer sampleWorld).world.wsc ≠ sampleWorld.wsc)) :=
  ⟨rfl, rfl, by decide!, by decide!, by decide!, by decide!,
    Connect_failure_clears_Conn sampleConsts failDialer sampleWorld "connection refused" rfl⟩

end ClaimC27

section CloseFrame

/-- What the first `Close` of an open client leaves untouched: timers, the
    clock, the number of channels and connections, every channel other than
    the six it closes; and what it does to goroutines: the writers have
    returned and each watchdog has seen the six closes in order. -/
theorem Close_frame (w : World) (qw wc qr ev rs cp cn : Nat)
    (h : OpenClient w qw wc qr ev rs cp cn) :
    ∃ w1, Close w = .ok () w1 ∧
      w1.watchdogs = w.watchdogs.map
        (wakeCancelled cp ∘ wakeCancelled rs ∘ wakeCancelled ev ∘ wakeCancelled qr ∘
          wakeCancelled wc ∘ wakeCancelled qw) ∧
      w1.timers = w.timers ∧ w1.writers = 0 ∧ w1.now = w.now ∧
      w1.conns.length = w.conns.length ∧ w1.chans.length = w.chans.length ∧
      (∀ c, c ∉ [qw, wc, qr, ev, rs, cp] → w1.chans[c]? = w.chans[c]?) := by
  obtain ⟨a1, ha1, hb1⟩ := h.isOpen qw (by simp)
  obtain ⟨a2, ha2, hb2⟩ := h.isOpen wc (by simp)
  obtain ⟨a3, ha3, hb3⟩ := h.isOpen qr (by simp)
  obtain ⟨a4, ha4, hb4⟩ := h.isOpen ev (by simp)
  obtain ⟨a5, ha5, hb5⟩ := h.isOpen rs (by simp)
  obtain ⟨a6, ha6, hb6⟩ := h.isOpen cp (by simp)
  obtain ⟨k, hk⟩ := h.connLive
  have hd := h.distinct
  simp only [List.nodup_cons, List.mem_cons, List.mem_singleton, not_or, List.not_mem_nil,
    not_false_eq_true, List.nodup_nil, and_true] at hd
  obtain ⟨⟨n12, n13, n14, n15, n16⟩, ⟨n23, n24, n25, n26⟩, ⟨n34, n35, n36⟩, ⟨n45, n46⟩, n56⟩ := hd
  simp [Close, onceDo, h.once, closeBody, closeChan, connClose, h.quitWriter, h.write,
    h.quitReader, h.events, h.responses, h.closeWatchdog, h.conn, hk, List.getElem?_set,
    ha1, ha2, ha3, ha4, ha5, ha6, hb1, hb2, hb3, hb4, hb5, hb6,
    n12, n13, n14, n15, n16, n23, n24, n25, n26, n34, n35, n36, n45, n46, n56,
    Ne.symm n12, Ne.symm n13, Ne.symm n14, Ne.symm n15, Ne.symm n16,
    Ne.symm n23, Ne.symm n24, Ne.symm n25, Ne.symm n26, Ne.symm n34, Ne.symm n35, Ne.symm n36,
    Ne.symm n45, Ne.symm n46, Ne.symm n56]
  intro c h1 h2 h3 h4 h5 h6
  simp [Ne.symm h1, Ne.symm h2, Ne.symm h3, Ne.symm h4, Ne.symm h5, Ne.symm h6]

end CloseFrame

section CancelledStable

theorem wakeCancelled_cancelled (c : Nat) (wd : Watchdog) (h : wd.status = .cancelled) :
    wakeCancelled c wd = wd := by
  simp [wakeCancelled, h]

theorem resumeSender_cancelled (i k c : Nat) (w : World) (h : Cancelled i k w) :
    Cancelled i k (resumeSender c w) := by
  obtain ⟨⟨wd, h1, h2⟩, h3⟩ := h
  unfold resumeSender
  split
  · cases hfs : firstSending w.watchdogs with
    | none => exact ⟨⟨wd, h1, h2⟩, h3⟩
    | some j =>
      obtain ⟨wdj, hj1, hj2⟩ := firstSending_spec w.watchdogs j hfs
      have hji : j ≠ i := by
        intro hji
        subst hji
        rw [h1] at hj1
        injection hj1 with hj1
        subst hj1
        rw [h2] at hj2
        exact absurd hj2 (by decide)
      simp only
      split
      · split
        · refine ⟨⟨wd, ?_, h2⟩, ?_⟩
          · simp only
            rw [List.getElem?_set_ne hji]
            exact h1
          · simp only [timeoutsBy_append, timeoutsBy_pingTimeout_ne i j _ hji]
            exact h3
        · exact ⟨⟨wd, h1, h2⟩, h3⟩
      · exact ⟨⟨wd, h1, h2⟩, h3⟩
  · exact ⟨⟨wd, h1, h2⟩, h3⟩

/-- Once watchdog `i` has returned through the cancellation case, no operation
    changes that or makes it send a timeout signal. -/
theorem cancelled_primStable (i k : Nat) : PrimStable (Cancelled i k) where
  wsc := fun _ _ h => h
  clock := fun _ _ h => h
  makeChan := fun _ => ⟨fun _ h => h⟩
  closeChan := fun r => ⟨fun w h => by
    obtain ⟨⟨wd, h1, h2⟩, h3⟩ := h
    unfold closeChan
    repeat' split
    all_goals simp_all [Cancelled, Res.world, timeoutsBy, timeouts_append, timeouts,
      wakeCancelled_cancelled]⟩
  sendChan := fun r x => ⟨fun w h => by
    unfold sendChan
    repeat' split
    all_goals simp_all [Cancelled, Res.world, timeoutsBy, timeouts_append, timeouts]⟩
  sendWriteChan := fun m => ⟨fun w h => by
    unfold sendWriteChan
    repeat' split
    all_goals simp_all [Cancelled, Res.world, timeoutsBy, timeouts_append, timeouts]⟩
  newTimer := fun d => ⟨fun w h => by
    simp_all [Cancelled, newTimer, Res.world, timeoutsBy, timeouts_append, timeouts]⟩
  timerStop := fun r => ⟨fun w h => by
    unfold timerStop
    repeat' split
    all_goals simp_all [Cancelled, Res.world, timeoutsBy, timeouts_append, timeouts]⟩
  timerDrain := fun r => ⟨fun w h => by
    unfold timerDrain
    repeat' split
    all_goals simp_all [Cancelled, Res.world, timeoutsBy, timeouts_append, timeouts]⟩
  timerReset := fun r d => ⟨fun w h => by
    unfold timerReset
    repeat' split
    all_goals simp_all [Cancelled, Res.world, timeoutsBy, timeouts_append, timeouts]⟩
  dial := fun dialer url => ⟨fun w h => by
    unfold dial
    repeat' split
    all_goals simp_all [Cancelled, Res.world, timeoutsBy, timeouts_append, timeouts]⟩
  setPingHandler := ⟨fun w h => by
    unfold setPingHandler
    repeat' split
    all_goals simp_all [Cancelled, Res.world, timeoutsBy, timeouts_append, timeouts]⟩
  connClose := ⟨fun w h => by
    unfold connClose
    repeat' split
    all_goals simp_all [Cancelled, Res.world, timeoutsBy, timeouts_append, timeouts]⟩
  goWriter := ⟨fun w h => by
    unfold goWriter
    repeat' split
    all_goals simp_all [Cancelled, Res.world, timeoutsBy, timeouts_append, timeouts]⟩
  goWatchdog := ⟨fun w h => by
    obtain ⟨⟨wd, h1, h2⟩, h3⟩ := h
    have hlt : i < w.watchdogs.length := by
      by_contra hcon
      rw [List.getElem?_eq_none (by omega)] at h1
      exact absurd h1 (by simp)
    unfold goWatchdog
    split
    · exact ⟨⟨wd, h1, h2⟩, h3⟩
    · refine ⟨⟨wd, ?_, h2⟩, ?_⟩
      · simp only [Res.world]
        rw [List.getElem?_append_left hlt]
        exact h1
      · simp only [Res.world, timeoutsBy_append]
        simp [timeoutsBy, timeouts]
        exact h3⟩
  watchdogWake := fun j => ⟨fun w h => by
    obtain ⟨⟨wd, h1, h2⟩, h3⟩ := h
    by_cases hji : j = i
    · subst hji
      have : watchdogWake j w = .ok () w := by
        apply watchdogWake_idle
        intro wd' hwd' hs
        rw [h1] at hwd'
        injection hwd' with hwd'
        subst hwd'
        rw [h2] at hs
        exact absurd hs (by decide)
      rw [this]
      exact ⟨⟨wd, h1, h2⟩, h3⟩
    · have hget : ∀ x, (w.watchdogs.set j x)[i]? = some wd := by
        intro x
        rw [List.getElem?_set_ne hji]
        exact h1
      unfold watchdogWake
      repeat' split
      all_goals first
        | exact ⟨⟨wd, h1, h2⟩, h3⟩
        | exact ⟨⟨wd, hget _, h2⟩, h3⟩
        | (refine ⟨⟨wd, hget _, h2⟩, ?_⟩
           simp only [Res.world, timeoutsBy_append, timeoutsBy_pingTimeout_ne i j _ hji]
           exact h3)⟩
  recvChan := fun r => ⟨fun w h => by
    unfold recvChan
    repeat' split
    all_goals first
      | exact h
      | exact resumeSender_cancelled i k _ _ h⟩
  emitClosed := ⟨fun w h => by
    simp_all [Cancelled, Res.world, timeoutsBy, timeouts_append, timeouts]⟩

end CancelledStable

section CloseEveryState

theorem set_map_same {α β : Type} (f : α → β) (l : List α) (c : Nat) (old new : α)
    (h : l[c]? = some old) (hf : f new = f old) : (l.set c new).map f = l.map f := by
  apply List.ext_getElem?
  intro k
  obtain ⟨hlt, hget⟩ := List.getElem?_eq_some.mp h
  by_cases hk : c = k
  · subst hk
    simp [List.getElem?_set, hlt, hf, hget]
  · simp [List.getElem?_set, hk]

/-- `Close` keeps every property that the closing of a channel, the closing of
    the connection and assignments to the client struct keep. -/
theorem Close_keeps {P : World → Prop}
    (hwsc : ∀ (w : World) (c : WebSocketClient), P w → P { w with wsc := c })
    (hclose : ∀ r, Stable P (closeChan r)) (hconn : Stable P connClose)
    (hemit : Stable P (emit .setClosed)) : Stable P Close := by
  have hbody : Stable P closeBody := by
    unfold closeBody
    repeat' (first
      | exact Stable.getW
      | exact hclose _
      | exact hconn
      | exact hemit
      | exact ⟨fun w hw => hwsc w _ hw⟩
      | apply Stable.bind
      | intro _)
  constructor
  intro w hw
  unfold Close onceDo
  split
  · exact hw
  · have h1 := hbody.pres w hw
    cases hfw : closeBody w with
    | ok a w' => rw [hfw] at h1; exact hwsc w' _ h1
    | panic f w' => rw [hfw] at h1; exact hwsc w' _ h1
    | blocked w' => rw [hfw] at h1; exact h1

/-- In every state `Close` leaves the capacity and the contents of every
    channel, the timers and the clock as they were. -/
theorem Close_contents (w : World) :
    contents (Close w).world = contents w ∧ (Close w).world.timers = w.timers ∧
      (Close w).world.now = w.now ∧ (Close w).world.chans.length = w.chans.length := by
  have hst : Stable (fun w' : World => contents w' = contents w ∧ w'.timers = w.timers ∧
      w'.now = w.now ∧ w'.chans.length = w.chans.length) Close := by
    apply Close_keeps
    · intro w' c h
      exact h
    · intro r
      constructor
      intro w' h
      unfold closeChan
      repeat' split
      all_goals first
        | exact h
        | (refine ⟨?_, h.2.1, h.2.2.1, ?_⟩
           · simp only [Res.world, contents]
             rw [set_map_same _ _ _ _ _ (by assumption) (by rfl)]
             exact h.1
           · simp only [Res.world, List.length_set]
             exact h.2.2.2)
    · constructor
      intro w' h
      unfold connClose
      repeat' split
      all_goals exact h
    · exact ⟨fun _ h => h⟩
  exact hst.pres w ⟨rfl, rfl, rfl, rfl⟩

theorem closeChan_closing (c0 : WebSocketClient) (r : Option Nat) :
    Stable (ClosingOf c0) (closeChan r) :=
  ⟨fun w h => by
    unfold closeChan
    repeat' split
    all_goals exact h⟩

theorem connClose_closing (c0 : WebSocketClient) : Stable (ClosingOf c0) connClose :=
  ⟨fun w h => by
    unfold connClose
    repeat' split
    all_goals exact h⟩

theorem setClosed_closing (c0 : WebSocketClient) (w1 : World) (h : ClosingOf c0 w1) :
    Stable (ClosingOf c0) (setWsc { w1.wsc with closed := true }) :=
  ⟨fun _ _ => by
    obtain ⟨b1, b2, hb⟩ := h
    exact ⟨true, b2, by simp only [setWsc_apply, Res.world]; rw [hb]⟩⟩

/-- In every state `Close` assigns no field of the client struct other than
    `closed` and the done flag of `closeOnce`. -/
theorem Close_fields (w : World) : ClosingOf w.wsc (Close w).world := by
  have hst : Stable (ClosingOf w.wsc) Close := by
    have hbody : Stable (ClosingOf w.wsc) closeBody := by
      unfold closeBody
      repeat' (first
        | exact closeChan_closing _ _
        | exact connClose_closing _
        | exact ⟨fun _ h => h⟩
        | exact setClosed_closing _ _ (by assumption)
        | (apply Stable.bind_getW; intro _ _)
        | apply Stable.bind
        | intro _)
    constructor
    intro w' hw
    unfold Close onceDo
    split
    · exact hw
    · have h1 := hbody.pres w' hw
      cases hfw : closeBody w' with
      | ok a w'' =>
        rw [hfw] at h1
        obtain ⟨b1, b2, hb⟩ := h1
        exact ⟨b1, true, by simp only [Res.world] at hb ⊢; rw [hb]⟩
      | panic f w'' =>
        rw [hfw] at h1
        obtain ⟨b1, b2, hb⟩ := h1
        exact ⟨b1, true, by simp only [Res.world] at hb ⊢; rw [hb]⟩
      | blocked w'' => rw [hfw] at h1; exact h1
  exact hst.pres w ⟨w.wsc.closed, w.wsc.closeOnce, rfl⟩

end CloseEveryState

section CloseFields

theorem Close_fields_eq (w : World) :
    (Close w).world.wsc.PingTimeoutChannel = w.wsc.PingTimeoutChannel ∧
      (Close w).world.wsc.EventChannel = w.wsc.EventChannel ∧
      (Close w).world.wsc.ResponseChannel = w.wsc.ResponseChannel ∧
      (Close w).world.wsc.Sequence = w.wsc.Sequence ∧
      (Close w).world.wsc.AuthToken = w.wsc.AuthToken ∧
      (Close w).world.wsc.Url = w.wsc.Url ∧
      (Close w).world.wsc.ApiUrl = w.wsc.ApiUrl ∧
      (Close w).world.wsc.ConnectUrl = w.wsc.ConnectUrl ∧
      (Close w).world.wsc.ListenError = w.wsc.ListenError := by
  obtain ⟨b1, b2, hb⟩ := Close_fields w
  rw [hb]
  exact ⟨rfl, rfl, rfl, rfl, rfl, rfl, rfl, rfl, rfl⟩

end CloseFields

section ClaimC23

/-- C23. Let watchdog goroutine `i` of an open client be parked in its
    `select` with the client's `closePingWatchdog` as cancellation channel
    and its timer not fired. Then `Close` returns, the goroutine has returned
    through the cancellation case, `Close` has sent no timeout signal and has
    left the contents of every channel, `PingTimeoutChannel` included, as they
    were; and whatever happens afterwards (the deadline passing, pings,
    reconnects, receives) that goroutine stays returned and the number of
    timeout signals it has sent stays what it was before the `Close`. -/
theorem watchdog_cancelled_silent (C : Codec) (K : Consts) (w : World)
    (qw wc qr ev rs cp cn i : Nat) (wd : Watchdog)
    (h : OpenClient w qw wc qr ev rs cp cn)
    (hwd : w.watchdogs[i]? = some wd) (hwait : wd.status = .waiting)
    (hcancel : wd.cancel = some cp)
    (hunfired : ∀ tm, w.timers[wd.timer]? = some tm → tm.C = none) :
    ∃ w1, Close w = .ok () w1 ∧
      w1.watchdogs[i]? = some { wd with status := .cancelled } ∧
      timeouts w1.trace = timeouts w.trace ∧
      contents w1 = contents w ∧
      (∀ tm, w1.timers[wd.timer]? = some tm → tm.C = none) ∧
      ∀ after : List Action,
        timeoutsBy i (runActions C K after w1).trace = timeoutsBy i w.trace ∧
        ∃ wd', (runActions C K after w1).watchdogs[i]? = some wd' ∧ wd'.status = .cancelled := by
  obtain ⟨w1, hrun, hwds, htimers, _⟩ := Close_frame w qw wc qr ev rs cp cn h
  obtain ⟨w1', hrun', _, _, htrace, _⟩ := Close_teardown w qw wc qr ev rs cp cn h
  have hw : w1' = w1 := by
    rw [hrun] at hrun'
    injection hrun' with _ hh
    exact hh.symm
  subst hw
  have hd := h.distinct
  simp only [List.nodup_cons, List.mem_cons, List.mem_singleton, not_or, List.not_mem_nil,
    not_false_eq_true, List.nodup_nil, and_true] at hd
  obtain ⟨⟨_, _, _, _, n16⟩, ⟨_, _, _, n26⟩, ⟨_, _, n36⟩, ⟨_, n46⟩, n56⟩ := hd
  have hi : w1'.watchdogs[i]? = some { wd with status := .cancelled } := by
    rw [hwds, List.getElem?_map, hwd]
    simp [wakeCancelled, hwait, hcancel, Ne.symm n16, Ne.symm n26, Ne.symm n36, Ne.symm n46,
      Ne.symm n56]
  have htm : timeouts w1'.trace = timeouts w.trace := by
    rw [htrace, timeouts_append]
    simp [timeouts]
  have hcont : contents w1' = contents w := by
    have := (Close_contents w).1
    rw [hrun] at this
    exact this
  refine ⟨w1', hrun, hi, htm, hcont, ?_, ?_⟩
  · intro tm htm'
    rw [htimers] at htm'
    exact hunfired tm htm'
  · intro after
    have hdone : Cancelled i (timeoutsBy i w.trace) w1' :=
      ⟨⟨_, hi, rfl⟩, by simp only [timeoutsBy, htm]⟩
    have hle : ∀ e, Stable (Cancelled i (timeoutsBy i w.trace)) (emit (.setListenError e)) :=
      fun e => ⟨fun w2 h2 => by
        obtain ⟨h3, h4⟩ := h2
        refine ⟨h3, ?_⟩
        simp only [emit_apply, Res.world, timeoutsBy_append]
        simp [timeoutsBy, timeouts]
        exact h4⟩
    have := runActions_stable (cancelled_primStable i _) hle C K after _ hdone
    exact ⟨this.2, this.1⟩

/-- Instance of C23: the sample client, closed at instant 0, then left without
    pings until instant 65 and beyond: its watchdog, number 0, has returned
    and never sends a timeout signal. -/
theorem watchdog_cancelled_silent_witness :
    OpenClient sampleWorld 5 3 6 1 2 4 0 ∧
    ∃ w1, Close sampleWorld = .ok () w1 ∧
      w1.watchdogs[0]? = some { timer := 0, cancel := some 4, status := .cancelled } ∧
      timeouts w1.trace = timeouts sampleWorld.trace ∧
      contents w1 = contents sampleWorld ∧
      (∀ tm, w1.timers[0]? = some tm → tm.C = none) ∧
      ∀ after : List Action,
        timeoutsBy 0 (runActions scenarioCodec sampleConsts after w1).trace =
          timeoutsBy 0 sampleWorld.trace ∧
        ∃ wd', (runActions scenarioCodec sampleConsts after w1).watchdogs[0]? = some wd' ∧
          wd'.status = .cancelled :=
  ⟨sampleWorld_open,
    watchdog_cancelled_silent scenarioCodec sampleConsts sampleWorld 5 3 6 1 2 4 0 0
      { timer := 0, cancel := some 4, status := .waiting } sampleWorld_open
      (by decide) rfl rfl (by decide)⟩

end ClaimC23

section ClaimC25

set_option maxHeartbeats 4000000 in
/-- On a closed client a `ConnectWithDialer` whose dial succeeds and whose new
    Writer keeps running returns nil and leaves an open client all of whose
    channels are fresh: six new open empty channels after the old ones, a new
    connection, the `Once` and `closed` reset. -/
theorem ConnectWithDialer_closed (K : Consts) (dialer : Dialer) (w : World)
    (hd : dialer w.wsc.ConnectUrl = .ok ()) (hclosed : w.wsc.closed = true)
    (hstay : WriterStays w) :
    ∃ w2, ConnectWithDialer K dialer w = .ok none w2 ∧
      OpenClient w2 (w.chans.length + 2) w.chans.length (w.chans.length + 3)
        (w.chans.length + 4) (w.chans.length + 5) (w.chans.length + 1) w.conns.length ∧
      w2.wsc.closed = false ∧ w2.wsc.closeOnce = false ∧
      w2.chans = w.chans ++
        [{ cap := 0, buf := [], closed := false }, { cap := 0, buf := [], closed := false },
         { cap := 0, buf := [], closed := false }, { cap := 0, buf := [], closed := false },
         { cap := 100, buf := [], closed := false }, { cap := 100, buf := [], closed := false }] ∧
      w2.writers = w.writers + 1 ∧
      teardown w2.trace = teardown w.trace := by
  by_cases hq : closedIn w.chans w.wsc.quitWriterChan = true
  · have hs : runsFirst w.sched = false := hstay hq
    simp [ConnectWithDialer, dial, hd, makeChan, goWriter, configurePingHandling, setPingHandler,
      newTimer, goWatchdog, SendMessage, sendWriteChan, hclosed, List.getElem_append_right,
      chanClosed_eq, closedIn_append_open, hq, hs]
    refine ⟨?_, ?_⟩
    · constructor
      all_goals first
        | rfl
        | (simp [getElem?_append_add, getElem?_append_length, List.getElem_append_right])
    · simp [teardown_append, teardown]
  · simp [ConnectWithDialer, dial, hd, makeChan, goWriter, configurePingHandling, setPingHandler,
      newTimer, goWatchdog, SendMessage, sendWriteChan, hclosed, List.getElem_append_right,
      chanClosed_eq, closedIn_append_open, hq]
    refine ⟨?_, ?_⟩
    · constructor
      all_goals first
        | rfl
        | (simp [getElem?_append_add, getElem?_append_length, List.getElem_append_right])
    · simp [teardown_append, teardown]

/-- `Close` leaves the schedule as it was. -/
theorem Close_sched (w : World) : (Close w).world.sched = w.sched := by
  have hclose : ∀ r, Stable (fun w' : World => w'.sched = w.sched) (closeChan r) := fun r =>
    ⟨fun w' h' => by
      unfold closeChan
      repeat' split
      all_goals exact h'⟩
  have hconn : Stable (fun w' : World => w'.sched = w.sched) connClose :=
    ⟨fun w' h' => by
      unfold connClose
      repeat' split
      all_goals exact h'⟩
  exact (Close_keeps (fun _ _ h' => h') hclose hconn ⟨fun _ h' => h'⟩).pres w rfl

/-- C25. Let an open client be closed and then reconnected with a dial that
    succeeds. `Close` returns with `closed` true. The reconnect starts its
    Writer (line 125) while `quitWriterChan` is still the channel that `Close`
    closed (the new one is made at line 132): when the caller runs first the
    call returns nil, and when the new Writer reaches its `select` first it
    returns at once and the call parks in the send of line 145. For every
    `ConnectWithDialer` that returns nil the client is open again: `closed` is
    false, the done flag of `closeOnce` is reset, and `writeChan`,
    `quitWriterChan`, `quitReaderChan`, `closePingWatchdog`, `EventChannel` and
    `ResponseChannel` are six distinct channels made by this call (none of
    them existed before), open and empty, with a new connection. The next
    `Close` therefore returns after exactly the eight teardown actions on the
    new objects: the teardown has run once for each connection phase, and no
    channel is closed twice. -/
theorem reconnect_after_Close (K : Consts) (dialer : Dialer) (w : World)
    (qw wc qr ev rs cp cn : Nat) (h : OpenClient w qw wc qr ev rs cp cn)
    (hd : dialer w.wsc.ConnectUrl = .ok ()) :
    ∃ w1, Close w = .ok () w1 ∧ w1.wsc.closed = true ∧ w1.sched = w.sched ∧
      (runsFirst w.sched = false → ∃ w2, ConnectWithDialer K dialer w1 = .ok none w2) ∧
      (runsFirst w.sched = true → ∃ w2, ConnectWithDialer K dialer w1 = .blocked w2) ∧
      ∀ w2, ConnectWithDialer K dialer w1 = .ok none w2 →
        w2.wsc.closed = false ∧ w2.wsc.closeOnce = false ∧
        OpenClient w2 (w.chans.length + 2) w.chans.length (w.chans.length + 3)
          (w.chans.length + 4) (w.chans.length + 5) (w.chans.length + 1) w.conns.length ∧
        (∀ c ∈ [w.chans.length + 2, w.chans.length, w.chans.length + 3, w.chans.length + 4,
            w.chans.length + 5, w.chans.length + 1],
          w.chans[c]? = none ∧ c ∉ [qw, wc, qr, ev, rs, cp] ∧
          ∃ ch, w2.chans[c]? = some ch ∧ ch.closed = false ∧ ch.buf = []) ∧
        ∃ w3, Close w2 = .ok () w3 ∧ w3.wsc.closed = true ∧
          w3.trace = w2.trace ++
            [.closeChan (w.chans.length + 2), .closeChan w.chans.length,
             .connClose w.conns.length,
             .closeChan (w.chans.length + 3), .closeChan (w.chans.length + 4),
             .closeChan (w.chans.length + 5), .closeChan (w.chans.length + 1), .setClosed] ∧
          teardown w3.trace = teardown w.trace ++
            [.closeChan qw, .closeChan wc, .connClose cn, .closeChan qr, .closeChan ev,
             .closeChan rs, .closeChan cp, .setClosed] ++
            [.closeChan (w.chans.length + 2), .closeChan w.chans.length,
             .connClose w.conns.length,
             .closeChan (w.chans.length + 3), .closeChan (w.chans.length + 4),
             .closeChan (w.chans.length + 5), .closeChan (w.chans.length + 1), .setClosed] := by
  obtain ⟨w1, hrun1, _, hcl1, htr1, hclosedSix, _⟩ := Close_teardown w qw wc qr ev rs cp cn h
  obtain ⟨w1', hrun1', _, _, hwr, _, hconns, hchans, _⟩ := Close_frame w qw wc qr ev rs cp cn h
  have hw : w1' = w1 := by
    rw [hrun1] at hrun1'
    injection hrun1' with _ hh
    exact hh.symm
  subst hw
  have hurl : w1'.wsc.ConnectUrl = w.wsc.ConnectUrl := by
    have := (Close_fields_eq w).2.2.2.2.2.2.2.1
    rw [hrun1] at this
    exact this
  have hsched : w1'.sched = w.sched := by
    have := Close_sched w
    rw [hrun1] at this
    exact this
  have hquit : w1'.wsc.quitWriterChan = some qw := by
    obtain ⟨b1, b2, hb⟩ := Close_fields w
    rw [hrun1] at hb
    simp only [Res.world] at hb
    rw [hb]
    exact h.quitWriter
  have hqclosed : chanClosed w1'.wsc.quitWriterChan w1' = true := by
    rw [hquit]
    exact hclosedSix qw (by simp)
  have hd1 : dialer w1'.wsc.ConnectUrl = .ok () := by rw [hurl]; exact hd
  have hparks : runsFirst w.sched = true →
      ∃ w2, ConnectWithDialer K dialer w1' = .blocked w2 := by
    intro hs
    obtain ⟨wp, _, hrun⟩ := ConnectWithDialer_parks K dialer w1' hd1 (.inr hcl1)
      ⟨hqclosed, by rw [hsched]; exact hs⟩ hwr
    exact ⟨_, hrun⟩
  have hgood : ∀ w2, ConnectWithDialer K dialer w1' = .ok none w2 →
      OpenClient w2 (w.chans.length + 2) w.chans.length (w.chans.length + 3)
        (w.chans.length + 4) (w.chans.length + 5) (w.chans.length + 1) w.conns.length ∧
      w2.wsc.closed = false ∧ w2.wsc.closeOnce = false ∧
      w2.chans = w1'.chans ++
        [{ cap := 0, buf := [], closed := false }, { cap := 0, buf := [], closed := false },
         { cap := 0, buf := [], closed := false }, { cap := 0, buf := [], closed := false },
         { cap := 100, buf := [], closed := false }, { cap := 100, buf := [], closed := false }] ∧
      teardown w2.trace = teardown w1'.trace := by
    intro w2 hrun2
    have hstay : WriterStays w1' := by
      intro _
      cases hs : runsFirst w1'.sched with
      | false => rfl
      | true =>
        obtain ⟨w2', hb⟩ := hparks (by rw [← hsched]; exact hs)
        rw [hb] at hrun2
        cases hrun2
    obtain ⟨w2', hrun2', ho2, hcl2, honce2, hch2, _, htr2⟩ :=
      ConnectWithDialer_closed K dialer w1' hd1 hcl1 hstay
    have hw2 : w2' = w2 := by
      rw [hrun2] at hrun2'
      injection hrun2' with _ hh
      exact hh.symm
    subst hw2
    rw [hchans, hconns] at ho2
    exact ⟨ho2, hcl2, honce2, hch2, htr2⟩
  refine ⟨w1', hrun1, hcl1, hsched, ?_, hparks, ?_⟩
  · intro hs
    obtain ⟨w2, hrun2, _⟩ := ConnectWithDialer_closed K dialer w1' hd1 hcl1
      (fun _ => by rw [hsched]; exact hs)
    exact ⟨w2, hrun2⟩
  · intro w2 hrun2
    obtain ⟨ho2, hcl2, honce2, hch2, htr2⟩ := hgood w2 hrun2
    obtain ⟨w3, hrun3, _, hcl3, htr3, _⟩ := Close_teardown w2 _ _ _ _ _ _ _ ho2
    refine ⟨hcl2, honce2, ho2, ?_, w3, hrun3, hcl3, htr3, ?_⟩
    · intro c hc
      have hge : w.chans.length ≤ c := by
        simp only [List.mem_cons, List.mem_singleton, List.not_mem_nil, or_false] at hc
        omega
      refine ⟨List.getElem?_eq_none hge, ?_, ?_⟩
      · intro hmem
        obtain ⟨ch, hch, _⟩ := h.isOpen c hmem
        have := (List.getElem?_eq_some.mp hch).1
        omega
      · rw [← hchans] at hc
        simp only [List.mem_cons, List.mem_singleton, List.not_mem_nil, or_false] at hc
        rcases hc with rfl | rfl | rfl | rfl | rfl | rfl <;>
          simp [hch2, getElem?_append_add, getElem?_append_length, List.getElem_append_right]
    · rw [htr3, teardown_append, teardown_closing, htr2, htr1, teardown_append, teardown_closing]

/-- Instance of C25: the sample client, closed and reconnected. Its channels
    were numbers 0 to 6; the reconnected client uses the new channels 7 to 12
    and connection 1. With the caller running first the reconnect returns nil;
    with the new Writer running first it parks. -/
theorem reconnect_after_Close_witness :
    OpenClient sampleWorld 5 3 6 1 2 4 0 ∧
    (ConnectWithDialer sampleConsts okDialer closedWorld).isOk = true ∧
    (ConnectWithDialer sampleConsts okDialer racedWorld).isOk = false ∧
    ∃ w1, Close sampleWorld = .ok () w1 ∧ w1.wsc.closed = true ∧ w1.sched = sampleWorld.sched ∧
      (runsFirst sampleWorld.sched = false →
        ∃ w2, ConnectWithDialer sampleConsts okDialer w1 = .ok none w2) ∧
      (runsFirst sampleWorld.sched = true →
        ∃ w2, ConnectWithDialer sampleConsts okDialer w1 = .blocked w2) ∧
      ∀ w2, ConnectWithDialer sampleConsts okDialer w1 = .ok none w2 →
        w2.wsc.closed = false ∧ w2.wsc.closeOnce = false ∧
        OpenClient w2 (sampleWorld.chans.length + 2) sampleWorld.chans.length
          (sampleWorld.chans.length + 3) (sampleWorld.chans.length + 4)
          (sampleWorld.chans.length + 5) (sampleWorld.chans.length + 1)
          sampleWorld.conns.length ∧
        (∀ c ∈ [sampleWorld.chans.length + 2, sampleWorld.chans.length,
            sampleWorld.chans.length + 3, sampleWorld.chans.length + 4,
            sampleWorld.chans.length + 5, sampleWorld.chans.length + 1],
          sampleWorld.chans[c]? = none ∧ c ∉ [5, 3, 6, 1, 2, 4] ∧
          ∃ ch, w2.chans[c]? = some ch ∧ ch.closed = false ∧ ch.buf = []) ∧
        ∃ w3, Close w2 = .ok () w3 ∧ w3.wsc.closed = true ∧
          w3.trace = w2.trace ++
            [.closeChan (sampleWorld.chans.length + 2), .closeChan sampleWorld.chans.length,
             .connClose sampleWorld.conns.length,
             .closeChan (sampleWorld.chans.length + 3),
             .closeChan (sampleWorld.chans.length + 4),
             .closeChan (sampleWorld.chans.length + 5),
             .closeChan (sampleWorld.chans.length + 1), .setClosed] ∧
          teardown w3.trace = teardown sampleWorld.trace ++
            [.closeChan 5, .closeChan 3, .connClose 0, .closeChan 6, .closeChan 1,
             .closeChan 2, .closeChan 4, .setClosed] ++
            [.closeChan (sampleWorld.chans.length + 2), .closeChan sampleWorld.chans.length,
             .connClose sampleWorld.conns.length,
             .closeChan (sampleWorld.chans.length + 3),
             .closeChan (sampleWorld.chans.length + 4),
             .closeChan (sampleWorld.chans.length + 5),
             .closeChan (sampleWorld.chans.length + 1), .setClosed] :=
  ⟨sampleWorld_open, by decide!, by decide!,
    reconnect_after_Close sampleConsts okDialer sampleWorld 5 3 6 1 2 4 0 sampleWorld_open rfl⟩

end ClaimC25

section Writers

theorem closeBody_split (w : World) :
    closeBody w = (closeChan w.wsc.quitWriterChan >>= fun _ => closeRest w) w := rfl

/-- Closing `quitWriterChan` panics with nothing changed or stops every
    writer. -/
theorem closeChan_quit (w : World) :
    (∃ f, closeChan w.wsc.quitWriterChan w = .panic f w) ∨
    ∃ w', closeChan w.wsc.quitWriterChan w = .ok () w' ∧ w'.writers = 0 ∧ w'.wsc = w.wsc := by
  cases hq : w.wsc.quitWriterChan with
  | none => exact .inl ⟨.closeNilChan, by simp [closeChan]⟩
  | some c =>
    cases hch : w.chans[c]? with
    | none => exact .inl ⟨.closeNilChan, by simp [closeChan, hch]⟩
    | some ch =>
      by_cases hcl : ch.closed = true
      · exact .inl ⟨.closeClosedChan, by simp [closeChan, hch, hcl]⟩
      · exact .inr ⟨{ w with
            chans := w.chans.set c { ch with closed := true }
            watchdogs := w.watchdogs.map (wakeCancelled c)
            writers := 0
            stoppedWriters := w.stoppedWriters + w.writers
            trace := w.trace ++ [.closeChan c] },
          by simp [closeChan, hq, hch, hcl], rfl, rfl⟩

theorem closeRest_stopped (w0 : World) : Stable (fun w : World => w.writers = 0) (closeRest w0) := by
  have hclose : ∀ r, Stable (fun w : World => w.writers = 0) (closeChan r) := fun r =>
    ⟨fun w h => by
      unfold closeChan
      repeat' split
      all_goals first
        | exact h
        | rfl⟩
  have hconn : Stable (fun w : World => w.writers = 0) connClose :=
    ⟨fun w h => by
      unfold connClose
      repeat' split
      all_goals exact h⟩
  unfold closeRest
  repeat' (first
    | exact Stable.getW
    | exact hclose _
    | exact hconn
    | exact ⟨fun _ h => h⟩
    | apply Stable.bind
    | intro _)

theorem onceDo_world (f : M Unit) (w : World) (h : w.wsc.closeOnce = false) :
    (onceDo f w).world.writers = (f w).world.writers ∧
      (onceDo f w).world.wsc.writeChan = (f w).world.wsc.writeChan ∧
      (onceDo f w).world.wsc.closed = (f w).world.wsc.closed := by
  unfold onceDo
  simp only [h]
  cases f w <;> exact ⟨rfl, rfl, rfl⟩

theorem OneWriter.of_stopped {w : World} (h : w.writers = 0) : OneWriter w :=
  ⟨by omega, fun _ => h⟩

theorem OneWriter.of_same {w w' : World} (h : OneWriter w)
    (h1 : w'.wsc.writeChan = w.wsc.writeChan) (h2 : w'.wsc.closed = w.wsc.closed)
    (h3 : w'.writers = w.writers) : OneWriter w' :=
  ⟨by rw [h3]; exact h.1, fun hh => by rw [h3]; exact h.2 (by rw [← h1, ← h2]; exact hh)⟩

/-- `Close` starts no writer: it stops the writers or leaves them as they
    were. -/
theorem Close_oneWriter (w : World) (h : OneWriter w) : OneWriter (Close w).world := by
  by_cases ho : w.wsc.closeOnce = true
  · rw [Close_done w ho]
    exact h
  · have ho' : w.wsc.closeOnce = false := by simpa using ho
    obtain ⟨e1, e2, e3⟩ := onceDo_world closeBody w ho'
    rcases closeChan_quit w with ⟨f, hp⟩ | ⟨w', hok, hw', _⟩
    · have hb : closeBody w = .panic f w := by
        rw [closeBody_split, bind_apply, hp]
      rw [hb] at e1 e2 e3
      exact h.of_same e2 e3 e1
    · have hb : closeBody w = closeRest w w' := by
        rw [closeBody_split, bind_apply, hok]
      have hz := (closeRest_stopped w).pres w' hw'
      rw [hb] at e1
      exact OneWriter.of_stopped (e1.trans hz)

theorem sendChan_writer (wc : Option Nat) (cl : Bool) (n : Nat) (c : Option Nat) (x : Item) :
    Stable (WriterIs wc cl n) (sendChan c x) :=
  ⟨fun w h => by
    unfold sendChan
    repeat' split
    all_goals exact h⟩

theorem sendWriteChan_writer (wc : Option Nat) (cl : Bool) (n : Nat) (m : writeMessage) :
    Stable (WriterIs wc cl n) (sendWriteChan m) :=
  ⟨fun w h => by
    unfold sendWriteChan
    repeat' split
    all_goals exact h⟩

theorem timerStop_writer (wc : Option Nat) (cl : Bool) (n : Nat) (t : Option Nat) :
    Stable (WriterIs wc cl n) (timerStop t) :=
  ⟨fun w h => by
    unfold timerStop
    repeat' split
    all_goals exact h⟩

theorem timerDrain_writer (wc : Option Nat) (cl : Bool) (n : Nat) (t : Option Nat) :
    Stable (WriterIs wc cl n) (timerDrain t) :=
  ⟨fun w h => by
    unfold timerDrain
    repeat' split
    all_goals exact h⟩

theorem timerReset_writer (wc : Option Nat) (cl : Bool) (n : Nat) (t : Option Nat) (d : Nat) :
    Stable (WriterIs wc cl n) (timerReset t d) :=
  ⟨fun w h => by
    unfold timerReset
    repeat' split
    all_goals exact h⟩

theorem watchdogWake_writer (wc : Option Nat) (cl : Bool) (n : Nat) (i : Nat) :
    Stable (WriterIs wc cl n) (watchdogWake i) :=
  ⟨fun w h => by
    unfold watchdogWake
    repeat' split
    all_goals exact h⟩

theorem resumeSender_writer (wc : Option Nat) (cl : Bool) (n : Nat) (c : Nat) (w : World)
    (h : WriterIs wc cl n w) : WriterIs wc cl n (resumeSender c w) := by
  unfold resumeSender
  repeat' split
  all_goals exact h

theorem recvChan_writer (wc : Option Nat) (cl : Bool) (n : Nat) (c : Option Nat) :
    Stable (WriterIs wc cl n) (recvChan c) :=
  ⟨fun w h => by
    unfold recvChan
    repeat' split
    all_goals first
      | exact h
      | exact resumeSender_writer wc cl n _ _ h⟩

theorem setWsc_writer (wc : Option Nat) (cl : Bool) (n : Nat) (w1 : World)
    (h : WriterIs wc cl n w1) (c : WebSocketClient)
    (h1 : c.writeChan = w1.wsc.writeChan) (h2 : c.closed = w1.wsc.closed) :
    Stable (WriterIs wc cl n) (setWsc c) :=
  ⟨fun _ hw => ⟨h1.trans h.1, h2.trans h.2.1, hw.2.2⟩⟩

theorem SendMessage_writer (wc : Option Nat) (cl : Bool) (n : Nat) (action : String)
    (data : Data) : Stable (WriterIs wc cl n) (SendMessage action data) := by
  unfold SendMessage
  repeat' (first
    | exact Stable.pure _
    | exact sendWriteChan_writer wc cl n _
    | exact setWsc_writer wc cl n _ (by assumption) _ rfl rfl
    | (apply Stable.bind_getW; intro _ _)
    | apply Stable.bind
    | intro _)

theorem pingHandler_writer (wc : Option Nat) (cl : Bool) (n : Nat) (appData : String) :
    Stable (WriterIs wc cl n) (pingHandler appData) := by
  unfold pingHandler
  repeat' (first
    | exact Stable.pure _
    | exact Stable.getW
    | exact timerStop_writer wc cl n _
    | exact timerDrain_writer wc cl n _
    | exact timerReset_writer wc cl n _ _
    | exact sendWriteChan_writer wc cl n _
    | apply Stable.bind
    | apply Stable.ite
    | intro _)

theorem listenIter_writer (wc : Option Nat) (cl : Bool) (n : Nat) (C : Codec) (rd : ReadResult) :
    Stable (WriterIs wc cl n) (listenIter C rd) := by
  constructor
  intro w hw
  cases rd with
  | error err =>
    rw [listenIter_error_eq]
    repeat' split
    all_goals exact hw
  | frame rawMsg =>
    rcases listenIter_frame_cases C rawMsg w with h | ⟨c, ch, ev, _, _, _, _, _, _, h⟩ |
        ⟨c, ch, ev, rs, _, _, _, _, _, _, _, _, h⟩
    · rw [h]
      exact hw
    · rw [h]
      exact hw
    · rw [h]
      exact hw

theorem advance_writer (wc : Option Nat) (cl : Bool) (n : Nat) (t : Nat) :
    Stable (WriterIs wc cl n) (advance t) := by
  have hall : ∀ is : List Nat, Stable (WriterIs wc cl n) (wakeAll is) := by
    intro is
    induction is with
    | nil => exact Stable.pure _
    | cons i is ih =>
      unfold wakeAll
      exact Stable.bind (watchdogWake_writer wc cl n i) (fun _ => ih)
  constructor
  intro w hw
  unfold advance
  exact (hall _).pres _ hw

theorem OneWriter.of_writerIs {w w' : World} (h : OneWriter w)
    (h' : WriterIs w.wsc.writeChan w.wsc.closed w.writers w') : OneWriter w' :=
  h.of_same h'.1 h'.2.1 h'.2.2

theorem readerStep_oneWriter (C : Codec) (rd : ReadResult) (w : World) (h : OneWriter w) :
    OneWriter (readerStep C rd w).world := by
  have h1 := h.of_writerIs ((listenIter_writer _ _ _ C rd).pres w ⟨rfl, rfl, rfl⟩)
  unfold readerStep
  cases hit : listenIter C rd w with
  | ok ctl w' =>
    rw [hit] at h1
    cases ctl with
    | next => exact h1
    | exit => exact Close_oneWriter w' h1
  | panic f w' =>
    rw [hit] at h1
    have h2 := Close_oneWriter w' h1
    simp only
    cases hc : Close w' with
    | ok a w'' => rw [hc] at h2; exact h2
    | panic f' w'' => rw [hc] at h2; exact h2
    | blocked w'' => rw [hc] at h2; exact h2
  | blocked w' =>
    rw [hit] at h1
    exact h1

/-- The Writer side of a `ConnectWithDialer` whose dial succeeds (lines
    121-126): a Writer is started only when `writeChan` is nil or the client
    is closed, and at most one. -/
theorem ConnectWithDialer_writer (K : Consts) (dialer : Dialer) (w : World)
    (hd : dialer w.wsc.ConnectUrl = .ok ()) :
    ∃ wp, (wp.wsc.closed = false ∧ (∃ c, wp.wsc.writeChan = some c) ∧
        wp.writers ≤ w.writers + 1 ∧
        ((∃ c, w.wsc.writeChan = some c) → w.wsc.closed = false →
          wp.writers = w.writers ∧ wp.wsc.writeChan = w.wsc.writeChan ∧
            ∃ es, wp.trace = w.trace ++ es ∧ Effect.goWriter ∉ es)) ∧
      ConnectWithDialer K dialer w =
        (SendMessage K.WEBSOCKET_AUTHENTICATION_CHALLENGE
            (some [("token", .str w.wsc.AuthToken)]) >>= fun _ => pure none) wp := by
  obtain ⟨wp, hr, hrun⟩ := ConnectWithDialer_dial_ok K dialer w hd
  refine ⟨wp, ⟨hr.isOpen, hr.writerSet, hr.writerCount, fun hc hcl => ?_⟩, hrun⟩
  obtain ⟨k1, k2⟩ := hr.writerKept hc hcl
  exact ⟨k2, k1, hr.startsNone hc hcl⟩

theorem SendMessage_starts_none (w : World) (action : String) (data : Data) :
    ∃ es, (SendMessage action data w).world.trace = w.trace ++ es ∧ Effect.goWriter ∉ es := by
  simp only [SendMessage, bind_apply, getW_apply, setWsc_apply, sendWriteChan]
  repeat' split
  all_goals first
    | exact ⟨[_], rfl, by simp⟩
    | exact ⟨[], (List.append_nil _).symm, by simp⟩

/-- `ConnectWithDialer` keeps the invariant: it starts a Writer only when no
    Writer that was not told to stop is left. -/
theorem Connect_oneWriter (K : Consts) (dialer : Dialer) (w : World) (h : OneWriter w) :
    OneWriter (ConnectWithDialer K dialer w).world := by
  cases hd : dialer w.wsc.ConnectUrl with
  | error e =>
    rw [ConnectWithDialer_dial_fails K dialer w e hd]
    exact h.of_same rfl rfl rfl
  | ok u =>
    obtain ⟨wp, ⟨hcl, ⟨c, hc⟩, hnew, hkept⟩, hrun⟩ := ConnectWithDialer_writer K dialer w hd
    have hs := (SendMessage_writer wp.wsc.writeChan wp.wsc.closed wp.writers
      K.WEBSOCKET_AUTHENTICATION_CHALLENGE (some [("token", .str w.wsc.AuthToken)])).pres wp
      ⟨rfl, rfl, rfl⟩
    rw [hrun, world_bind_pure]
    obtain ⟨s1, s2, s3⟩ := hs
    refine ⟨?_, fun hh => ?_⟩
    · rw [s3]
      by_cases hn : w.wsc.writeChan = none ∨ w.wsc.closed = true
      · have := h.2 hn
        omega
      · have hc0 : ∃ c, w.wsc.writeChan = some c := by
          cases hw : w.wsc.writeChan with
          | none => exact absurd (.inl hw) hn
          | some c => exact ⟨c, rfl⟩
        have hcl0 : w.wsc.closed = false := by
          cases hw : w.wsc.closed with
          | false => rfl
          | true => exact absurd (.inr hw) hn
        rw [(hkept hc0 hcl0).1]
        exact h.1
    · rw [s1, s2, hc, hcl] at hh
      rcases hh with hh | hh <;> cases hh

theorem perform_oneWriter (C : Codec) (K : Consts) (a : Action) (w : World) (h : OneWriter w) :
    OneWriter (perform C K a w).world := by
  have keep : ∀ {α : Type} (m : M α),
      Stable (WriterIs w.wsc.writeChan w.wsc.closed w.writers) m → OneWriter (m w).world :=
    fun m hm => h.of_writerIs (hm.pres w ⟨rfl, rfl, rfl⟩)
  cases a with
  | send action data => exact keep _ (SendMessage_writer _ _ _ action data)
  | userTyping channelId parentId => exact keep _ (SendMessage_writer _ _ _ _ _)
  | getStatuses => exact keep _ (SendMessage_writer _ _ _ _ _)
  | getStatusesByIds userIds => exact keep _ (SendMessage_writer _ _ _ _ _)
  | connect dialer =>
    have : (perform C K (.connect dialer) w).world = (ConnectWithDialer K dialer w).world := by
      show ((ConnectWithDialer K dialer >>= fun _ => pure ()) w).world = _
      exact world_bind_pure _ _ _
    rw [this]
    exact Connect_oneWriter K dialer w h
  | close => exact Close_oneWriter w h
  | read r => exact readerStep_oneWriter C r w h
  | ping appData =>
    exact keep _ (Stable.bind (pingHandler_writer _ _ _ appData) (fun _ => Stable.pure _))
  | tick t => exact keep _ (advance_writer _ _ _ t)
  | recvEvent =>
    exact keep _ (Stable.bind Stable.getW (fun _ => Stable.bind (recvChan_writer _ _ _ _)
      (fun _ => Stable.pure _)))
  | recvResponse =>
    exact keep _ (Stable.bind Stable.getW (fun _ => Stable.bind (recvChan_writer _ _ _ _)
      (fun _ => Stable.pure _)))
  | recvTimeout =>
    exact keep _ (Stable.bind Stable.getW (fun _ => Stable.bind (recvChan_writer _ _ _ _)
      (fun _ => Stable.pure _)))

theorem runActions_oneWriter (C : Codec) (K : Consts) (acts : List Action) :
    ∀ w, OneWriter w → OneWriter (runActions C K acts w) := by
  induction acts with
  | nil => intro w hw; exact hw
  | cons a rest ih =>
    intro w hw
    have h1 := perform_oneWriter C K a w hw
    unfold runActions
    cases hp : perform C K a w with
    | ok u w' => rw [hp] at h1; exact ih w' h1
    | blocked w' => rw [hp] at h1; exact ih w' h1
    | panic f w' => rw [hp] at h1; exact h1

theorem readerLoop_oneWriter (C : Codec) (reads : List ReadResult) :
    ∀ w, OneWriter w → OneWriter (readerLoop C reads w).world := by
  induction reads with
  | nil =>
    intro w hw
    unfold readerLoop
    simp only [bind_apply, getW_apply]
    split
    · exact hw
    · exact hw
  | cons r rs ih =>
    intro w hw
    have h1 := hw.of_writerIs ((listenIter_writer _ _ _ C r).pres w ⟨rfl, rfl, rfl⟩)
    rw [readerLoop_cons]
    cases hit : listenIter C r w with
    | ok ctl w' =>
      rw [hit] at h1
      cases ctl with
      | next => exact ih w' h1
      | exit => exact h1
    | panic f w' => rw [hit] at h1; exact h1
    | blocked w' => rw [hit] at h1; exact h1

/-- The Reader goroutine with its deferred `Close` keeps the invariant. -/
theorem Listen_oneWriter (C : Codec) (reads : List ReadResult) (w : World) (h : OneWriter w) :
    OneWriter (Listen C reads w).world := by
  have h1 := readerLoop_oneWriter C reads w h
  unfold Listen deferClose
  cases hb : readerLoop C reads w with
  | ok u w' =>
    rw [hb] at h1
    exact Close_oneWriter w' h1
  | panic f w' =>
    rw [hb] at h1
    have h2 := Close_oneWriter w' h1
    simp only
    cases hc : Close w' with
    | ok a w'' => rw [hc] at h2; exact h2
    | panic f' w'' => rw [hc] at h2; exact h2
    | blocked w'' => rw [hc] at h2; exact h2
  | blocked w' =>
    rw [hb] at h1
    exact h1

/-- The constructor, called where no Writer of this client runs, leaves at
    most one Writer. -/
theorem New_oneWriter (K : Consts) (dialer : Dialer) (url authToken : String) (w0 : World)
    (h0 : w0.writers = 0) :
    OneWriter (NewWebSocketClientWithDialer K dialer url authToken w0).world := by
  cases hd : dialer (url ++ K.API_URL_SUFFIX ++ "/websocket") with
  | error e =>
    simp [NewWebSocketClientWithDialer, dial, hd]
    exact OneWriter.of_stopped h0
  | ok u =>
    simp [NewWebSocketClientWithDialer, dial, hd, makeChan, configurePingHandling, setPingHandler,
      newTimer, goWatchdog, goWriter, SendMessage, sendWriteChan, List.getElem_append_right,
      OneWriter, Res.world, h0, chanClosed, List.getElem?_append_right]

end Writers
section ClaimC21

theorem sampleWorld_oneWriter : OneWriter sampleWorld :=
  New_oneWriter sampleConsts okDialer "ws://localhost:8065" "token" (World.boot 0) rfl

/-- C21. `World.writers` counts the Writer goroutines that have not been told
    to stop: `go wsc.writer()` (lines 88, 125) adds one and the close of
    `quitWriterChan` (line 161) stops them all. Take a client with at most one
    such Writer and none when `writeChan` is nil or the client is closed, as
    after the constructor (called where no Writer of the client runs) and in
    a fresh struct. Then after every sequence of actions (sends, helper calls,
    `ConnectWithDialer` with any dialer, `Close`, Reader steps, pings, clock
    ticks, receives) at most one Writer is left, also after a whole `Listen`
    run with its deferred `Close`; and `ConnectWithDialer` on a client with a
    `writeChan` that is not closed starts no Writer: the count and `writeChan`
    are as before and no `go wsc.writer()` is among its effects. The
    goroutines are taken to be parked in their `select` between two
    actions. -/
theorem at_most_one_writer (C : Codec) (K : Consts) (w : World) (h : OneWriter w) :
    (∀ acts : List Action,
      (runActions C K acts w).writers ≤ 1 ∧ OneWriter (runActions C K acts w)) ∧
    (∀ (acts : List Action) (reads : List ReadResult),
      (Listen C reads (runActions C K acts w)).world.writers ≤ 1) ∧
    (∀ (dialer : Dialer) (url authToken : String) (w0 : World), w0.writers = 0 →
      OneWriter (NewWebSocketClientWithDialer K dialer url authToken w0).world ∧
      ∀ acts : List Action,
        (runActions C K acts
          (NewWebSocketClientWithDialer K dialer url authToken w0).world).writers ≤ 1) ∧
    (∀ (dialer : Dialer) (c : Nat), w.wsc.writeChan = some c → w.wsc.closed = false →
      (ConnectWithDialer K dialer w).world.writers = w.writers ∧
      (ConnectWithDialer K dialer w).world.wsc.writeChan = some c ∧
      Effect.goWriter ∉ effectsSince w (ConnectWithDialer K dialer w).world) := by
  refine ⟨fun acts => ?_, fun acts reads => ?_, fun dialer url authToken w0 h0 => ?_,
    fun dialer c hc hcl => ?_⟩
  · exact ⟨(runActions_oneWriter C K acts w h).1, runActions_oneWriter C K acts w h⟩
  · exact (Listen_oneWriter C reads _ (runActions_oneWriter C K acts w h)).1
  · have hn := New_oneWriter K dialer url authToken w0 h0
    exact ⟨hn, fun acts => (runActions_oneWriter C K acts _ hn).1⟩
  · cases hd : dialer w.wsc.ConnectUrl with
    | error e =>
      rw [ConnectWithDialer_dial_fails K dialer w e hd]
      refine ⟨rfl, hc, ?_⟩
      rw [effectsSince_append w [.dial w.wsc.ConnectUrl false] _ rfl]
      simp
    | ok u =>
      obtain ⟨wp, ⟨_, _, _, hkept⟩, hrun⟩ := ConnectWithDialer_writer K dialer w hd
      obtain ⟨k1, k2, es, k3, k4⟩ := hkept ⟨c, hc⟩ hcl
      obtain ⟨s1, _, s3⟩ := (SendMessage_writer wp.wsc.writeChan wp.wsc.closed wp.writers
        K.WEBSOCKET_AUTHENTICATION_CHALLENGE (some [("token", .str w.wsc.AuthToken)])).pres wp
        ⟨rfl, rfl, rfl⟩
      obtain ⟨es', t1, t2⟩ := SendMessage_starts_none wp K.WEBSOCKET_AUTHENTICATION_CHALLENGE
        (some [("token", .str w.wsc.AuthToken)])
      rw [hrun, world_bind_pure]
      refine ⟨s3.trans k1, s1.trans (k2.trans hc), ?_⟩
      rw [effectsSince_append w (es ++ es') _ (by rw [t1, k3, List.append_assoc])]
      simp [k4, t2]

/-- Instance of C21 on the sample client: it has one Writer; a second
    `ConnectWithDialer` leaves one Writer and starts none; after `Close` no
    Writer is left and a further `ConnectWithDialer` starts exactly one. -/
theorem at_most_one_writer_witness :
    OneWriter sampleWorld ∧ sampleWorld.writers = 1 ∧
    (ConnectWithDialer sampleConsts okDialer sampleWorld).world.writers = sampleWorld.writers ∧
    Effect.goWriter ∉
      effectsSince sampleWorld (ConnectWithDialer sampleConsts okDialer sampleWorld).world ∧
    closedWorld.writers = 0 ∧
    (runActions scenarioCodec sampleConsts [.close, .connect okDialer] sampleWorld).writers = 1 ∧
    (∀ acts : List Action,
      (runActions scenarioCodec sampleConsts acts sampleWorld).writers ≤ 1) :=
  ⟨sampleWorld_oneWriter, by decide!,
    ((at_most_one_writer scenarioCodec sampleConsts sampleWorld sampleWorld_oneWriter).2.2.2
      okDialer 3 (by decide!) (by decide!)).1,
    ((at_most_one_writer scenarioCodec sampleConsts sampleWorld sampleWorld_oneWriter).2.2.2
      okDialer 3 (by decide!) (by decide!)).2.2,
    by decide!, by decide!,
    fun acts =>
      ((at_most_one_writer scenarioCodec sampleConsts sampleWorld sampleWorld_oneWriter).1
        acts).1⟩

end ClaimC21

section CloseReturns

theorem bind_ok {α β : Type} (m : M α) (f : α → M β) (w w' : World) (b : β)
    (h : (m >>= f) w = .ok b w') : ∃ a w1, m w = .ok a w1 ∧ f a w1 = .ok b w' := by
  rw [bind_apply] at h
  cases hm : m w with
  | ok a w1 => rw [hm] at h; exact ⟨a, w1, rfl, h⟩
  | panic e w1 => rw [hm] at h; cases h
  | blocked w1 => rw [hm] at h; cases h

/-- A `close` that returns has closed the channel. -/
theorem closeChan_ok (r : Option Nat) (w w' : World) (h : closeChan r w = .ok () w') :
    chanClosed r w' = true := by
  cases r with
  | none => simp [closeChan] at h
  | some c =>
    cases hch : w.chans[c]? with
    | none => simp [closeChan, hch] at h
    | some ch =>
      by_cases hcl : ch.closed = true
      · simp [closeChan, hch, hcl] at h
      · have hlt : c < w.chans.length := (List.getElem?_eq_some.mp hch).1
        simp [closeChan, hch, hcl] at h
        subst h
        simp [chanClosed, hlt]

/-- A closed channel stays closed when a channel is closed. -/
theorem closeChan_keeps_closed (r0 r : Option Nat) :
    Stable (fun w : World => chanClosed r0 w = true) (closeChan r) :=
  ⟨fun w h => by
    cases r0 with
    | none => simp [chanClosed] at h
    | some c0 =>
      cases r with
      | none => simpa [closeChan, Res.world] using h
      | some c =>
        cases hch : w.chans[c]? with
        | none => simpa [closeChan, hch, Res.world] using h
        | some ch =>
          by_cases hcl : ch.closed = true
          · simpa [closeChan, hch, hcl, Res.world] using h
          · have hlt : c < w.chans.length := (List.getElem?_eq_some.mp hch).1
            by_cases hc : c = c0
            · subst hc
              simp [closeChan, hch, hcl, Res.world, chanClosed, hlt]
            · simp only [chanClosed] at h
              simp [closeChan, hch, hcl, Res.world, chanClosed, List.getElem?_set, hc]
              exact h⟩

/-- Whenever the function passed to `closeOnce.Do` returns, the two queues
    are closed. -/
theorem closeBody_ok (w w' : World) (h : closeBody w = .ok () w') :
    chanClosed w.wsc.EventChannel w' = true ∧ chanClosed w.wsc.ResponseChannel w' = true := by
  rw [closeBody_split] at h
  obtain ⟨_, w1, _, h⟩ := bind_ok _ _ _ _ _ h
  unfold closeRest at h
  obtain ⟨_, w2, _, h⟩ := bind_ok _ _ _ _ _ h
  obtain ⟨_, w3, _, h⟩ := bind_ok _ _ _ _ _ h
  obtain ⟨_, w4, _, h⟩ := bind_ok _ _ _ _ _ h
  obtain ⟨_, w5, hev, h⟩ := bind_ok _ _ _ _ _ h
  obtain ⟨_, w6, hrs, h⟩ := bind_ok _ _ _ _ _ h
  obtain ⟨_, w7, hcp, h⟩ := bind_ok _ _ _ _ _ h
  have e5 := closeChan_ok _ _ _ hev
  have e6 := (closeChan_keeps_closed w.wsc.EventChannel w.wsc.ResponseChannel).pres w5 e5
  rw [hrs] at e6
  have e7 := (closeChan_keeps_closed w.wsc.EventChannel w.wsc.closePingWatchdog).pres w6 e6
  rw [hcp] at e7
  have r6 := closeChan_ok _ _ _ hrs
  have r7 := (closeChan_keeps_closed w.wsc.ResponseChannel w.wsc.closePingWatchdog).pres w6 r6
  rw [hcp] at r7
  simp at h
  subst h
  exact ⟨e7, r7⟩

/-- In every state, a `Close` that runs the teardown and returns has closed
    `EventChannel` and `ResponseChannel`; a `Close` that finds the `Once` used
    changes nothing. -/
theorem Close_returns_closed (w w1 : World) (h : Close w = .ok () w1) :
    (w.wsc.closeOnce = false →
      chanClosed w.wsc.EventChannel w1 = true ∧ chanClosed w.wsc.ResponseChannel w1 = true) ∧
    (w.wsc.closeOnce = true → w1 = w) := by
  constructor
  · intro ho
    unfold Close onceDo at h
    simp only [ho] at h
    cases hb : closeBody w with
    | ok u w' =>
      rw [hb] at h
      simp at h
      subst h
      exact closeBody_ok w w' hb
    | panic e w' => rw [hb] at h; simp at h
    | blocked w' => rw [hb] at h; simp at h
  · intro ho
    rw [Close_done w ho] at h
    injection h with _ hh
    exact hh.symm

end CloseReturns

section ClaimC24

/-- C24, as amended. On an open client whose `PingTimeoutChannel` is a
    channel of its own (none of the six that `Close` closes), `Close` returns and
    `PingTimeoutChannel` is the same channel as before, with the same
    capacity, the same pending values and the same state (open when it was
    open), while `EventChannel` and `ResponseChannel` are closed; `Sequence`,
    `AuthToken`, `Url`, `ApiUrl`, `ConnectUrl` and `ListenError` are unchanged.
    And in every state, whether `Close` returns, does nothing or panics, it
    assigns none of these fields and leaves the capacity and contents of
    every channel as they were; and in every state a `Close` that returns has
    either run the teardown, and then `EventChannel` and `ResponseChannel`
    are closed, or found the `Once` used and changed nothing. -/
theorem Close_spares_PingTimeoutChannel (w : World) (qw wc qr ev rs cp cn p : Nat) (ch : Chan)
    (h : OpenClient w qw wc qr ev rs cp cn) (hp : w.wsc.PingTimeoutChannel = some p)
    (hne : p ∉ [qw, wc, qr, ev, rs, cp]) (hch : w.chans[p]? = some ch) :
    (∃ w1, Close w = .ok () w1 ∧
      w1.wsc.PingTimeoutChannel = some p ∧ w1.chans[p]? = some ch ∧
      w1.wsc.EventChannel = some ev ∧ w1.wsc.ResponseChannel = some rs ∧
      chanClosed (some ev) w1 = true ∧ chanClosed (some rs) w1 = true ∧
      w1.wsc.Sequence = w.wsc.Sequence ∧ w1.wsc.AuthToken = w.wsc.AuthToken ∧
      w1.wsc.Url = w.wsc.Url ∧ w1.wsc.ApiUrl = w.wsc.ApiUrl ∧
      w1.wsc.ConnectUrl = w.wsc.ConnectUrl ∧ w1.wsc.ListenError = w.wsc.ListenError) ∧
    (∀ w0 : World,
      (Close w0).world.wsc.PingTimeoutChannel = w0.wsc.PingTimeoutChannel ∧
      (Close w0).world.wsc.Sequence = w0.wsc.Sequence ∧
      (Close w0).world.wsc.AuthToken = w0.wsc.AuthToken ∧
      (Close w0).world.wsc.Url = w0.wsc.Url ∧
      (Close w0).world.wsc.ApiUrl = w0.wsc.ApiUrl ∧
      (Close w0).world.wsc.ConnectUrl = w0.wsc.ConnectUrl ∧
      (Close w0).world.wsc.ListenError = w0.wsc.ListenError ∧
      contents (Close w0).world = contents w0) ∧
    (∀ w0 w1 : World, Close w0 = .ok () w1 →
      (w0.wsc.closeOnce = false →
        w1.wsc.EventChannel = w0.wsc.EventChannel ∧
        w1.wsc.ResponseChannel = w0.wsc.ResponseChannel ∧
        chanClosed w1.wsc.EventChannel w1 = true ∧
        chanClosed w1.wsc.ResponseChannel w1 = true) ∧
      (w0.wsc.closeOnce = true → w1 = w0)) := by
  refine ⟨?_, ?_, ?_⟩
  · obtain ⟨w1, hrun, hkeep⟩ := Close_frame w qw wc qr ev rs cp cn h
    obtain ⟨w1', hrun', _, _, _, hcl, _, _⟩ := Close_teardown w qw wc qr ev rs cp cn h
    have hw : w1' = w1 := by
      rw [hrun] at hrun'
      injection hrun' with _ hh
      exact hh.symm
    subst hw
    obtain ⟨f1, f2, f3, f4, f5, f6, f7, f8, f9⟩ := Close_fields_eq w
    rw [hrun] at f1 f2 f3 f4 f5 f6 f7 f8 f9
    simp only [Res.world] at f1 f2 f3 f4 f5 f6 f7 f8 f9
    exact ⟨w1', hrun, f1.trans hp, (hkeep.2.2.2.2.2.2 p hne).trans hch, f2.trans h.events,
      f3.trans h.responses, hcl ev (by simp), hcl rs (by simp), f4, f5, f6, f7, f8, f9⟩
  · intro w0
    obtain ⟨f1, _, _, f4, f5, f6, f7, f8, f9⟩ := Close_fields_eq w0
    exact ⟨f1, f4, f5, f6, f7, f8, f9, (Close_contents w0).1⟩
  · intro w0 w1 hrun
    obtain ⟨_, f2, f3, _⟩ := Close_fields_eq w0
    rw [hrun] at f2 f3
    simp only [Res.world] at f2 f3
    obtain ⟨g1, g2⟩ := Close_returns_closed w0 w1 hrun
    refine ⟨fun ho => ?_, g2⟩
    rw [f2, f3]
    exact ⟨rfl, rfl, (g1 ho).1, (g1 ho).2⟩

/-- Instance of C24: the sample client, whose `PingTimeoutChannel` is channel
    0, open and empty. -/
theorem Close_spares_PingTimeoutChannel_witness :
    OpenClient sampleWorld 5 3 6 1 2 4 0 ∧
    ∃ w1, Close sampleWorld = .ok () w1 ∧
      w1.wsc.PingTimeoutChannel = some 0 ∧
      w1.chans[0]? = some { cap := 1, buf := [], closed := false } ∧
      w1.wsc.EventChannel = some 1 ∧ w1.wsc.ResponseChannel = some 2 ∧
      chanClosed (some 1) w1 = true ∧ chanClosed (some 2) w1 = true ∧
      w1.wsc.Sequence = sampleWorld.wsc.Sequence ∧ w1.wsc.AuthToken = sampleWorld.wsc.AuthToken ∧
      w1.wsc.Url = sampleWorld.wsc.Url ∧ w1.wsc.ApiUrl = sampleWorld.wsc.ApiUrl ∧
      w1.wsc.ConnectUrl = sampleWorld.wsc.ConnectUrl ∧
      w1.wsc.ListenError = sampleWorld.wsc.ListenError :=
  ⟨sampleWorld_open,
    (Close_spares_PingTimeoutChannel sampleWorld 5 3 6 1 2 4 0 0
      { cap := 1, buf := [], closed := false } sampleWorld_open rfl (by decide) (by decide)).1⟩

/-- C24 fails as stated, for every client state: on the sample client after
    a failed `ConnectWithDialer` (`Conn` is nil, line 117) `Close` panics in
    `wsc.Conn.Close()` (line 165) after closing `quitWriterChan` and
    `writeChan` only, so `EventChannel` and `ResponseChannel` are still open
    after it; `PingTimeoutChannel` is untouched here too. -/
theorem Close_spares_PingTimeoutChannel_counterexample :
    lostConnWorld = (ConnectWithDialer sampleConsts failDialer sampleWorld).world ∧
    lostConnWorld.wsc.closeOnce = false ∧
    Close lostConnWorld = .panic .nilDeref (Close lostConnWorld).world ∧
    (Close lostConnWorld).world.wsc.EventChannel = some 1 ∧
    (Close lostConnWorld).world.wsc.ResponseChannel = some 2 ∧
    chanClosed (some 1) (Close lostConnWorld).world = false ∧
    chanClosed (some 2) (Close lostConnWorld).world = false ∧
    chanClosed (some 5) (Close lostConnWorld).world = true ∧
    chanClosed (some 3) (Close lostConnWorld).world = true ∧
    (Close lostConnWorld).world.wsc.PingTimeoutChannel = some 0 ∧
    (Close lostConnWorld).world.chans[0]? = some { cap := 1, buf := [], closed := false } := by
  refine ⟨rfl, by decide!, by decide!, by decide!, by decide!, by decide!, by decide!,
    by decide!, by decide!, by decide!, by decide!⟩

end ClaimC24

end WebSocket
